import Mathlib

/-!
# VibeMCP: protocol engine and transport adapters

A shallow embedding of `src/adapters/mcp-protocol.js`, `src/transport/*.js`,
`src/utils/security.js`, `src/core/config.js` and the configuration route of
`src/core/server.js`.

JavaScript values are the inductive `JsVal`; a function that can throw returns
`Except String α`, the string being the `message` of the thrown `Error`; code that
mutates the session threads an explicit state `St`. The configuration manager, whose
objects are shared by reference, works on an object store (`Store`).
-/

namespace VibeMCP

/-! ## JavaScript values -/

/-- JavaScript values reaching the engine: JSON data (numbers restricted to integers),
`undefined`, and `native k` for a built-in member inherited from `Object.prototype`. A
number `num n` is a double-precision number, as every integer up to `2 ^ 53` in magnitude
is; a larger integer that is not one stands for the double nearest to it, which is what
`JSON.parse` and a numeric literal make of its digits. -/
inductive JsVal where
  | undefined : JsVal
  | null : JsVal
  | bool (b : Bool) : JsVal
  | num (n : Int) : JsVal
  | str (s : String) : JsVal
  | arr (items : List JsVal) : JsVal
  | obj (fields : List (String × JsVal)) : JsVal
  | native (name : String) : JsVal

instance : Inhabited JsVal := ⟨JsVal.undefined⟩

/-- Truthiness (`ToBoolean`): `undefined`, `null`, `false`, `0` and the empty string are falsy. -/
def JsVal.truthy : JsVal → Bool
  | .undefined => false
  | .null => false
  | .bool b => b
  | .num n => n != 0
  | .str s => s != ""
  | .arr _ => true
  | .obj _ => true
  | .native _ => true

/-- The values on which a property read throws a `TypeError`. -/
def JsVal.isNullish : JsVal → Bool
  | .undefined => true
  | .null => true
  | _ => false

/-- Names of the members every ordinary object inherits from `Object.prototype`. -/
def objectPrototypeKeys : List String :=
  ["constructor", "__proto__", "hasOwnProperty", "isPrototypeOf", "propertyIsEnumerable",
   "toLocaleString", "toString", "valueOf", "__defineGetter__", "__defineSetter__",
   "__lookupGetter__", "__lookupSetter__"]

/-- A property that is not an own property: found on `Object.prototype` or `undefined`. -/
def inherited (k : String) : JsVal :=
  if objectPrototypeKeys.contains k then .native k else .undefined

/-- Number of UTF-16 code units of a string (the `length` of a JavaScript string). -/
def utf16Length (s : String) : Nat :=
  (s.toList.map (fun c => if c.val < 0x10000 then 1 else 2)).sum

/-- Property read `v[k]` on a value that is not `undefined` or `null`: own properties first,
then the prototype chain. Besides the members of `Object.prototype`, only `length` is
modelled for arrays and strings and nothing for native members: the embedded code reads
from the values it handles no index and no member specific to arrays, strings or functions. -/
def JsVal.get (v : JsVal) (k : String) : JsVal :=
  match v with
  | .obj fs =>
      match fs.lookup k with
      | some x => x
      | none => inherited k
  | .arr xs => if k = "length" then .num xs.length else inherited k
  | .str s => if k = "length" then .num (utf16Length s) else inherited k
  | _ => inherited k

/-- Whether `k` is an own property of the object `v`. -/
def JsVal.hasOwn (v : JsVal) (k : String) : Bool :=
  match v with
  | .obj fs => (fs.lookup k).isSome
  | _ => false

/-- Assignment of an own data property in a field list: an existing key keeps its place. -/
def setField (k : String) (v : JsVal) : List (String × JsVal) → List (String × JsVal)
  | [] => [(k, v)]
  | (k2, v2) :: r => if k2 = k then (k, v) :: r else (k2, v2) :: setField k v r

/-- Assignment `o.k = v` on an object. -/
def JsVal.set (o : JsVal) (k : String) (v : JsVal) : JsVal :=
  match o with
  | .obj fs => .obj (setField k v fs)
  | other => other

/-- Source text that V8 prints for the inherited member `k`: `constructor` is the function
`Object`, `__proto__` is the prototype object itself, the others are functions named `k`. -/
def nativeText (k : String) : String :=
  if k = "__proto__" then "[object Object]"
  else if k = "constructor" then "function Object() \x7b [native code] \x7d"
  else "function " ++ k ++ "() \x7b [native code] \x7d"

/-- The double-precision number nearest to a natural number above `2 ^ 53`, given by its
mantissa `m`, with `2 ^ 52 ≤ m < 2 ^ 53`, and its exponent `e`: the number is `m * 2 ^ e`. A
tie goes to the even mantissa. -/
def nearestDouble (a : Nat) : Nat × Nat :=
  let e := (Nat.toDigits 2 a).length - 53
  let m0 := a / 2 ^ e
  let r := a % 2 ^ e
  let half := 2 ^ (e - 1)
  let m := if r > half || (r == half && m0 % 2 == 1) then m0 + 1 else m0
  if m == 2 ^ 53 then (2 ^ 52, e + 1) else (m, e)

/-- Whether the decimal `v` converts to the double `m * 2 ^ e`: it lies between the middles
towards the two neighbouring doubles, the middles included when `m` is even. -/
def roundsTo (m e v : Nat) : Bool :=
  let low := 4 * (m * 2 ^ e) - (if m = 2 ^ 52 then 2 ^ e else 2 ^ (e + 1))
  let high := 4 * (m * 2 ^ e) + 2 ^ (e + 1)
  if m % 2 = 0 then decide (low ≤ 4 * v) && decide (4 * v ≤ high)
  else decide (low < 4 * v) && decide (4 * v < high)

/-- The decimal with the fewest significant digits that converts to the double `m * 2 ^ e`,
the nearest to it when there are several, the one with the even last digit when two are
equally near. Multiples of `10 ^ p` are tried, then of smaller powers of ten. -/
def shortestDecimal (m e : Nat) : Nat → Nat
  | 0 => m * 2 ^ e
  | p + 1 =>
      let x := m * 2 ^ e
      let below := x / 10 ^ (p + 1) * 10 ^ (p + 1)
      let above := below + 10 ^ (p + 1)
      match roundsTo m e below, roundsTo m e above with
      | true, true =>
          if x - below < above - x then below
          else if above - x < x - below then above
          else if x / 10 ^ (p + 1) % 2 = 0 then below else above
      | true, false => below
      | false, true => above
      | false, false => shortestDecimal m e p

/-- The text that `Number.prototype.toString` builds from the decimal digits of an integer:
all the digits below `10 ^ 21`, else the digits before the trailing zeros, with a point
after the first, and the exponent. -/
def decimalText (v : Nat) : String :=
  if v < 10 ^ 21 then toString v
  else
    let digits := (toString v).toList
    match (digits.reverse.dropWhile (fun c => c == '0')).reverse with
    | [] => "0"
    | first :: rest =>
        String.mk (first :: (if rest.isEmpty then [] else '.' :: rest)) ++ "e+" ++
          toString (digits.length - 1)

/-- String conversion of a number (`Number::toString`): up to `2 ^ 53` in magnitude the
decimal digits of the integer; above, the shortest decimal that converts to the same double,
in exponent form from `10 ^ 21` on, and `Infinity` beyond the largest double. -/
def numberText (n : Int) : String :=
  if n.natAbs ≤ 2 ^ 53 then toString n
  else
    match nearestDouble n.natAbs with
    | (m, e) =>
        (if n < 0 then "-" else "") ++
          (if e > 971 then "Infinity"
           else decimalText (shortestDecimal m e ((toString (m * 2 ^ e)).length - 1)))

/-- Message of the `TypeError` thrown when an object cannot be converted to a primitive. -/
def cannotConvert : String := "Cannot convert object to primitive value"

mutual
/-- String conversion (`ToString`), as performed by a template literal. An object converts
through its `toString` member: a JSON object with no own `toString` key inherits
`Object.prototype.toString`; one with an own `toString` key holds a value that is not
callable, `valueOf` does not yield a primitive either, and the conversion throws. -/
def toStr : JsVal → Except String String
  | .undefined => .ok "undefined"
  | .null => .ok "null"
  | .bool b => .ok (if b then "true" else "false")
  | .num n => .ok (numberText n)
  | .str s => .ok s
  | .arr xs => joinStr xs
  | .obj fs => if (fs.lookup "toString").isSome then .error cannotConvert else .ok "[object Object]"
  | .native k => .ok (nativeText k)
/-- Conversion `Array.prototype.join(",")` used by the string conversion of an array. -/
def joinStr : List JsVal → Except String String
  | [] => .ok ""
  | [x] => elemStr x
  | x :: y :: r =>
      match elemStr x with
      | .error e => .error e
      | .ok a =>
          match joinStr (y :: r) with
          | .error e => .error e
          | .ok b => .ok (a ++ "," ++ b)
/-- String of one array element inside `join`: `undefined` and `null` give the empty string. -/
def elemStr : JsVal → Except String String
  | .undefined => .ok ""
  | .null => .ok ""
  | .bool b => .ok (if b then "true" else "false")
  | .num n => .ok (numberText n)
  | .str s => .ok s
  | .arr xs => joinStr xs
  | .obj fs => if (fs.lookup "toString").isSome then .error cannotConvert else .ok "[object Object]"
  | .native k => .ok (nativeText k)
end

/-! ## Error envelopes (`_createErrorResponse`) -/

/-- Method `_createErrorResponse(code, message, callId = null)`. An omitted `callId` is
`undefined`, which the default parameter turns into `null`. -/
def _createErrorResponse (code message callId : JsVal) : JsVal :=
  let callId := match callId with
    | .undefined => JsVal.null
    | v => v
  let response := JsVal.obj [("type", .str "error"), ("error", .obj [("code", code), ("message", message)])]
  if callId.truthy then response.set "call_id" callId else response

/-! ## Platform, session and engine state -/

/-- The fields of a WHATWG `URL` object that the engine reads. -/
structure URL where
  protocol : String
  pathname : String
  href : String

/-- Services of the JavaScript runtime used by the engine: `new URL(s)` (failing with
the message of its `TypeError`), `new Date().toISOString()`, the same one hour earlier,
`JSON.stringify(v, null, indent)`, `JSON.parse` (`none` when it throws), and the identifier
generator, given as the identifier it yields on its n-th use. -/
structure Platform where
  parseURL : String → Except String URL
  now : String
  anHourAgo : String
  jsonStringify : JsVal → Nat → String
  jsonParse : String → Option JsVal
  newId : Nat → String

/-- Modelled from the spec: the states of a session (§3), set by code missing from the
source. -/
inductive SessionState where
  | NEGOTIATING : SessionState
  | READY : SessionState
  | CLOSED : SessionState
  deriving DecidableEq

/-- Modelled from the spec: the session object built by `createSession`, whose code is
missing from the source (spec §3: `id`, `state`, `negotiatedCapabilities`, and `context`, a
mutable key/value object). -/
structure Session where
  id : String
  state : SessionState
  negotiatedCapabilities : JsVal
  context : List (String × JsVal)

/-- The fields of the `MCPAdapter` instance read by its methods: `this.config` and
`this.capabilities` (the Capability Registry, built by the constructor). -/
structure MCPAdapter where
  config : JsVal
  capabilities : JsVal

/-- State threaded through a handler: the adapter, the session passed to it, and the
adapter methods entered so far, oldest first (a record kept by the model, so that
statements can say which methods a call runs). -/
structure St where
  self : MCPAdapter
  session : Session
  invoked : List String

/-- Records that a method of the adapter was entered. -/
def St.enter (st : St) (method : String) : St :=
  { st with invoked := st.invoked ++ [method] }

/-- Assignment `session.context.k = v`. -/
def St.setContext (st : St) (k : String) (v : JsVal) : St :=
  { st with session := { st.session with context := setField k v st.session.context } }

/-- Read `session.context.k`. -/
def St.context (st : St) (k : String) : JsVal :=
  (JsVal.obj st.session.context).get k

/-- Outcome of a method: the returned value or the message of the thrown error, and the state. -/
abbrev Out := Except String JsVal × St

/-- Sequencing: a thrown error leaves through the continuation untouched. -/
def andThen {α : Type} (e : Except String α) (st : St) (k : α → Out) : Out :=
  match e with
  | .error m => (.error m, st)
  | .ok a => k a

/-- The word V8 prints for a value on which a property read fails. -/
def nullishName : JsVal → String
  | .null => "null"
  | _ => "undefined"

/-- Message of the `TypeError` of `const \x7b prop, ... \x7d = src` on `undefined` or `null`. -/
def destructureError (prop src : String) (v : JsVal) : String :=
  "Cannot destructure property \x27" ++ prop ++ "\x27 of \x27" ++ src ++ "\x27 as it is " ++ nullishName v ++ "."

/-- Member read `v.k`, throwing a `TypeError` on `undefined` and `null`. -/
def member (v : JsVal) (k : String) : Except String JsVal :=
  if v.isNullish then
    .error ("Cannot read properties of " ++ nullishName v ++ " (reading \x27" ++ k ++ "\x27)")
  else .ok (v.get k)

/-- Operator `a || b` on values. -/
def JsVal.or (a b : JsVal) : JsVal := if a.truthy then a else b

/-- Removal of an own property from a field list (`delete o.k`). -/
def deleteField (k : String) (fs : List (String × JsVal)) : List (String × JsVal) :=
  fs.filter (fun kv => kv.1 != k)

/-- Object spread `\x7b ...v \x7d` of an object; `undefined`, `null`, numbers and booleans spread
to nothing. Arrays and strings, which spread to their indices, are not modelled: the value
spread by the code, `this.config`, is the object returned by `ConfigManager.load`. -/
def spread : JsVal → JsVal
  | .obj fs => .obj fs
  | _ => .obj []

/-! ## Tool handlers -/

/-- Method `_executeManageProject(args, session)`. -/
def _executeManageProject (P : Platform) (args : JsVal) (st0 : St) : Out :=
  let st := st0.enter "_executeManageProject"
  if args.isNullish then (.error (destructureError "action" "args" args), st) else
  let action := args.get "action"
  let name := args.get "name"
  let description := args.get "description"
  match action with
  | .str "create" =>
      andThen (toStr name) st fun _ =>
      (.ok (.obj [("success", .bool true),
                  ("project", .obj [("name", name), ("description", description),
                                    ("createdAt", .str P.now)])]), st)
  | .str "list" =>
      (.ok (.obj [("success", .bool true),
                  ("projects", .arr [.obj [("name", .str "exemple-projet"),
                                           ("description", .str "Un projet d\x27exemple"),
                                           ("createdAt", .str P.now)]])]), st)
  | .str "switch" =>
      andThen (toStr name) st fun nameS =>
      (.ok (.obj [("success", .bool true),
                  ("message", .str ("Projet actif changé pour " ++ nameS))]),
       st.setContext "currentProject" name)
  | .str "delete" =>
      andThen (toStr name) st fun nameS =>
      (.ok (.obj [("success", .bool true),
                  ("message", .str ("Projet " ++ nameS ++ " supprimé"))]), st)
  | _ =>
      andThen (toStr action) st fun a =>
      (.error ("Action de projet non reconnue: " ++ a), st)

/-- Expression `content ? content.length : 0` of `_executeManageFile`. -/
def contentSize (content : JsVal) : JsVal :=
  if content.truthy then content.get "length" else .num 0

/-- Expression `path ? (path converted to a string, then suffix) : whole` of the `list` action. -/
def listedPath (path : JsVal) (suffix whole : String) : Except String JsVal :=
  if path.truthy then
    match toStr path with
    | .error m => .error m
    | .ok p => .ok (.str (p ++ suffix))
  else .ok (.str whole)

/-- Method `_executeManageFile(args, session)`. -/
def _executeManageFile (P : Platform) (args : JsVal) (st0 : St) : Out :=
  let st := st0.enter "_executeManageFile"
  if args.isNullish then (.error (destructureError "action" "args" args), st) else
  let action := args.get "action"
  let path := args.get "path"
  let content := args.get "content"
  let startLine := args.get "startLine"
  let endLine := args.get "endLine"
  if !(st.context "currentProject").truthy then (.error "Aucun projet sélectionné", st) else
  match action with
  | .str "create" =>
      andThen (toStr path) st fun _ =>
      (.ok (.obj [("success", .bool true),
                  ("file", .obj [("path", path), ("size", contentSize content),
                                 ("createdAt", .str P.now)])]), st)
  | .str "read" =>
      andThen (toStr path) st fun _ =>
      (.ok (.obj [("success", .bool true),
                  ("file", .obj [("path", path), ("content", .str "Contenu simulé du fichier"),
                                 ("lastModified", .str P.now)])]), st)
  | .str "update" =>
      let logged : Except String String :=
        match startLine, endLine with
        | .undefined, _ => toStr path
        | _, .undefined => toStr path
        | _, _ =>
            match toStr path with
            | .error m => .error m
            | .ok p =>
                match toStr startLine with
                | .error m => .error m
                | .ok a =>
                    match toStr endLine with
                    | .error m => .error m
                    | .ok b => .ok (p ++ " (lignes " ++ a ++ "-" ++ b ++ ")")
      andThen logged st fun _ =>
      (.ok (.obj [("success", .bool true),
                  ("file", .obj [("path", path), ("size", contentSize content),
                                 ("lastModified", .str P.now)])]), st)
  | .str "delete" =>
      andThen (toStr path) st fun p =>
      (.ok (.obj [("success", .bool true),
                  ("message", .str ("Fichier " ++ p ++ " supprimé"))]), st)
  | .str "list" =>
      andThen (toStr (path.or (.str "/"))) st fun _ =>
      andThen (listedPath path "/exemple.js" "exemple.js") st fun p1 =>
      andThen (listedPath path "/dossier" "dossier") st fun p2 =>
      (.ok (.obj [("success", .bool true),
                  ("files", .arr [.obj [("name", .str "exemple.js"), ("path", p1),
                                        ("type", .str "file"), ("size", .num 1024),
                                        ("lastModified", .str P.now)],
                                  .obj [("name", .str "dossier"), ("path", p2),
                                        ("type", .str "directory"),
                                        ("lastModified", .str P.now)]])]), st)
  | _ =>
      andThen (toStr action) st fun a =>
      (.error ("Action de fichier non reconnue: " ++ a), st)

/-- Method `_executeCommand(args, session)`. -/
def _executeCommand (args : JsVal) (st0 : St) : Out :=
  let st := st0.enter "_executeCommand"
  if args.isNullish then (.error (destructureError "command" "args" args), st) else
  let command := args.get "command"
  let workingDir := args.get "workingDir"
  if !(st.context "currentProject").truthy then (.error "Aucun projet sélectionné", st) else
  andThen (toStr command) st fun c =>
  (.ok (.obj [("success", .bool true), ("command", command),
              ("workingDir", (workingDir.or (st.context "workingDirectory")).or (.str "/")),
              ("output", .str ("Sortie simulée pour la commande: " ++ c)),
              ("exitCode", .num 0)]), st)

/-- Expression `provider || this.config.tunnel.provider || \x27ngrok\x27`; the configuration is
read only when `provider` is falsy. -/
def tunnelProviderOf (config provider : JsVal) : Except String JsVal :=
  if provider.truthy then .ok provider else
  match member config "tunnel" with
  | .error m => .error m
  | .ok tunnel =>
      match member tunnel "provider" with
      | .error m => .error m
      | .ok p => .ok (p.or (.str "ngrok"))

/-- Method `_executeManageTunnel(args, session)`. -/
def _executeManageTunnel (P : Platform) (args : JsVal) (st0 : St) : Out :=
  let st := st0.enter "_executeManageTunnel"
  if args.isNullish then (.error (destructureError "action" "args" args), st) else
  let action := args.get "action"
  let provider := args.get "provider"
  match action with
  | .str "start" =>
      andThen (tunnelProviderOf st.self.config provider) st fun tunnelProvider =>
      andThen (toStr tunnelProvider) st fun _ =>
      let host := match tunnelProvider with
        | .str "ngrok" => "random-id.ngrok.io"
        | _ => "your-tunnel.trycloudflare.com"
      (.ok (.obj [("success", .bool true),
                  ("tunnel", .obj [("provider", tunnelProvider),
                                   ("url", .str ("https://" ++ host)),
                                   ("startedAt", .str P.now)])]), st)
  | .str "stop" =>
      (.ok (.obj [("success", .bool true), ("message", .str "Tunnel arrêté")]), st)
  | .str "status" =>
      andThen (member st.self.config "tunnel") st fun tunnel =>
      andThen (member tunnel "enabled") st fun isRunning =>
      if isRunning.truthy then
        (.ok (.obj [("success", .bool true), ("status", .str "running"),
                    ("tunnel", .obj [("provider", tunnel.get "provider"),
                                     ("url", .str "https://exemple-tunnel.com"),
                                     ("startedAt", .str P.anHourAgo)])]), st)
      else
        (.ok (.obj [("success", .bool true), ("status", .str "stopped"),
                    ("tunnel", .null)]), st)
  | _ =>
      andThen (toStr action) st fun a =>
      (.error ("Action de tunnel non reconnue: " ++ a), st)

/-- The statements `const filteredConfig = \x7b ...this.config \x7d; if (filteredConfig.security &&
filteredConfig.security.tokens) delete filteredConfig.security.tokens`. The copy is shallow:
`security` is shared with `this.config`, so the deletion shows in both. -/
def filterConfig (config : JsVal) : JsVal :=
  match spread config with
  | .obj fs =>
      match fs.lookup "security" with
      | some (.obj sec) =>
          if ((JsVal.obj sec).get "tokens").truthy then
            .obj (setField "security" (.obj (deleteField "tokens" sec)) fs)
          else .obj fs
      | _ => .obj fs
  | other => other

/-- The configuration `this.config` after `filterConfig` ran on a shallow copy of it. -/
def configAfterFilter (config : JsVal) : JsVal :=
  match config with
  | .obj _ => filterConfig config
  | other => other

/-- Method `_executeManageConfig(args, session)`. -/
def _executeManageConfig (args : JsVal) (st0 : St) : Out :=
  let st := st0.enter "_executeManageConfig"
  if args.isNullish then (.error (destructureError "action" "args" args), st) else
  let action := args.get "action"
  let key := args.get "key"
  let value := args.get "value"
  match action with
  | .str "get" =>
      if key.truthy then
        andThen (toStr key) st fun _ =>
        (.ok (.obj [("success", .bool true), ("key", key),
                    ("value", .str "valeur simulée")]), st)
      else
        (.ok (.obj [("success", .bool true), ("config", filterConfig st.self.config)]),
         { st with self := { st.self with config := configAfterFilter st.self.config } })
  | .str "set" =>
      if !key.truthy then (.error "Clé de configuration requise", st) else
      andThen (toStr key) st fun _ =>
      andThen (toStr value) st fun _ =>
      (.ok (.obj [("success", .bool true), ("key", key), ("newValue", value)]), st)
  | .str "reset" =>
      if key.truthy then
        andThen (toStr key) st fun k =>
        (.ok (.obj [("success", .bool true),
                    ("message", .str ("Configuration " ++ k ++ " réinitialisée"))]), st)
      else
        (.ok (.obj [("success", .bool true),
                    ("message", .str "Toutes les configurations réinitialisées")]), st)
  | _ =>
      andThen (toStr action) st fun a =>
      (.error ("Action de configuration non reconnue: " ++ a), st)

/-- Method `_executeToolCall(toolName, args, session)`. -/
def _executeToolCall (P : Platform) (toolName args : JsVal) (st0 : St) : Out :=
  let st := st0.enter "_executeToolCall"
  match toolName with
  | .str "manage_project" => _executeManageProject P args st
  | .str "manage_file" => _executeManageFile P args st
  | .str "exec_command" => _executeCommand args st
  | .str "manage_tunnel" => _executeManageTunnel P args st
  | .str "manage_config" => _executeManageConfig args st
  | _ =>
      andThen (toStr toolName) st fun t =>
      (.error ("Outil non implémenté: " ++ t), st)

/-! ## Resource handlers -/

/-- Removal of the first occurrence of a character (`s.replace(c, \x27\x27)` on characters). -/
def removeFirst (c : Char) : List Char → List Char
  | [] => []
  | x :: r => if x = c then r else x :: removeFirst c r

/-- Expression `uri.protocol.replace(\x27:\x27, \x27\x27)`. -/
def protocolOf (uri : URL) : String :=
  String.mk (removeFirst ':' uri.protocol.toList)

/-- Method `split(sep)` on characters: the pieces between the occurrences of the separator. -/
def splitChars (sep : Char) : List Char → List (List Char)
  | [] => [[]]
  | x :: r =>
      if x = sep then [] :: splitChars sep r
      else
        match splitChars sep r with
        | [] => [[x]]
        | h :: t => (x :: h) :: t

/-- Expression `uri.pathname.split(\x27/\x27).filter(part => part)`: the non-empty segments. -/
def pathParts (pathname : String) : List String :=
  ((splitChars '/' pathname.toList).filter (fun part => !part.isEmpty)).map String.mk

/-- An element of an array of strings that may be missing (`parts[i]`). -/
def optStr : Option String → JsVal
  | some s => .str s
  | none => .undefined

/-- String conversion of such an element in a template literal. -/
def optShow : Option String → String
  | some s => s
  | none => "undefined"

/-- Method `_fetchProjectResource(uri, session)`. -/
def _fetchProjectResource (uri : URL) (st0 : St) : Out :=
  let st := st0.enter "_fetchProjectResource"
  let parts := pathParts uri.pathname
  let projectName := parts.head?
  let filePath := String.intercalate "/" (parts.drop 1)
  (.ok (.obj [("uri", .str uri.href),
              ("mime_type", .str "text/plain"),
              ("title", if filePath != "" then
                          optStr (((splitChars '/' filePath.toList).getLast?).map String.mk)
                        else optStr projectName),
              ("content", .str ("Contenu simulé pour " ++
                          (if filePath != "" then filePath else optShow projectName)))]), st)

/-- Method `_fetchLogsResource(uri, session)`. -/
def _fetchLogsResource (uri : URL) (st0 : St) : Out :=
  let st := st0.enter "_fetchLogsResource"
  let parts := pathParts uri.pathname
  let service := (parts.get? 0).getD "server"
  let level := (parts.get? 1).getD "info"
  (.ok (.obj [("uri", .str uri.href),
              ("mime_type", .str "text/plain"),
              ("title", .str ("Logs " ++ service ++ " (" ++ level ++ ")")),
              ("content", .str ("Exemple de logs pour " ++ service ++ " au niveau " ++ level ++ ":\n" ++
                                "[2025-05-12 10:15:30] [" ++ level ++ "] Message de log 1\n" ++
                                "[2025-05-12 10:15:35] [" ++ level ++ "] Message de log 2\n"))]), st)

/-- Method `_fetchConfigResource(uri, session)`. -/
def _fetchConfigResource (P : Platform) (uri : URL) (st0 : St) : Out :=
  let st := st0.enter "_fetchConfigResource"
  let parts := pathParts uri.pathname
  let section_ := parts.head?
  let key := String.intercalate "/" (parts.drop 1)
  (.ok (.obj [("uri", .str uri.href),
              ("mime_type", .str "application/json"),
              ("title", .str ("Configuration " ++ optShow section_ ++
                              (if key != "" then "/" ++ key else ""))),
              ("content", .str (P.jsonStringify
                  (.obj [("section", optStr section_),
                         ("key", if key != "" then .str key else .null),
                         ("value", .str "Valeur de configuration simulée")]) 2))]), st)

/-- Method `_fetchResource(uri, session)`. -/
def _fetchResource (P : Platform) (uri : URL) (st0 : St) : Out :=
  let st := st0.enter "_fetchResource"
  let protocol := protocolOf uri
  if protocol = "project" then _fetchProjectResource uri st
  else if protocol = "logs" then _fetchLogsResource uri st
  else if protocol = "config" then _fetchConfigResource P uri st
  else (.error ("Protocole de ressource non implémenté: " ++ protocol), st)

/-- The `try` block of `_handleResourceRequest`. -/
def resourceRequestBody (P : Platform) (resource_uri call_id : JsVal) (st : St) : Out :=
  andThen (toStr resource_uri) st fun text =>
  andThen (P.parseURL text) st fun uri =>
  let protocol := protocolOf uri
  andThen (member st.self.capabilities "resources") st fun resources =>
  andThen (member resources protocol) st fun entry =>
  if !entry.truthy then
    (.ok (_createErrorResponse (.str "unknown_resource_protocol")
            (.str ("Protocole de ressource inconnu: " ++ protocol)) call_id), st)
  else
    match _fetchResource P uri st with
    | (.error m, st1) => (.error m, st1)
    | (.ok resource, st1) =>
        (.ok (.obj [("type", .str "resource_response"), ("call_id", call_id),
                    ("status", .str "success"), ("resources", .arr [resource])]), st1)

/-- Method `_handleResourceRequest(message, session)`. The two log statements convert
`resource_uri` to a string: the first stands before the `try`, the second inside the
`catch`, so a failing conversion leaves the method as a thrown error. -/
def _handleResourceRequest (P : Platform) (message : JsVal) (st0 : St) : Out :=
  let st := st0.enter "_handleResourceRequest"
  if message.isNullish then (.error (destructureError "resource_uri" "message" message), st) else
  let resource_uri := message.get "resource_uri"
  let call_id := message.get "call_id"
  andThen (toStr resource_uri) st fun _ =>
  match resourceRequestBody P resource_uri call_id st with
  | (.ok response, st1) => (.ok response, st1)
  | (.error m, st1) =>
      andThen (toStr resource_uri) st1 fun _ =>
      (.ok (_createErrorResponse (.str "resource_fetch_error") (.str m) call_id), st1)

/-! ## Prompt handler -/

/-- Method `_handlePromptRequest(message, session)`. The registry is indexed by
`prompt_name`, which converts the name to a property key. -/
def _handlePromptRequest (message : JsVal) (st0 : St) : Out :=
  let st := st0.enter "_handlePromptRequest"
  if message.isNullish then (.error (destructureError "prompt_name" "message" message), st) else
  let prompt_name := message.get "prompt_name"
  let call_id := message.get "call_id"
  andThen (toStr prompt_name) st fun name =>
  andThen (member st.self.capabilities "prompts") st fun prompts =>
  andThen (member prompts name) st fun prompt =>
  if !prompt.truthy then
    (.ok (_createErrorResponse (.str "unknown_prompt")
            (.str ("Prompt inconnu: " ++ name)) call_id), st)
  else
    (.ok (.obj [("type", .str "prompt_response"), ("call_id", call_id),
                ("status", .str "success"),
                ("prompt", .obj [("title", prompt.get "title"),
                                 ("content", prompt.get "prompt")])]), st)

/-! ## Tool calls, session store and dispatch -/

/-- Modelled from the spec: the error envelope built by the parts of the engine that are
missing from the source (§3: type `error`, an `error` object with `code` and `message`,
and the `call_id` of the request echoed when present on it). -/
def specErrorEnvelope (code message : String) (call_id : JsVal) : JsVal :=
  match call_id with
  | .undefined =>
      .obj [("type", .str "error"), ("error", .obj [("code", .str code), ("message", .str message)])]
  | present =>
      .obj [("type", .str "error"), ("error", .obj [("code", .str code), ("message", .str message)]),
            ("call_id", present)]

/-- The `catch (error)` block that ends `_handleToolCall` (the lines of that method the
source holds): the log statement, then the `tool_execution_error` envelope. -/
def toolCallCatch (tool_name call_id : JsVal) (m : String) (st : St) : Out :=
  andThen (toStr tool_name) st fun _ =>
  (.ok (_createErrorResponse (.str "tool_execution_error") (.str m) call_id), st)

/-- Modelled from the spec: the head of the method `_handleToolCall(message, session)`,
missing from the source (§4.2: looks up `tool_name` in the negotiated capabilities, absent
gives `unknown_tool`; invokes the tool handler; success gives a `tool_response` wrapping the
result verbatim). The spec gives neither the message text of `unknown_tool` nor the name of
the result field. The method ends with the `catch` block of the source, `toolCallCatch`. -/
def _handleToolCall (P : Platform) (message : JsVal) (st0 : St) : Out :=
  let st := st0.enter "_handleToolCall"
  if message.isNullish then (.error (destructureError "tool_name" "message" message), st) else
  let tool_name := message.get "tool_name"
  let tool_args := message.get "tool_args"
  let call_id := message.get "call_id"
  let known := match tool_name with
    | .str name => (st.session.negotiatedCapabilities.get "tools").hasOwn name
    | _ => false
  if !known then
    (.ok (specErrorEnvelope "unknown_tool" "Outil inconnu" call_id), st)
  else
    match _executeToolCall P tool_name tool_args st with
    | (.ok result, st1) =>
        (.ok (.obj [("type", .str "tool_response"), ("call_id", call_id),
                    ("status", .str "success"), ("result", result)]), st1)
    | (.error m, st1) => toolCallCatch tool_name call_id m st1

/-- Modelled from the spec: the engine with its Session Store (§4.1), whose code is missing
from the source: the adapter, the stored sessions by identifier, the number of identifiers
issued, and the adapter methods entered so far. -/
structure Engine where
  self : MCPAdapter
  sessions : List (String × Session)
  issued : Nat
  invoked : List String

/-- Modelled from the spec: `get(id)` of the Session Store (§4.1), missing from the source. -/
def Engine.get (E : Engine) (id : String) : Option Session :=
  E.sessions.lookup id

/-- Modelled from the spec: `remove(id)` of the Session Store (§4.1), missing from the source. -/
def Engine.remove (E : Engine) (id : String) : Engine :=
  { E with sessions := E.sessions.filter (fun kv => kv.1 != id) }

/-- Modelled from the spec: `createSession()`, missing from the source (§4.1: `create()`
yields a session in state `NEGOTIATING` with a fresh identifier, and stores it). -/
def createSession (P : Platform) (E : Engine) : Session × Engine :=
  let session : Session :=
    { id := P.newId E.issued, state := .NEGOTIATING, negotiatedCapabilities := .undefined,
      context := [] }
  (session, { E with sessions := E.sessions ++ [(session.id, session)], issued := E.issued + 1 })

/-- Modelled from the spec: the Session Store (§3, sessions are owned by the store), after
a handler mutated the session object stored under `id`. -/
def putSession (id : String) (s : Session) : List (String × Session) → List (String × Session)
  | [] => []
  | (k, v) :: r => if k = id then (k, s) :: r else (k, v) :: putSession id s r

/-- Modelled from the spec: the call of a handler of the adapter by the missing
`handleMessage`, on the session stored under `id` (§2: the engine dispatches to the handler
family and returns its envelope). -/
def Engine.run (E : Engine) (id : String) (session : Session) (handler : St → Out) :
    Except String JsVal × Engine :=
  match handler { self := E.self, session := session, invoked := E.invoked } with
  | (r, st) =>
      (r, { E with self := st.self, sessions := putSession id st.session E.sessions,
                   invoked := st.invoked })

/-- Modelled from the spec: `_handleNegotiate`, missing from the source (§4.2: sets
`negotiatedCapabilities` to the full registry manifest, moves `NEGOTIATING` to `READY`,
leaves `READY` as it is, returns a `negotiate_response` with the manifest). The spec does
not name the field that carries the manifest. -/
def _handleNegotiate (_message : JsVal) (st0 : St) : Out :=
  let st := st0.enter "_handleNegotiate"
  let state := match st.session.state with
    | .NEGOTIATING => SessionState.READY
    | other => other
  (.ok (.obj [("type", .str "negotiate_response"), ("status", .str "success"),
              ("capabilities", st.self.capabilities)]),
   { st with session := { st.session with state := state,
                                          negotiatedCapabilities := st.self.capabilities } })

/-- Modelled from the spec: `handleMessage(message, sessionId)`, missing from the source
(§4.2). A string is decoded first; what does not decode, or has no known `type`, gives
`invalid_message`; the session must exist; `tool_call`, `resource_request` and
`prompt_request` give `session_not_negotiated` unless the session is `READY`, and are else
passed to the handler of their family. The spec gives no message texts and no code for
an unknown session identifier; `invalid_session` is used for it. -/
def handleMessage (P : Platform) (raw : JsVal) (sessionId : String) (E : Engine) :
    Except String JsVal × Engine :=
  let decoded : Option JsVal := match raw with
    | .str text => P.jsonParse text
    | v => some v
  match decoded with
  | none =>
      (.ok (specErrorEnvelope "invalid_message" "Message invalide" .undefined), E)
  | some message =>
      let call_id := if message.isNullish then JsVal.undefined else message.get "call_id"
      let type := if message.isNullish then JsVal.undefined else message.get "type"
      match E.get sessionId with
      | none =>
          (.ok (specErrorEnvelope "invalid_session" "Session inconnue" call_id), E)
      | some session =>
          let gated (handler : St → Out) : Except String JsVal × Engine :=
            if session.state = .READY then E.run sessionId session handler
            else
              (.ok (specErrorEnvelope "session_not_negotiated" "Session non négociée" call_id), E)
          match type with
          | .str "negotiate" => E.run sessionId session (_handleNegotiate message)
          | .str "tool_call" => gated (_handleToolCall P message)
          | .str "resource_request" => gated (_handleResourceRequest P message)
          | .str "prompt_request" => gated (_handlePromptRequest message)
          | _ =>
              (.ok (specErrorEnvelope "invalid_message" "Type de message inconnu" call_id), E)

/-! ## HTTP transport -/

/-- The operations of the protocol engine that a transport calls (`this.mcpProtocol`). -/
structure EngineOps (ε : Type) where
  createSession : ε → Session × ε
  handleMessage : JsVal → String → ε → Except String JsVal × ε

/-- The engine modelled from the spec, as seen by the transports. -/
def specEngine (P : Platform) : EngineOps Engine :=
  { createSession := createSession P, handleMessage := handleMessage P }

/-- State of `HttpTransport`: the keys of its `sessions` map (the transport never reads
the session objects it stores there) and `isRunning`. -/
structure HttpTransport where
  sessions : List String
  isRunning : Bool

/-- What a route reads from a request: the `x-mcp-session-id` header (`none` when absent)
and the parsed body `req.body`. -/
structure HttpRequest where
  sessionHeader : Option String
  body : JsVal

/-- What a route writes: status code, headers set by the route, JSON body. -/
structure HttpResponse where
  status : Nat
  headers : List (String × String)
  body : JsVal

/-- Effect of one request: the response, the transport and engine afterwards, and the
calls made to the engine method `handleMessage`, as (message, session id) pairs. -/
structure HttpOut (ε : Type) where
  response : HttpResponse
  transport : HttpTransport
  engine : ε
  calls : List (JsVal × String)

/-- The response `res.status(code).json(\x7b type: \x27error\x27, error: \x7b code, message \x7d \x7d)`. -/
def errorResponse (status : Nat) (code message : String) : HttpResponse :=
  { status := status, headers := [],
    body := .obj [("type", .str "error"),
                  ("error", .obj [("code", .str code), ("message", .str message)])] }

/-- The test `!sessionId || !this.sessions.has(sessionId)` of the three non-negotiate routes. -/
def invalidSession (T : HttpTransport) (header : Option String) : Bool :=
  match header with
  | none => true
  | some sessionId => sessionId == "" || !T.sessions.contains sessionId

/-- Common shape of the routes `POST /mcp/tool`, `/mcp/resource` and `/mcp/prompt`: session
check, then the message built from the body is handed to the engine; `failCode` is the code
of the 500 answer of the `catch` block. -/
def guardedRoute {ε : Type} (ops : EngineOps ε) (failCode : String)
    (build : JsVal → Except String JsVal) (T : HttpTransport) (req : HttpRequest) (E : ε) :
    HttpOut ε :=
  if invalidSession T req.sessionHeader then
    { response := errorResponse 401 "invalid_session" "Session invalide ou expirée",
      transport := T, engine := E, calls := [] }
  else
    let sessionId := req.sessionHeader.getD ""
    match build req.body with
    | .error m =>
        { response := errorResponse 500 failCode m, transport := T, engine := E, calls := [] }
    | .ok message =>
        match ops.handleMessage message sessionId E with
        | (.ok response, E1) =>
            { response := { status := 200, headers := [], body := response },
              transport := T, engine := E1, calls := [(message, sessionId)] }
        | (.error m, E1) =>
            { response := errorResponse 500 failCode m,
              transport := T, engine := E1, calls := [(message, sessionId)] }

/-- Message built by `POST /mcp/tool` from the request body. -/
def toolMessage (body : JsVal) : Except String JsVal :=
  match member body "tool_name" with
  | .error m => .error m
  | .ok tool_name =>
      .ok (.obj [("type", .str "tool_call"), ("tool_name", tool_name),
                 ("tool_args", body.get "tool_args"), ("call_id", body.get "call_id")])

/-- Message built by `POST /mcp/resource` from the request body. -/
def resourceMessage (body : JsVal) : Except String JsVal :=
  match member body "resource_uri" with
  | .error m => .error m
  | .ok resource_uri =>
      .ok (.obj [("type", .str "resource_request"), ("resource_uri", resource_uri),
                 ("call_id", body.get "call_id")])

/-- Message built by `POST /mcp/prompt` from the request body. -/
def promptMessage (body : JsVal) : Except String JsVal :=
  match member body "prompt_name" with
  | .error m => .error m
  | .ok prompt_name =>
      .ok (.obj [("type", .str "prompt_request"), ("prompt_name", prompt_name),
                 ("call_id", body.get "call_id")])

/-- The MCP routes registered by `_setupMcpRoutes` that carry a message. -/
inductive Route where
  | negotiate : Route
  | tool : Route
  | resource : Route
  | prompt : Route
  deriving DecidableEq

/-- Handler of `POST /mcp/negotiate`. -/
def negotiateRoute {ε : Type} (ops : EngineOps ε) (T : HttpTransport) (req : HttpRequest)
    (E : ε) : HttpOut ε :=
  let known := match req.sessionHeader with
    | some sessionId => sessionId != "" && T.sessions.contains sessionId
    | none => false
  let (sessionId, T1, E1) :=
    if known then (req.sessionHeader.getD "", T, E)
    else
      match ops.createSession E with
      | (session, E0) =>
          (session.id,
           { T with sessions := if T.sessions.contains session.id then T.sessions
                                else T.sessions ++ [session.id] }, E0)
  match member req.body "client_capabilities" with
  | .error m =>
      { response := errorResponse 500 "negotiate_error" m, transport := T1, engine := E1,
        calls := [] }
  | .ok caps =>
      let message := JsVal.obj [("type", .str "negotiate"),
                                ("client_capabilities", caps.or (.obj []))]
      match ops.handleMessage message sessionId E1 with
      | (.ok response, E2) =>
          { response := { status := 200, headers := [("X-MCP-Session-ID", sessionId)],
                          body := response },
            transport := T1, engine := E2, calls := [(message, sessionId)] }
      | (.error m, E2) =>
          { response := errorResponse 500 "negotiate_error" m,
            transport := T1, engine := E2, calls := [(message, sessionId)] }

/-- The handler that `_setupMcpRoutes` registers for each route. -/
def handleRoute {ε : Type} (ops : EngineOps ε) (route : Route) (T : HttpTransport)
    (req : HttpRequest) (E : ε) : HttpOut ε :=
  match route with
  | .negotiate => negotiateRoute ops T req E
  | .tool => guardedRoute ops "tool_call_error" toolMessage T req E
  | .resource => guardedRoute ops "resource_request_error" resourceMessage T req E
  | .prompt => guardedRoute ops "prompt_request_error" promptMessage T req E

/-! ## WebSocket transport -/

/-- Values for which `JSON.stringify` returns `undefined` instead of a text. -/
def stringifiesToUndefined : JsVal → Bool
  | .undefined => true
  | .native _ => true
  | _ => false

/-- What `ws.send(JSON.stringify(v))` or `console.log(JSON.stringify(v))` is given as text;
for a value that `JSON.stringify` maps to `undefined` the text is `fallback`. -/
def jsonText (P : Platform) (fallback : String) (v : JsVal) : String :=
  if stringifiesToUndefined v then fallback else P.jsonStringify v 0

/-- An error envelope written by a transport itself:
`\x7b type: \x27error\x27, error: \x7b code, message \x7d \x7d`. -/
def transportError (code message : String) : JsVal :=
  .obj [("type", .str "error"), ("error", .obj [("code", .str code), ("message", .str message)])]

/-- Message of the `TypeError` of `JSON.stringify(response).substring(...)` when
`JSON.stringify` returned `undefined`. -/
def substringOfUndefined : String :=
  "Cannot read properties of undefined (reading \x27substring\x27)"

/-- State of `WebSocketTransport`: the keys of its `sessions` map and `isRunning`. -/
structure WebSocketTransport where
  sessions : List String
  isRunning : Bool

/-- One connection, as captured by the closures of the `connection` handler: the constant
`sessionId` and the socket `ws`, given by the payloads sent on it so far, oldest first (an
empty payload stands for `ws.send(undefined)`). -/
structure WsConnection where
  sessionId : String
  sent : List String

/-- The first frame of a connection, `\x7b type: \x27session\x27, session_id \x7d`. -/
def sessionFrame (sessionId : String) : JsVal :=
  .obj [("type", .str "session"), ("session_id", .str sessionId)]

/-- The `connection` handler of `WebSocketTransport.start` up to the registration of the
socket handlers: a session is created, stored in the map of the transport under its
identifier, and announced on the socket. -/
def wsOpen {ε : Type} (ops : EngineOps ε) (P : Platform) (T : WebSocketTransport) (E : ε) :
    WsConnection × WebSocketTransport × ε :=
  match ops.createSession E with
  | (session, E1) =>
      ({ sessionId := session.id, sent := [P.jsonStringify (sessionFrame session.id) 0] },
       { T with sessions := if T.sessions.contains session.id then T.sessions
                            else T.sessions ++ [session.id] },
       E1)

/-- Effect of one inbound frame: the connection and the engine afterwards, and the calls
made to the engine method `handleMessage`. -/
structure WsOut (ε : Type) where
  conn : WsConnection
  engine : ε
  calls : List (JsVal × String)

/-- The `message` handler of a connection, for the payload `data`. -/
def wsMessage {ε : Type} (ops : EngineOps ε) (P : Platform) (conn : WsConnection)
    (data : String) (E : ε) : WsOut ε :=
  match P.jsonParse data with
  | none =>
      { conn := { conn with sent := conn.sent ++
            [P.jsonStringify (transportError "invalid_message" "Format de message invalide") 0] },
        engine := E, calls := [] }
  | some message =>
      match ops.handleMessage message conn.sessionId E with
      | (.ok response, E1) =>
          let sent := conn.sent ++ [jsonText P "" response]
          { conn := { conn with sent :=
                if stringifiesToUndefined response then
                  sent ++ [P.jsonStringify (transportError "websocket_error" substringOfUndefined) 0]
                else sent },
            engine := E1, calls := [(message, conn.sessionId)] }
      | (.error m, E1) =>
          { conn := { conn with sent := conn.sent ++
                [P.jsonStringify (transportError "websocket_error" m) 0] },
            engine := E1, calls := [(message, conn.sessionId)] }

/-- The `message` handler run on a sequence of inbound frames, in arrival order. -/
def wsMessages {ε : Type} (ops : EngineOps ε) (P : Platform) (conn : WsConnection)
    (frames : List String) (E : ε) : WsOut ε :=
  match frames with
  | [] => { conn := conn, engine := E, calls := [] }
  | data :: rest =>
      let first := wsMessage ops P conn data E
      let later := wsMessages ops P first.conn rest first.engine
      { later with calls := first.calls ++ later.calls }

/-- The `close` handler of a connection: `this.sessions.delete(sessionId)`. The handler
makes no call to the engine, which is returned as it was. -/
def wsClose {ε : Type} (T : WebSocketTransport) (conn : WsConnection) (E : ε) :
    WebSocketTransport × ε :=
  ({ T with sessions := T.sessions.filter (fun k => k != conn.sessionId) }, E)

/-! ## Stdio transport -/

/-- White space and line terminators, the characters that `String.prototype.trim` removes. -/
def jsWhiteSpace (c : Char) : Bool :=
  let n := c.toNat
  n = 0x09 || n = 0x0A || n = 0x0B || n = 0x0C || n = 0x0D || n = 0x20 || n = 0xA0 ||
  n = 0x1680 || (0x2000 ≤ n && n ≤ 0x200A) || n = 0x2028 || n = 0x2029 || n = 0x202F ||
  n = 0x205F || n = 0x3000 || n = 0xFEFF

/-- The test `!line.trim()`: the line is empty once trimmed. -/
def isBlank (line : String) : Bool :=
  line.toList.all jsWhiteSpace

/-- State of `StdioTransport` after `init`: the identifier of the one session created
there, and `isRunning`. -/
structure StdioTransport where
  sessionId : String
  isRunning : Bool

/-- Method `StdioTransport.init`, for what concerns the session:
`this.sessionId = this.mcpProtocol.createSession().id`. -/
def stdioInit {ε : Type} (ops : EngineOps ε) (E : ε) : StdioTransport × ε :=
  match ops.createSession E with
  | (session, E1) => ({ sessionId := session.id, isRunning := false }, E1)

/-- Effect of one input line: the arguments of the calls to `console.log`, one output
line each, the engine afterwards, and the calls made to `handleMessage`. -/
structure StdioOut (ε : Type) where
  written : List String
  engine : ε
  calls : List (JsVal × String)

/-- The `line` handler of `StdioTransport.start`. The transport is not modified. -/
def stdioLine {ε : Type} (ops : EngineOps ε) (P : Platform) (T : StdioTransport)
    (line : String) (E : ε) : StdioOut ε :=
  if isBlank line then { written := [], engine := E, calls := [] }
  else
    match ops.handleMessage (.str line) T.sessionId E with
    | (.ok response, E1) =>
        let written := [jsonText P "undefined" response]
        { written :=
            if stringifiesToUndefined response then
              written ++ [P.jsonStringify (transportError "transport_error" substringOfUndefined) 0]
            else written,
          engine := E1, calls := [(.str line, T.sessionId)] }
    | (.error m, E1) =>
        { written := [P.jsonStringify (transportError "transport_error" m) 0],
          engine := E1, calls := [(.str line, T.sessionId)] }

/-- The `line` handler run on a sequence of input lines, each handled to its end before
the next one is read. -/
def stdioLines {ε : Type} (ops : EngineOps ε) (P : Platform) (T : StdioTransport)
    (lines : List String) (E : ε) : StdioOut ε :=
  match lines with
  | [] => { written := [], engine := E, calls := [] }
  | line :: rest =>
      let first := stdioLine ops P T line E
      let later := stdioLines ops P T rest first.engine
      { written := first.written ++ later.written, engine := later.engine,
        calls := first.calls ++ later.calls }

/-! ## Security utilities (`src/utils/security.js`) -/

/-- UTF-8 bytes of one character. -/
def utf8Encode (c : Char) : List Nat :=
  let n := c.toNat
  if n < 0x80 then [n]
  else if n < 0x800 then [0xC0 + n / 64, 0x80 + n % 64]
  else if n < 0x10000 then [0xE0 + n / 4096, 0x80 + n / 64 % 64, 0x80 + n % 64]
  else [0xF0 + n / 262144, 0x80 + n / 4096 % 64, 0x80 + n / 64 % 64, 0x80 + n % 64]

/-- Call `Buffer.from(s)` on a string: its UTF-8 bytes. -/
def bufferFrom (s : String) : List Nat :=
  (s.toList.map utf8Encode).flatten

/-- Call `crypto.timingSafeEqual(a, b)`: a `RangeError` when the byte lengths differ, else
whether the bytes are equal. -/
def timingSafeEqual (a b : List Nat) : Except String Bool :=
  if a.length != b.length then .error "Input buffers must have the same byte length"
  else .ok (a == b)

/-- Function `verifyToken(token, expectedToken)` on its documented argument type, a string;
`none` stands for an argument that is `undefined`. -/
def verifyToken (token expectedToken : Option String) : Except String Bool :=
  match token, expectedToken with
  | some t, some e =>
      if t = "" || e = "" then .ok false
      else timingSafeEqual (bufferFrom t) (bufferFrom e)
  | _, _ => .ok false

/-- The part of the configuration that `authMiddleware` reads: `config.security.tokenAuth`
and `config.security.token`, a string or `undefined`. -/
structure SecurityConfig where
  tokenAuth : JsVal
  token : Option String

/-- The part of a request that `authMiddleware` reads: the `authorization` header and the
`token` query parameter, each a string or `undefined`. -/
structure AuthRequest where
  authorization : Option String
  queryToken : Option String

/-- What the middleware does with a request: it calls `next()`, or it answers
`res.status(status).json(body)`. -/
inductive AuthOutcome where
  | next : AuthOutcome
  | responded (status : Nat) (body : JsVal) : AuthOutcome

/-- Expression `req.headers[\x27authorization\x27]?.split(\x27 \x27)[1] || req.query.token`. -/
def presentedToken (req : AuthRequest) : Option String :=
  let second : Option String :=
    match req.authorization with
    | none => none
    | some header => ((splitChars ' ' header.toList).get? 1).map String.mk
  match second with
  | some word => if word != "" then some word else req.queryToken
  | none => req.queryToken

/-- The answer to an unauthorised request. -/
def unauthorized : AuthOutcome :=
  .responded 401 (.obj [("success", .bool false), ("error", .str "Non autorisé")])

/-- The middleware returned by `authMiddleware(config)`, applied to a request. -/
def authMiddleware (security : SecurityConfig) (req : AuthRequest) : Except String AuthOutcome :=
  if !security.tokenAuth.truthy then .ok .next
  else
    match presentedToken req with
    | none => .ok unauthorized
    | some token =>
        if token = "" then .ok unauthorized
        else
          match verifyToken (some token) security.token with
          | .error m => .error m
          | .ok valid => if valid then .ok .next else .ok unauthorized

/-- Handler of `GET /api/config` in `ServerManager._initRoutes`: the JSON body of the answer
and `this.config` afterwards. It runs the same statements as the `get` action of
`_executeManageConfig`, on the configuration object the adapter shares. -/
def apiConfig (config : JsVal) : JsVal × JsVal :=
  (filterConfig config, configAfterFilter config)

/-! ## Configuration manager (`src/core/config.js`) -/

/-- Values held by the configuration objects: primitives, references to objects of the
store, and `native k` for the built-in function that `Object.prototype` holds under `k`.
Arrays are left out: `defaultConfig` holds none, and the command line sets only strings,
numbers and booleans. -/
inductive Val where
  | undefined : Val
  | null : Val
  | bool (b : Bool) : Val
  | num (n : Int) : Val
  | str (s : String) : Val
  | ref (address : Nat) : Val
  | native (name : String) : Val
  deriving DecidableEq

/-- An object of the store: its prototype (`null`, a reference, or a native function) and
its own data properties in creation order. -/
structure Obj where
  proto : Val
  fields : List (String × Val)
  deriving DecidableEq

/-- The object store: the objects by address. Address 0 is `Object.prototype`. -/
abbrev Store := List Obj

/-- The object `Object.prototype` at start: prototype `null`, and its built-in functions
as data properties (`__proto__` is its accessor property, handled by `lookupChain` and
`assign`). -/
def objectPrototype : Obj :=
  { proto := .null,
    fields := (objectPrototypeKeys.filter (fun k => k != "__proto__")).map
      (fun k => (k, Val.native k)) }

/-- Truthiness of a stored value. -/
def Val.truthy : Val → Bool
  | .undefined => false
  | .null => false
  | .bool b => b
  | .num n => n != 0
  | .str s => s != ""
  | .ref _ => true
  | .native _ => true

/-- The prototype of the object at address `a`. -/
def protoOf (H : Store) (a : Nat) : Val :=
  match H.get? a with
  | some o => o.proto
  | none => .null

/-- Property lookup along the prototype chain from `cur`, for a read whose receiver has the
prototype `receiverProto`: the first own data property named `k` gives the value; on
reaching `Object.prototype` with `k` equal to `__proto__` the accessor yields the prototype of
the receiver. A native function in the chain continues at `Object.prototype`; the members
specific to functions are not modelled. `fuel` bounds the length of the chain. -/
def lookupChain (H : Store) (receiverProto : Val) : Nat → Val → String → Val
  | 0, _, _ => .undefined
  | fuel + 1, cur, k =>
      match cur with
      | .ref a =>
          match H.get? a with
          | none => .undefined
          | some o =>
              match o.fields.lookup k with
              | some v => v
              | none =>
                  if a = 0 && k == "__proto__" then receiverProto
                  else lookupChain H receiverProto fuel o.proto k
      | .native _ => lookupChain H receiverProto fuel (.ref 0) k
      | _ => .undefined

/-- Property read `v[k]` on a value that is not `undefined` or `null`. For a primitive or a
native function the lookup starts at `Object.prototype`; of their own members only the
`length` of a string is modelled, and their prototype, which is not an object of the store,
is written `native "__proto__"`. -/
def read (H : Store) (v : Val) (k : String) : Val :=
  match v with
  | .ref a => lookupChain H (protoOf H a) (H.length + 1) (.ref a) k
  | .str s =>
      if k = "length" then .num (utf16Length s)
      else lookupChain H (.native "__proto__") (H.length + 1) (.ref 0) k
  | _ => lookupChain H (.native "__proto__") (H.length + 1) (.ref 0) k

/-- Whether an assignment to `__proto__`, looked up along the prototype chain from `cur`,
finds the accessor of `Object.prototype` before any own data property of that name. -/
def accessorReachable (H : Store) : Nat → Val → Bool
  | 0, _ => false
  | fuel + 1, cur =>
      match cur with
      | .ref a =>
          match H.get? a with
          | none => false
          | some o =>
              if (o.fields.lookup "__proto__").isSome then false
              else if a = 0 then true
              else accessorReachable H fuel o.proto
      | .native _ => accessorReachable H fuel (.ref 0)
      | _ => false

/-- Whether the prototype chain that starts at `cur` contains the object at address `a`. -/
def inChain (H : Store) (a : Nat) : Nat → Val → Bool
  | 0, _ => false
  | fuel + 1, cur =>
      match cur with
      | .ref b => if b = a then true else inChain H a fuel (protoOf H b)
      | _ => false

/-- Assignment of an own data property in a field list: an existing key keeps its place. -/
def setEntry (k : String) (v : Val) : List (String × Val) → List (String × Val)
  | [] => [(k, v)]
  | (k2, v2) :: r => if k2 = k then (k, v) :: r else (k2, v2) :: setEntry k v r

/-- The setter of `__proto__` called on the object at address `a` with an object, a
function or `null`: the prototype is replaced, unless the object is `Object.prototype`, whose
prototype is immutable, or the new chain would be cyclic; both throw a `TypeError`. -/
def setPrototypeOf (H : Store) (a : Nat) (v : Val) : Except String Store :=
  match H.get? a with
  | none => .ok H
  | some o =>
      if v = o.proto then .ok H
      else if a = 0 then
        .error "Immutable prototype object \x27Object.prototype\x27 cannot have their prototype set"
      else if inChain H a (H.length + 1) v then .error "Cyclic __proto__ value"
      else .ok (H.set a { o with proto := v })

/-- Assignment `target[k] = v` where `target` is the object at address `a`. An own data
property is updated or created, except that the name `__proto__`, unless it is an own data
property, reaches the setter of `Object.prototype`, which ignores primitives. -/
def assign (H : Store) (a : Nat) (k : String) (v : Val) : Except String Store :=
  match H.get? a with
  | none => .ok H
  | some o =>
      if k = "__proto__" && accessorReachable H (H.length + 1) (.ref a) then
        match v with
        | .ref _ => setPrototypeOf H a v
        | .native _ => setPrototypeOf H a v
        | .null => setPrototypeOf H a v
        | _ => .ok H
      else .ok (H.set a { o with fields := setEntry k v o.fields })

/-- Object literal or spread result: a new object with prototype `Object.prototype` and
the given own properties, and its address. -/
def allocate (H : Store) (fields : List (String × Val)) : Store × Nat :=
  (H ++ [{ proto := .ref 0, fields := fields }], H.length)

/-- The own enumerable properties that `\x7b ...v \x7d` copies from `v`: those of an object of
the store (the built-in members of `Object.prototype` are not enumerable); nothing for
`undefined`, `null`, numbers, booleans and functions. Strings, which spread to their
characters, are not modelled: the code spreads `defaultConfig` only. -/
def ownEnumerable (H : Store) (v : Val) : List (String × Val) :=
  match v with
  | .ref a =>
      match H.get? a with
      | some o =>
          if a = 0 then o.fields.filter (fun kv => !objectPrototypeKeys.contains kv.1)
          else o.fields
      | none => []
  | _ => []

/-- The store when the module `config.js` has been evaluated: `Object.prototype` at address
0 and the constant `defaultConfig` at address 1, with its sections `server`, `transport`,
`tunnel` (whose `options` is at 5), `security` and `logging` at addresses 2 to 7. -/
def moduleStore : Store :=
  [objectPrototype,
   { proto := .ref 0,
     fields := [("server", .ref 2), ("transport", .ref 3), ("tunnel", .ref 4),
                ("security", .ref 6), ("logging", .ref 7)] },
   { proto := .ref 0, fields := [("port", .num 3456), ("host", .str "127.0.0.1")] },
   { proto := .ref 0,
     fields := [("stdio", .bool true), ("http", .bool true), ("websocket", .bool true)] },
   { proto := .ref 0,
     fields := [("enabled", .bool false), ("provider", .str "ngrok"), ("options", .ref 5)] },
   { proto := .ref 0, fields := [] },
   { proto := .ref 0, fields := [("tokenAuth", .bool true), ("tokenLength", .num 32)] },
   { proto := .ref 0,
     fields := [("level", .str "info"), ("file", .str "logs/vibemcp.log"),
                ("rotate", .bool true), ("maxSize", .str "10m"), ("maxFiles", .num 5)] }]

/-- Address of the module constant `defaultConfig`. -/
def defaultConfig : Nat := 1

/-- State of the `ConfigManager` instance together with the object store it works on:
`this.config` and `this.loaded`. -/
structure ConfigManager where
  store : Store
  config : Val
  loaded : Bool
  deriving DecidableEq

/-- Statement `this.config = \x7b ...defaultConfig \x7d`. The copy is shallow: the new object
holds references to the very section objects of `defaultConfig`. -/
def ConfigManager.copyDefaults (M : ConfigManager) : ConfigManager :=
  match allocate M.store (ownEnumerable M.store (.ref defaultConfig)) with
  | (H, a) => { M with store := H, config := .ref a }

/-- The constructor of `ConfigManager`, run when the module is evaluated. -/
def ConfigManager.create : ConfigManager :=
  ConfigManager.copyDefaults { store := moduleStore, config := .undefined, loaded := false }

/-- Message of the error thrown by `get`, `set` and `reset` before `load`. -/
def notLoaded : String := "La configuration n\x27est pas chargée"

/-- The loop of `get` and of `reset` that follows the parts of a key from `value`; `none`
when it meets `undefined` or `null` with a part left, where the loop returns early. -/
def navigate (H : Store) (value : Val) : List String → Option Val
  | [] => some value
  | part :: rest =>
      match value with
      | .undefined => none
      | .null => none
      | v => navigate H (read H v part) rest

/-- The parts `key.split(\x27.\x27)` of a key. -/
def keyParts (key : String) : List String :=
  (splitChars '.' key.toList).map String.mk

/-- Method `get(key)`. -/
def ConfigManager.get (M : ConfigManager) (key : String) : Except String Val :=
  if !M.loaded then .error notLoaded
  else
    match navigate M.store M.config (keyParts key) with
    | some v => .ok v
    | none => .ok .undefined

/-- Message of the `TypeError` of an assignment `target[k] = v` in strict code when `target`
is not an object. -/
def cannotAssign (target : Val) (k : String) : String :=
  match target with
  | .undefined => "Cannot set properties of undefined (setting \x27" ++ k ++ "\x27)"
  | .null => "Cannot set properties of null (setting \x27" ++ k ++ "\x27)"
  | .bool b =>
      "Cannot create property \x27" ++ k ++ "\x27 on boolean \x27" ++
        (if b then "true" else "false") ++ "\x27"
  | .num n => "Cannot create property \x27" ++ k ++ "\x27 on number \x27" ++ numberText n ++ "\x27"
  | .str s => "Cannot create property \x27" ++ k ++ "\x27 on string \x27" ++ s ++ "\x27"
  | _ => ""

/-- Assignment `target[k] = v` for any `target`: on an object of the store it is `assign`;
on a primitive it throws; the own properties of native functions are not modelled, and an
assignment to one leaves the store as it is. -/
def assignTo (H : Store) (target : Val) (k : String) (v : Val) : Except String Store :=
  match target with
  | .ref a => assign H a k v
  | .native _ => .ok H
  | other => .error (cannotAssign other k)

/-- The loop of `set` over the parts of the key but the last: a part whose value is
`undefined`, `null` or not of type `object` is first assigned a new empty object; then
`target` moves to `target[part]`. -/
def descend (H : Store) (target : Val) : List String → Except String (Store × Val)
  | [] => .ok (H, target)
  | part :: rest =>
      match target with
      | .undefined => .error ("Cannot read properties of undefined (reading \x27" ++ part ++ "\x27)")
      | .null => .error ("Cannot read properties of null (reading \x27" ++ part ++ "\x27)")
      | _ =>
          match read H target part with
          | .ref next => descend H (.ref next) rest
          | _ =>
              match allocate H [] with
              | (H1, fresh) =>
                  match assignTo H1 target part (.ref fresh) with
                  | .error m => .error m
                  | .ok H2 => descend H2 (read H2 target part) rest

/-- Method `set(key, value)`; it returns `true`. -/
def ConfigManager.set (M : ConfigManager) (key : String) (value : Val) :
    Except String (Val × ConfigManager) :=
  if !M.loaded then .error notLoaded
  else
    let parts := keyParts key
    match descend M.store M.config parts.dropLast with
    | .error m => .error m
    | .ok (H, target) =>
        match assignTo H target (parts.getLast?.getD "") value with
        | .error m => .error m
        | .ok H1 => .ok (.bool true, { M with store := H1 })

/-- Method `reset(key = null)`; `none` stands for a call without key. -/
def ConfigManager.reset (M : ConfigManager) (key : Option String) :
    Except String (Val × ConfigManager) :=
  if !M.loaded then .error notLoaded
  else
    match key with
    | some k =>
        if k = "" then .ok (.bool true, M.copyDefaults)
        else
          match navigate M.store (.ref defaultConfig) (keyParts k) with
          | none => .ok (.bool false, M)
          | some defaultValue =>
              match M.set k defaultValue with
              | .error m => .error m
              | .ok (_, M1) => .ok (.bool true, M1)
    | none => .ok (.bool true, M.copyDefaults)

/-- What `load` finds on disk: no configuration file, with the identifier that `uuidv4()`
then yields; a file that is read and parsed, with the call
`this._mergeConfigs(defaultConfig, loadedConfig)` on it given as a function of the store that
returns the merged object or throws; or a failure of the file system or of `JSON.parse`. -/
inductive Disk where
  | missing (uuid : String) : Disk
  | present (merge : Store → Except String (Store × Val)) : Disk
  | failing : Disk

/-- The branch of `load` for a missing file: `this.config = \x7b ...defaultConfig \x7d`, then
`if (this.config.security.tokenAuth) this.config.security.token = uuidv4()`; `save` catches
its own errors. A `TypeError` thrown here is caught by `load`. -/
def ConfigManager.createNew (M : ConfigManager) (uuid : String) : Except String ConfigManager :=
  let M1 := M.copyDefaults
  match read M1.store M1.config "security" with
  | .undefined => .error "Cannot read properties of undefined (reading \x27tokenAuth\x27)"
  | .null => .error "Cannot read properties of null (reading \x27tokenAuth\x27)"
  | security =>
      if (read M1.store security "tokenAuth").truthy then
        match assignTo M1.store security "token" (.str uuid) with
        | .error m => .error m
        | .ok H => .ok { M1 with store := H }
      else .ok M1

/-- Method `load()`; it returns `this.config`. Every error is caught and answered with a
shallow copy of `defaultConfig`; the objects that the failed attempt allocated are then
unreachable and are left out of the store. -/
def ConfigManager.load (M : ConfigManager) (disk : Disk) : Val × ConfigManager :=
  let attempt : Except String ConfigManager :=
    match disk with
    | .missing uuid => M.createNew uuid
    | .present merge =>
        match merge M.store with
        | .error m => .error m
        | .ok (H, merged) => .ok { M with store := H, config := merged }
    | .failing => .error "load"
  match attempt with
  | .ok M1 => (M1.config, { M1 with loaded := true })
  | .error _ => ((M.copyDefaults).config, { M.copyDefaults with loaded := true })

/-! ## A concrete runtime for closed examples -/

/-- Splits a character list at its first colon. -/
def splitScheme : List Char → Option (List Char × List Char)
  | [] => none
  | c :: r =>
      if c = ':' then some ([], r)
      else
        match splitScheme r with
        | some (a, b) => some (c :: a, b)
        | none => none

/-- Characters of an opaque path that the URL parser copies unchanged. -/
def plainPathChar (c : Char) : Bool :=
  c.isAlphanum || c = '/' || c = '.' || c = '-' || c = '_'

/-- The schemes the URL standard calls special. -/
def specialSchemes : List String := ["ftp", "file", "http", "https", "ws", "wss"]

/-- A fragment of `new URL(s)`: inputs `scheme:path` whose scheme is well formed and not
special and whose path is opaque (it does not begin with a slash) and made of plain
characters. On these the standard parser lower-cases the scheme and keeps the path, and so
does this function; every other input is answered with `Invalid URL`, which the standard
parser does for some of them only. The closed examples use inputs of the first kind. -/
def exampleParseURL (s : String) : Except String URL :=
  match splitScheme s.toList with
  | none => .error "Invalid URL"
  | some (scheme, path) =>
      let lower := String.mk (scheme.map Char.toLower)
      let wellFormed := match scheme with
        | [] => false
        | c :: r => c.isAlpha && r.all (fun d => d.isAlphanum || d = '+' || d = '-' || d = '.')
      if wellFormed && !specialSchemes.contains lower && path.all plainPathChar
          && path.head? != some '/' then
        .ok { protocol := lower ++ ":", pathname := String.mk path,
              href := lower ++ ":" ++ String.mk path }
      else .error "Invalid URL"

/-- A runtime for the closed examples: fixed clock readings, identifiers `s0`, `s1`, ..., and
no use of the JSON parser or printer. -/
def examplePlatform : Platform :=
  { parseURL := exampleParseURL,
    now := "2025-05-12T10:15:30.000Z",
    anHourAgo := "2025-05-12T09:15:30.000Z",
    jsonStringify := fun _ _ => "",
    jsonParse := fun _ => none,
    newId := fun n => "s" ++ toString n }

/-- A registry with the three resource schemes and one prompt, for the closed examples. -/
def exampleCapabilities : JsVal :=
  .obj [("tools", .obj [("manage_project", .obj [("description", .str "Gestion des projets")])]),
        ("resources", .obj [("project", .obj [("description", .str "Fichiers de projet")]),
                            ("logs", .obj [("description", .str "Journaux")]),
                            ("config", .obj [("description", .str "Configuration")])]),
        ("prompts", .obj [("create_project",
                           .obj [("title", .str "Créer un projet"),
                                 ("prompt", .str "Crée un nouveau projet")])])]

/-- An adapter over `exampleCapabilities`. -/
def exampleAdapter : MCPAdapter :=
  { config := .obj [("tunnel", .obj [("enabled", .bool false), ("provider", .str "ngrok")])],
    capabilities := exampleCapabilities }

/-- A session of `exampleAdapter` after negotiation. -/
def readySession : Session :=
  { id := "s0", state := .READY, negotiatedCapabilities := exampleCapabilities, context := [] }

/-- A session of `exampleAdapter` as `createSession` leaves it. -/
def freshSession : Session :=
  { id := "s0", state := .NEGOTIATING, negotiatedCapabilities := .undefined, context := [] }

/-- Handler state over `readySession`, nothing entered yet. -/
def exampleSt : St :=
  { self := exampleAdapter, session := readySession, invoked := [] }

/-- An engine over `exampleAdapter` whose store holds the negotiated session `s0`. -/
def exampleEngine : Engine :=
  { self := exampleAdapter, sessions := [("s0", readySession)], issued := 1, invoked := [] }

/-- An HTTP transport that has seen the session `s0`. -/
def exampleTransport : HttpTransport :=
  { sessions := ["s0"], isRunning := true }

/-- A request to `POST /mcp/tool` whose header names no stored session. -/
def strangerRequest : HttpRequest :=
  { sessionHeader := some "s7",
    body := .obj [("tool_name", .str "manage_project"),
                  ("tool_args", .obj [("action", .str "list")]), ("call_id", .str "c1")] }

/-- An engine over `exampleAdapter` whose store holds the session `s0`, not yet negotiated. -/
def freshEngine : Engine :=
  { self := exampleAdapter, sessions := [("s0", freshSession)], issued := 1, invoked := [] }

/-! ## A JSON printer and parser for closed examples -/

/-- Two-digit hexadecimal text of a number below 256. -/
def hex2 (n : Nat) : String :=
  String.mk [Nat.digitChar (n / 16), Nat.digitChar (n % 16)]

/-- Text of one character inside a JSON string, as `JSON.stringify` writes it. -/
def escapeChar (c : Char) : String :=
  if c = '"' then "\\\"" else if c = '\\' then "\\\\"
  else if c = '\n' then "\\n" else if c = '\r' then "\\r" else if c = '\t' then "\\t"
  else if c.toNat = 8 then "\\b" else if c.toNat = 12 then "\\f"
  else if c.toNat < 32 then "\\u00" ++ hex2 c.toNat
  else String.singleton c

/-- A JSON string literal. -/
def quote (s : String) : String :=
  "\"" ++ String.join (s.toList.map escapeChar) ++ "\""

/-- The line break and indentation before an item at nesting depth `level`; empty when
`JSON.stringify` is called without indentation. -/
def gap (indent level : Nat) : String :=
  if indent = 0 then "" else "\n" ++ String.mk (List.replicate (indent * level) ' ')

mutual
/-- Text of a value for `JSON.stringify(v, null, indent)`, for indentations up to 10;
`none` where `JSON.stringify` yields `undefined`. -/
def render (indent level : Nat) : JsVal → Option String
  | .undefined => none
  | .native _ => none
  | .null => some "null"
  | .bool b => some (if b then "true" else "false")
  | .num n =>
      some (if numberText n = "Infinity" ∨ numberText n = "-Infinity" then "null"
            else numberText n)
  | .str s => some (quote s)
  | .arr xs =>
      match renderItems indent (level + 1) xs with
      | [] => some "[]"
      | items =>
          some ("[" ++ gap indent (level + 1) ++
                String.intercalate ("," ++ gap indent (level + 1)) items ++
                gap indent level ++ "]")
  | .obj fs =>
      match renderFields indent (level + 1) fs with
      | [] => some "\x7b\x7d"
      | fields =>
          some ("\x7b" ++ gap indent (level + 1) ++
                String.intercalate ("," ++ gap indent (level + 1)) fields ++
                gap indent level ++ "\x7d")
/-- Texts of the items of an array; a value without text is written `null`. -/
def renderItems (indent level : Nat) : List JsVal → List String
  | [] => []
  | x :: r =>
      (match render indent level x with
       | some t => t
       | none => "null") :: renderItems indent level r
/-- Texts of the fields of an object; a field whose value has no text is left out. -/
def renderFields (indent level : Nat) : List (String × JsVal) → List String
  | [] => []
  | (k, v) :: r =>
      match render indent level v with
      | some t =>
          (quote k ++ (if indent = 0 then ":" else ": ") ++ t) :: renderFields indent level r
      | none => renderFields indent level r
end

/-- A model of `JSON.stringify` on values that have a text (objects with distinct keys
none of which is an integer, indentation at most 10). -/
def exampleStringify (v : JsVal) (indent : Nat) : String :=
  (render indent 0 v).getD ""

/-- The frame of the WebSocket scenario of the spec (§8). -/
def scenarioFrame : String :=
  "\x7b\"type\":\"tool_call\",\"tool_name\":\"unknown_tool_x\",\"call_id\":\"c2\"\x7d"

/-- The message that `scenarioFrame` decodes to. -/
def scenarioMessage : JsVal :=
  .obj [("type", .str "tool_call"), ("tool_name", .str "unknown_tool_x"),
        ("call_id", .str "c2")]

/-- The first line of the stdio scenario of the spec (§8). -/
def negotiateLine : String :=
  "\x7b\"type\":\"negotiate\",\"client_capabilities\":\x7b\x7d\x7d"

/-- A fragment of `JSON.parse`: it decodes the two scenario texts and rejects every other
text, as `JSON.parse` does for the other texts of the closed examples. -/
def exampleParse (text : String) : Option JsVal :=
  if text = scenarioFrame then some scenarioMessage
  else if text = negotiateLine then
    some (.obj [("type", .str "negotiate"), ("client_capabilities", .obj [])])
  else none

/-- The runtime of the transport examples: `examplePlatform` with the printer and the
parser above. -/
def wirePlatform : Platform :=
  { examplePlatform with jsonStringify := exampleStringify, jsonParse := exampleParse }

/-- A configuration whose `security` holds the authentication token `token`, as
`ConfigManager.load` generates it, and a list `tokens`. -/
def tokenConfig (token : String) : JsVal :=
  .obj [("security", .obj [("tokenAuth", .bool true), ("token", .str token),
                           ("tokens", .arr [.str "t1"])])]

/-- Handler state over the adapter whose configuration is `tokenConfig token`. -/
def tokenSt (token : String) : St :=
  { self := { config := tokenConfig token, capabilities := exampleCapabilities },
    session := readySession, invoked := [] }

/-- The configuration manager after its first start: constructed, then loaded while no
configuration file exists. -/
def firstStart : ConfigManager :=
  (ConfigManager.create.load (Disk.missing "3f0c1b9e-7a52-4d6e-9b1f-2c8a5e4d7f10")).2

/-- A stdio transport bound to the session `s0`. -/
def exampleStdio : StdioTransport :=
  { sessionId := "s0", isRunning := true }

/-- A WebSocket transport that serves no connection yet. -/
def idleWebSocket : WebSocketTransport :=
  { sessions := [], isRunning := true }

/-! ## Log sanitising and token generation (`src/utils/security.js`) -/

/-- The constant `sensitiveKeys` of `sanitizeForLogs`. -/
def sensitiveKeys : List String := ["token", "password", "secret", "key", "auth"]

/-- The string written in place of a masked value. -/
def mask : JsVal := .str "******"

/-- Method `text.includes(part)`: `part` occurs in `text` as a contiguous run. -/
def includes (text part : String) : Bool :=
  text.toList.tails.any (fun rest => part.toList.isPrefixOf rest)

/-- Expression `sensitiveKeys.some(sensitiveKey => key.toLowerCase().includes(sensitiveKey))`;
the case conversion of the runtime is the parameter `toLowerCase`. -/
def isSensitive (toLowerCase : String → String) (key : String) : Bool :=
  sensitiveKeys.any (fun sensitiveKey => includes (toLowerCase key) sensitiveKey)

mutual
/-- Function `sanitizeForLogs(data)`. The copy `\x7b ...data \x7d` of an array is the object of
its indices; a number, a boolean or a function has no own enumerable property and is copied
to an empty object. -/
def sanitizeForLogs (toLowerCase : String → String) (data : JsVal) : JsVal :=
  if !data.truthy then data
  else
    match data with
    | .str s => .str s
    | .obj fields => .obj (sanitizeFields toLowerCase fields)
    | .arr items => .obj (sanitizeItems toLowerCase 0 items)
    | _ => .obj []
/-- The loop `for (const key in sanitized)` over the properties copied from an object. -/
def sanitizeFields (toLowerCase : String → String) :
    List (String × JsVal) → List (String × JsVal)
  | [] => []
  | (key, value) :: rest =>
      (key,
        if isSensitive toLowerCase key then mask
        else
          match value with
          | .obj fields => sanitizeForLogs toLowerCase (.obj fields)
          | .arr items => sanitizeForLogs toLowerCase (.arr items)
          | other => other) :: sanitizeFields toLowerCase rest
/-- The same loop over the properties copied from an array, whose keys are the indices
from `index` on. -/
def sanitizeItems (toLowerCase : String → String) : Nat → List JsVal → List (String × JsVal)
  | _, [] => []
  | index, value :: rest =>
      (toString index,
        if isSensitive toLowerCase (toString index) then mask
        else
          match value with
          | .obj fields => sanitizeForLogs toLowerCase (.obj fields)
          | .arr items => sanitizeForLogs toLowerCase (.arr items)
          | other => other) :: sanitizeItems toLowerCase (index + 1) rest
end

/-- Lower-casing of the letters `A` to `Z`, which is what `toLowerCase` does to a string of
ASCII characters. -/
def asciiLowerCase (s : String) : String :=
  String.mk (s.toList.map Char.toLower)


/-- Call `crypto.randomBytes(size)`: a buffer of `size` bytes. The draws of the generator
are the parameter `randomByte`, whose value at `i` gives the byte at position `i`. -/
def randomBytes (randomByte : Nat → Nat) (size : Nat) : List Nat :=
  (List.range size).map (fun i => randomByte i % 256)

/-- Call `buffer.toString(\x27hex\x27)`: two hexadecimal digits for every byte. -/
def toHex : List Nat → String
  | [] => ""
  | byte :: rest => hex2 byte ++ toHex rest

/-- Function `generateToken(length = 32)`; `none` stands for a call without argument. -/
def generateToken (randomByte : Nat → Nat) (length : Option Nat) : String :=
  toHex (randomBytes randomByte (length.getD 32))

/-! ## Merging configurations (`ConfigManager._mergeConfigs`) -/

/-- How a call on JSON trees ends: it returns, it throws an error with a message, or it
leaves what a JSON tree can describe (`outside`), in which case nothing is said of it. -/
inductive Outcome (α : Type) where
  | returned (value : α) : Outcome α
  | thrown (message : String) : Outcome α
  | outside : Outcome α

/-- The properties of an array, from the index `index` on. -/
def indexed : Nat → List JsVal → List (String × JsVal)
  | _, [] => []
  | index, item :: rest => (toString index, item) :: indexed (index + 1) rest

/-- The own enumerable properties of a value that is not a string, which the copy
`\x7b ...v \x7d` and the loop `for (const key in v)` go through: the fields of an object, the
items of an array, nothing for the other values. -/
def ownEntries : JsVal → List (String × JsVal)
  | .obj fields => fields
  | .arr items => indexed 0 items
  | _ => []

/-- Property read `v[key]` where `key` may be an index of the array `v`; it throws on
`undefined` and `null`. -/
def element (v : JsVal) (key : String) : Except String JsVal :=
  match (ownEntries v).lookup key with
  | some item => .ok item
  | none => member v key

/-- Test `typeof v === \x27object\x27`: true of `null`, of arrays and of objects, among them
`Object.prototype`, which is what an object inherits under `__proto__`. -/
def typeofObject : JsVal → Bool
  | .null => true
  | .arr _ => true
  | .obj _ => true
  | .native name => name == "__proto__"
  | _ => false

/-- Assignment `result[key] = value` in the loop of `_mergeConfigs`, on the properties of
`result`. When `key` is `__proto__` and `result` has no own property of that name, the
assignment calls the setter of `Object.prototype`: it ignores a primitive, and it replaces
the prototype of `result` by an object, a function or `null`, which leaves the JSON trees. -/
def assignResult (result : List (String × JsVal)) (key : String) (value : JsVal) :
    Outcome (List (String × JsVal)) :=
  if key = "__proto__" && (result.lookup key).isNone then
    match value with
    | .obj _ => .outside
    | .arr _ => .outside
    | .null => .outside
    | .native _ => .outside
    | _ => .returned result
  else .returned (setField key value result)

/-- Body of the loop of `_mergeConfigs` for the key `key`, where `value` is
`userConfig[key]` and `merged` gives the outcome of the recursive call
`this._mergeConfigs(defaultConfig[key], userConfig[key])`. The test reads
`defaultConfig[key]` only when `value` is an object that is not an array. -/
def mergeEntry (defaultConfig : JsVal) (result : List (String × JsVal)) (key : String)
    (value : JsVal) (merged : JsVal → Outcome JsVal) : Outcome (List (String × JsVal)) :=
  match value with
  | .obj _ =>
      match element defaultConfig key with
      | .error message => .thrown message
      | .ok defaultValue =>
          if typeofObject defaultValue then
            match merged defaultValue with
            | .returned inner => assignResult result key inner
            | .thrown message => .thrown message
            | .outside => .outside
          else assignResult result key value
  | _ => assignResult result key value

mutual
/-- Method `_mergeConfigs(defaultConfig, userConfig)`. A string as either argument is
`outside`: its properties are its UTF-16 code units. The order of the properties of the
result carries no meaning. -/
def _mergeConfigs (defaultConfig : JsVal) (userConfig : JsVal) : Outcome JsVal :=
  match defaultConfig, userConfig with
  | .str _, _ => .outside
  | _, .str _ => .outside
  | _, .obj fields => mergeFields defaultConfig (ownEntries defaultConfig) fields
  | _, .arr items => mergeItems defaultConfig (ownEntries defaultConfig) 0 items
  | _, _ => .returned (.obj (ownEntries defaultConfig))
termination_by structural userConfig
/-- The loop `for (const key in userConfig)` over the properties of an object, with the
properties that `result` has so far. -/
def mergeFields (defaultConfig : JsVal) (result : List (String × JsVal)) :
    List (String × JsVal) → Outcome JsVal
  | [] => .returned (.obj result)
  | (key, value) :: rest =>
      match mergeEntry defaultConfig result key value
          (fun defaultValue => _mergeConfigs defaultValue value) with
      | .returned result1 => mergeFields defaultConfig result1 rest
      | .thrown message => .thrown message
      | .outside => .outside
termination_by structural fields => fields
/-- The same loop over the items of an array, the first of which has index `index`. -/
def mergeItems (defaultConfig : JsVal) (result : List (String × JsVal)) :
    Nat → List JsVal → Outcome JsVal
  | _, [] => .returned (.obj result)
  | index, value :: rest =>
      match mergeEntry defaultConfig result (toString index) value
          (fun defaultValue => _mergeConfigs defaultValue value) with
      | .returned result1 => mergeItems defaultConfig result1 (index + 1) rest
      | .thrown message => .thrown message
      | .outside => .outside
termination_by structural _ items => items
end

/-! ## Notions used by the statements on sanitising and merging -/

mutual
/-- Every key path of a tree, with the value found at its end; the keys of an array are its
indices. -/
def located : JsVal → List (List String × JsVal)
  | .obj fields => locatedFields fields
  | .arr items => locatedItems 0 items
  | _ => []
/-- The key paths that start at a field of an object. -/
def locatedFields : List (String × JsVal) → List (List String × JsVal)
  | [] => []
  | (key, value) :: rest =>
      ([key], value) :: ((located value).map (fun p => (key :: p.1, p.2)) ++ locatedFields rest)
/-- The key paths that start at an item of an array, the first of which has index `index`. -/
def locatedItems : Nat → List JsVal → List (List String × JsVal)
  | _, [] => []
  | index, value :: rest =>
      ([toString index], value) ::
        ((located value).map (fun p => (toString index :: p.1, p.2)) ++
          locatedItems (index + 1) rest)
end

/-- What the loop of `sanitizeForLogs` leaves under a key that is not sensitive. -/
def sanitizeNested (toLowerCase : String → String) (value : JsVal) : JsVal :=
  match value with
  | .obj fields => sanitizeForLogs toLowerCase (.obj fields)
  | .arr items => sanitizeForLogs toLowerCase (.arr items)
  | other => other

/-- What the loop of `_mergeConfigs` assigns under `key` for the user value `value`: the
merge of `defaultConfig[key]` with it when both are objects in the sense of the test,
`value` itself otherwise. -/
def assignedValue (defaultConfig : JsVal) (key : String) (value assigned : JsVal) : Prop :=
  match value with
  | .obj _ =>
      ∃ defaultValue, element defaultConfig key = .ok defaultValue ∧
        if typeofObject defaultValue then
          _mergeConfigs defaultValue value = .returned assigned
        else assigned = value
  | _ => assigned = value

mutual
/-- Whether a tree holds no `null`, at any depth. -/
def nullFree : JsVal → Bool
  | .null => false
  | .obj fields => nullFreeFields fields
  | .arr items => nullFreeItems items
  | _ => true
/-- Whether the values of the fields hold no `null`. -/
def nullFreeFields : List (String × JsVal) → Bool
  | [] => true
  | (_, value) :: rest => nullFree value && nullFreeFields rest
/-- Whether the items hold no `null`. -/
def nullFreeItems : List JsVal → Bool
  | [] => true
  | value :: rest => nullFree value && nullFreeItems rest
end

mutual
/-- Whether an object, and every object reached from it through fields that hold objects,
has no key `__proto__`; these are the objects that `_mergeConfigs` goes through. -/
def plainKeys : JsVal → Bool
  | .obj fields => plainKeysFields fields
  | _ => true
/-- Whether the fields have no key `__proto__`, nor the objects they hold. -/
def plainKeysFields : List (String × JsVal) → Bool
  | [] => true
  | (key, value) :: rest => key != "__proto__" && plainKeys value && plainKeysFields rest
end

/-- The constant `defaultConfig` of `config.js`, as a tree. -/
def defaultConfigTree : JsVal :=
  .obj [("server", .obj [("port", .num 3456), ("host", .str "127.0.0.1")]),
        ("transport", .obj [("stdio", .bool true), ("http", .bool true),
                            ("websocket", .bool true)]),
        ("tunnel", .obj [("enabled", .bool false), ("provider", .str "ngrok"),
                         ("options", .obj [])]),
        ("security", .obj [("tokenAuth", .bool true), ("tokenLength", .num 32)]),
        ("logging", .obj [("level", .str "info"), ("file", .str "logs/vibemcp.log"),
                          ("rotate", .bool true), ("maxSize", .str "10m"),
                          ("maxFiles", .num 5)])]

/-- A log record with a password and its confirmation, for the closed examples. -/
def signupRecord : JsVal :=
  .obj [("user", .str "bob"), ("password", .str "hunter2"), ("confirmation", .str "hunter2")]

/-- A log record with nested sensitive keys, for the closed examples. -/
def nestedRecord : JsVal :=
  .obj [("user", .str "bob"), ("Authorization", .str "Bearer abc"),
        ("items", .arr [.obj [("apiKey", .str "k1"), ("n", .num 2)]])]

/-! ## Theorems -/

/-! ### Error envelopes -/

/-- With a truthy `callId` the envelope carries type, error and that `call_id`. -/
theorem createErrorResponse_truthy (code message callId : JsVal) (h : callId.truthy = true) :
    _createErrorResponse code message callId =
      .obj [("type", .str "error"), ("error", .obj [("code", code), ("message", message)]),
            ("call_id", callId)] := by
  cases callId <;> simp_all [_createErrorResponse, JsVal.truthy, JsVal.set, setField]

/-- With a falsy `callId` the envelope carries type and error only. -/
theorem createErrorResponse_falsy (code message callId : JsVal) (h : callId.truthy = false) :
    _createErrorResponse code message callId =
      .obj [("type", .str "error"), ("error", .obj [("code", code), ("message", message)])] := by
  cases callId <;> simp_all [_createErrorResponse, JsVal.truthy, JsVal.set, setField]

/-- Every envelope of `_createErrorResponse` has type `error` and the given code and message. -/
theorem createErrorResponse_fields (code message callId : JsVal) :
    (_createErrorResponse code message callId).get "type" = .str "error" ∧
    ((_createErrorResponse code message callId).get "error").get "code" = code ∧
    ((_createErrorResponse code message callId).get "error").get "message" = message := by
  cases h : callId.truthy
  · rw [createErrorResponse_falsy _ _ _ h]; simp [JsVal.get, List.lookup]
  · rw [createErrorResponse_truthy _ _ _ h]; simp [JsVal.get, List.lookup]

/-- C1: a `call_id` of `0` or of the empty string, supplied on the request, is left out of the
envelope of `_createErrorResponse`: the envelope has no `call_id` field at all, although the
claim asks for a field equal to the supplied value. -/
theorem createErrorResponse_drops_falsy_call_id :
    _createErrorResponse (.str "tool_execution_error") (.str "boom") (.num 0) =
      .obj [("type", .str "error"),
            ("error", .obj [("code", .str "tool_execution_error"), ("message", .str "boom")])] ∧
    (_createErrorResponse (.str "tool_execution_error") (.str "boom") (.num 0)).hasOwn "call_id"
      = false ∧
    (_createErrorResponse (.str "unknown_prompt") (.str "boom") (.str "")).hasOwn "call_id"
      = false ∧
    (_createErrorResponse (.str "unknown_prompt") (.str "boom") (.str "c1")).get "call_id"
      = .str "c1" := by
  refine ⟨rfl, rfl, rfl, rfl⟩

/-! ### HTTP transport -/

/-- The session test of the non-negotiate routes fails exactly on an absent header, an empty
header, or a header that is not a key of the session map. -/
theorem invalidSession_iff (T : HttpTransport) (header : Option String) :
    invalidSession T header = true ↔
      (header = none ∨ header = some "" ∨ ∃ id, header = some id ∧ id ∉ T.sessions) := by
  cases header with
  | none => simp [invalidSession]
  | some id => simp [invalidSession]

/-- C2: on `POST /mcp/tool`, `/mcp/resource` and `/mcp/prompt`, a request whose session header
is absent, empty or unknown is answered with status 401 and the `invalid_session` envelope;
the engine is not called, and neither the engine nor the session map of the transport
changes, so no session is created. -/
theorem http_rejects_invalid_session {ε : Type} (ops : EngineOps ε) (route : Route)
    (T : HttpTransport) (req : HttpRequest) (E : ε)
    (hroute : route ≠ Route.negotiate)
    (hsession : req.sessionHeader = none ∨ req.sessionHeader = some "" ∨
      ∃ id, req.sessionHeader = some id ∧ id ∉ T.sessions) :
    (handleRoute ops route T req E).response.status = 401 ∧
    (handleRoute ops route T req E).response.body =
      .obj [("type", .str "error"),
            ("error", .obj [("code", .str "invalid_session"),
                            ("message", .str "Session invalide ou expirée")])] ∧
    (handleRoute ops route T req E).calls = [] ∧
    (handleRoute ops route T req E).engine = E ∧
    (handleRoute ops route T req E).transport = T := by
  have hinv : invalidSession T req.sessionHeader = true := (invalidSession_iff T _).2 hsession
  cases route with
  | negotiate => exact absurd rfl hroute
  | tool => simp [handleRoute, guardedRoute, hinv, errorResponse]
  | resource => simp [handleRoute, guardedRoute, hinv, errorResponse]
  | prompt => simp [handleRoute, guardedRoute, hinv, errorResponse]

/-- C2, at a concrete request: `POST /mcp/tool` with a header naming no stored session, on a
transport that holds the session `s0`, over the spec-modelled engine. -/
theorem http_rejects_invalid_session_witness :
    (Route.tool ≠ Route.negotiate ∧ "s7" ∉ exampleTransport.sessions) ∧
    (handleRoute (specEngine examplePlatform) Route.tool exampleTransport strangerRequest
        exampleEngine).response.status = 401 ∧
    (handleRoute (specEngine examplePlatform) Route.tool exampleTransport strangerRequest
        exampleEngine).response.body =
      .obj [("type", .str "error"),
            ("error", .obj [("code", .str "invalid_session"),
                            ("message", .str "Session invalide ou expirée")])] ∧
    (handleRoute (specEngine examplePlatform) Route.tool exampleTransport strangerRequest
        exampleEngine).calls = [] ∧
    (handleRoute (specEngine examplePlatform) Route.tool exampleTransport strangerRequest
        exampleEngine).engine = exampleEngine ∧
    (handleRoute (specEngine examplePlatform) Route.tool exampleTransport strangerRequest
        exampleEngine).transport = exampleTransport :=
  ⟨⟨by decide, by decide⟩,
   http_rejects_invalid_session (specEngine examplePlatform) Route.tool exampleTransport
     strangerRequest exampleEngine (by decide) (Or.inr (Or.inr ⟨"s7", rfl, by decide⟩))⟩

/-! ### Property reads -/

/-- Reading an own property of an object yields its value. -/
theorem get_own (fs : List (String × JsVal)) (k : String) (v : JsVal)
    (h : fs.lookup k = some v) : (JsVal.obj fs).get k = v := by
  simp [JsVal.get, h]

/-- Reading a property that is not an own property of an object yields the inherited one. -/
theorem get_not_own (fs : List (String × JsVal)) (k : String)
    (h : fs.lookup k = none) : (JsVal.obj fs).get k = inherited k := by
  simp [JsVal.get, h]

/-- A member read on an object does not throw. -/
theorem member_obj (fs : List (String × JsVal)) (k : String) :
    member (.obj fs) k = .ok ((JsVal.obj fs).get k) := rfl

/-- A name outside `Object.prototype` inherits nothing. -/
theorem inherited_undefined (k : String) (h : objectPrototypeKeys.contains k = false) :
    inherited k = .undefined := by
  unfold inherited
  rw [h]
  rfl

/-! ### Resource requests -/

/-- Entering a method leaves the adapter untouched. -/
theorem St.enter_self (st : St) (m : String) : (st.enter m).self = st.self := rfl

/-- Entering a method leaves the session untouched. -/
theorem St.enter_session (st : St) (m : String) : (st.enter m).session = st.session := rfl

/-- Entering a method appends its name to the record. -/
theorem St.enter_invoked (st : St) (m : String) : (st.enter m).invoked = st.invoked ++ [m] := rfl

/-- A scheme that is neither an own entry of the registry nor the name of a member of
`Object.prototype` is answered with `unknown_resource_protocol`, and no method beyond
`_handleResourceRequest` is entered. -/
theorem unknown_scheme_rejected (P : Platform) (message : JsVal) (st : St) (text : String)
    (uri : URL) (caps rs : List (String × JsVal))
    (hmsg : message.isNullish = false)
    (htext : toStr (message.get "resource_uri") = .ok text)
    (hparse : P.parseURL text = .ok uri)
    (hcaps : st.self.capabilities = .obj caps)
    (hres : caps.lookup "resources" = some (.obj rs))
    (hown : rs.lookup (protocolOf uri) = none)
    (hproto : objectPrototypeKeys.contains (protocolOf uri) = false) :
    _handleResourceRequest P message st =
      (.ok (_createErrorResponse (.str "unknown_resource_protocol")
              (.str ("Protocole de ressource inconnu: " ++ protocolOf uri))
              (message.get "call_id")),
       st.enter "_handleResourceRequest") := by
  simp [_handleResourceRequest, resourceRequestBody, andThen, hmsg, htext, hparse,
    St.enter_self, hcaps, member_obj, get_own _ _ _ hres, get_not_own _ _ hown,
    inherited_undefined _ hproto, JsVal.truthy]

/-- C3: the scheme `constructor` is not an own entry of the registry, yet the request
`constructor:x` is not answered with `unknown_resource_protocol`: the registry lookup finds
the member inherited from `Object.prototype`, `_fetchResource` is entered and throws, and the
envelope carries `resource_fetch_error`. -/
theorem inherited_scheme_not_rejected :
    (exampleCapabilities.get "resources").hasOwn "constructor" = false ∧
    _handleResourceRequest examplePlatform
        (.obj [("resource_uri", .str "constructor:x"), ("call_id", .str "c1")]) exampleSt =
      (.ok (.obj [("type", .str "error"),
                  ("error", .obj [("code", .str "resource_fetch_error"),
                                  ("message", .str "Protocole de ressource non implémenté: constructor")]),
                  ("call_id", .str "c1")]),
       { exampleSt with invoked := ["_handleResourceRequest", "_fetchResource"] }) := by
  exact ⟨rfl, rfl⟩

/-- C4: when the scheme of the request is an own, truthy entry of the registry and
`_fetchResource` returns the descriptor `d`, the answer is the `resource_response` with
status `success`, the `call_id` of the request, and `resources` equal to the one-element
array holding `d` itself. -/
theorem resource_response_wraps_descriptor (P : Platform) (message : JsVal) (st st1 : St)
    (text : String) (uri : URL) (caps rs : List (String × JsVal)) (entry d : JsVal)
    (hmsg : message.isNullish = false)
    (htext : toStr (message.get "resource_uri") = .ok text)
    (hparse : P.parseURL text = .ok uri)
    (hcaps : st.self.capabilities = .obj caps)
    (hres : caps.lookup "resources" = some (.obj rs))
    (hreg : rs.lookup (protocolOf uri) = some entry)
    (htruthy : entry.truthy = true)
    (hfetch : _fetchResource P uri (st.enter "_handleResourceRequest") = (.ok d, st1)) :
    _handleResourceRequest P message st =
      (.ok (.obj [("type", .str "resource_response"), ("call_id", message.get "call_id"),
                  ("status", .str "success"), ("resources", .arr [d])]), st1) := by
  simp [_handleResourceRequest, resourceRequestBody, andThen, hmsg, htext, hparse,
    St.enter_self, hcaps, member_obj, get_own _ _ _ hres, get_own _ _ _ hreg, htruthy, hfetch]

/-- C4, at a concrete request: `project:demo/src/a.js` on the example registry. -/
theorem resource_response_wraps_descriptor_witness :
    (toStr ((JsVal.obj [("resource_uri", .str "project:demo/src/a.js"),
                        ("call_id", .str "c1")]).get "resource_uri")
        = .ok "project:demo/src/a.js" ∧
     examplePlatform.parseURL "project:demo/src/a.js"
        = .ok { protocol := "project:", pathname := "demo/src/a.js",
                href := "project:demo/src/a.js" }) ∧
    _handleResourceRequest examplePlatform
        (.obj [("resource_uri", .str "project:demo/src/a.js"), ("call_id", .str "c1")])
        exampleSt =
      (.ok (.obj [("type", .str "resource_response"),
                  ("call_id", (JsVal.obj [("resource_uri", .str "project:demo/src/a.js"),
                                          ("call_id", .str "c1")]).get "call_id"),
                  ("status", .str "success"),
                  ("resources", .arr [.obj [("uri", .str "project:demo/src/a.js"),
                      ("mime_type", .str "text/plain"), ("title", .str "a.js"),
                      ("content", .str "Contenu simulé pour src/a.js")]])]),
       { exampleSt with invoked := ["_handleResourceRequest", "_fetchResource",
                                    "_fetchProjectResource"] }) :=
  ⟨⟨rfl, rfl⟩,
   resource_response_wraps_descriptor examplePlatform
     (.obj [("resource_uri", .str "project:demo/src/a.js"), ("call_id", .str "c1")])
     exampleSt _ "project:demo/src/a.js"
     { protocol := "project:", pathname := "demo/src/a.js", href := "project:demo/src/a.js" }
     [("tools", .obj [("manage_project", .obj [("description", .str "Gestion des projets")])]),
      ("resources", .obj [("project", .obj [("description", .str "Fichiers de projet")]),
                          ("logs", .obj [("description", .str "Journaux")]),
                          ("config", .obj [("description", .str "Configuration")])]),
      ("prompts", .obj [("create_project",
                         .obj [("title", .str "Créer un projet"),
                               ("prompt", .str "Crée un nouveau projet")])])]
     [("project", .obj [("description", .str "Fichiers de projet")]),
      ("logs", .obj [("description", .str "Journaux")]),
      ("config", .obj [("description", .str "Configuration")])]
     (.obj [("description", .str "Fichiers de projet")]) _
     rfl rfl rfl rfl rfl rfl rfl rfl⟩

/-- Once `resource_uri` converts to a string, `_handleResourceRequest` returns an envelope:
the one of its `try` block, or, when that block fails with message `m`, the
`resource_fetch_error` envelope carrying `m`. -/
theorem handleResourceRequest_catches (P : Platform) (message : JsVal) (st : St) (text : String)
    (hmsg : message.isNullish = false)
    (htext : toStr (message.get "resource_uri") = .ok text) :
    (∃ env st1,
        resourceRequestBody P (message.get "resource_uri") (message.get "call_id")
          (st.enter "_handleResourceRequest") = (.ok env, st1) ∧
        _handleResourceRequest P message st = (.ok env, st1)) ∨
    (∃ m st1,
        resourceRequestBody P (message.get "resource_uri") (message.get "call_id")
          (st.enter "_handleResourceRequest") = (.error m, st1) ∧
        _handleResourceRequest P message st =
          (.ok (_createErrorResponse (.str "resource_fetch_error") (.str m)
                  (message.get "call_id")), st1)) := by
  cases hbody : resourceRequestBody P (message.get "resource_uri") (message.get "call_id")
      (st.enter "_handleResourceRequest") with
  | mk r st1 =>
    cases r with
    | ok env =>
        left
        exact ⟨env, st1, rfl, by simp [_handleResourceRequest, andThen, hmsg, htext, hbody]⟩
    | error m =>
        right
        exact ⟨m, st1, rfl, by simp [_handleResourceRequest, andThen, hmsg, htext, hbody]⟩

/-- C5: for a `resource_uri` that is an object with an own `toString` entry, as in the JSON
message with `"resource_uri": \x7b"toString": 1\x7d`, `_handleResourceRequest` throws: the log
statement before the `try` block converts `resource_uri` to a string, and that conversion
raises a `TypeError` which nothing catches. -/
theorem handleResourceRequest_throws (P : Platform) (st : St) :
    _handleResourceRequest P
        (.obj [("resource_uri", .obj [("toString", .num 1)]), ("call_id", .str "c1")]) st =
      (.error "Cannot convert object to primitive value", st.enter "_handleResourceRequest") := by
  rfl

/-! ### Prompt requests -/

/-- A name that is neither an own entry of the prompt registry nor the name of a member of
`Object.prototype` is answered with `unknown_prompt`. -/
theorem unknown_prompt_rejected (message : JsVal) (st : St) (name : String)
    (caps ps : List (String × JsVal))
    (hmsg : message.isNullish = false)
    (hname : toStr (message.get "prompt_name") = .ok name)
    (hcaps : st.self.capabilities = .obj caps)
    (hps : caps.lookup "prompts" = some (.obj ps))
    (hown : ps.lookup name = none)
    (hproto : objectPrototypeKeys.contains name = false) :
    _handlePromptRequest message st =
      (.ok (_createErrorResponse (.str "unknown_prompt") (.str ("Prompt inconnu: " ++ name))
              (message.get "call_id")),
       st.enter "_handlePromptRequest") := by
  simp [_handlePromptRequest, andThen, hmsg, hname, St.enter_self, hcaps, member_obj,
    get_own _ _ _ hps, get_not_own _ _ hown, inherited_undefined _ hproto, JsVal.truthy]

/-- C6: the name `constructor` is not an own entry of the prompt registry, yet the request
is answered with a `prompt_response` (whose title and content are `undefined`), not with
`unknown_prompt`: the registry lookup finds the member inherited from `Object.prototype`. -/
theorem inherited_name_gets_prompt_response :
    (exampleCapabilities.get "prompts").hasOwn "constructor" = false ∧
    _handlePromptRequest (.obj [("prompt_name", .str "constructor"), ("call_id", .str "c1")])
        exampleSt =
      (.ok (.obj [("type", .str "prompt_response"), ("call_id", .str "c1"),
                  ("status", .str "success"),
                  ("prompt", .obj [("title", .undefined), ("content", .undefined)])]),
       { exampleSt with invoked := ["_handlePromptRequest"] }) := by
  exact ⟨rfl, rfl⟩

/-- C7: when `prompt_name` is a string naming an own, truthy entry `e` of the prompt registry,
the answer is the `prompt_response` with status `success`, the `call_id` of the request, the
title `e.title` and the content `e.prompt`; the session is left as it was. -/
theorem prompt_response_for_registered (message : JsVal) (st : St) (name : String)
    (caps ps : List (String × JsVal)) (e : JsVal)
    (hname : message.get "prompt_name" = .str name)
    (hcaps : st.self.capabilities = .obj caps)
    (hps : caps.lookup "prompts" = some (.obj ps))
    (hentry : ps.lookup name = some e)
    (htruthy : e.truthy = true) :
    (_handlePromptRequest message st).1 =
      .ok (.obj [("type", .str "prompt_response"), ("call_id", message.get "call_id"),
                 ("status", .str "success"),
                 ("prompt", .obj [("title", e.get "title"), ("content", e.get "prompt")])]) ∧
    (_handlePromptRequest message st).2.session = st.session := by
  have hmsg : message.isNullish = false := by
    cases message <;> simp_all [JsVal.isNullish, JsVal.get, inherited, objectPrototypeKeys]
  simp [_handlePromptRequest, andThen, hmsg, hname, toStr, St.enter_self, hcaps, member_obj,
    get_own _ _ _ hps, get_own _ _ _ hentry, htruthy, St.enter_session]

/-- C7, at a concrete request: the prompt `create_project` of the example registry. -/
theorem prompt_response_for_registered_witness :
    ((JsVal.obj [("prompt_name", .str "create_project"), ("call_id", .str "c1")]).get
        "prompt_name" = .str "create_project") ∧
    (_handlePromptRequest (.obj [("prompt_name", .str "create_project"), ("call_id", .str "c1")])
        exampleSt).1 =
      .ok (.obj [("type", .str "prompt_response"),
                 ("call_id", (JsVal.obj [("prompt_name", .str "create_project"),
                                         ("call_id", .str "c1")]).get "call_id"),
                 ("status", .str "success"),
                 ("prompt", .obj [("title", (JsVal.obj [("title", .str "Créer un projet"),
                        ("prompt", .str "Crée un nouveau projet")]).get "title"),
                    ("content", (JsVal.obj [("title", .str "Créer un projet"),
                        ("prompt", .str "Crée un nouveau projet")]).get "prompt")])]) ∧
    (_handlePromptRequest (.obj [("prompt_name", .str "create_project"), ("call_id", .str "c1")])
        exampleSt).2.session = exampleSt.session :=
  ⟨rfl,
   prompt_response_for_registered
     (.obj [("prompt_name", .str "create_project"), ("call_id", .str "c1")]) exampleSt
     "create_project"
     [("tools", .obj [("manage_project", .obj [("description", .str "Gestion des projets")])]),
      ("resources", .obj [("project", .obj [("description", .str "Fichiers de projet")]),
                          ("logs", .obj [("description", .str "Journaux")]),
                          ("config", .obj [("description", .str "Configuration")])]),
      ("prompts", .obj [("create_project",
                         .obj [("title", .str "Créer un projet"),
                               ("prompt", .str "Crée un nouveau projet")])])]
     [("create_project", .obj [("title", .str "Créer un projet"),
                               ("prompt", .str "Crée un nouveau projet")])]
     (.obj [("title", .str "Créer un projet"), ("prompt", .str "Crée un nouveau projet")])
     rfl rfl rfl rfl rfl⟩

/-! ### Tool calls -/

/-- What a tool handler may change of the state: the session keeps its identifier, its
state and its negotiated capabilities. -/
def sameSessionFrame (st st1 : St) : Prop :=
  st1.session.id = st.session.id ∧ st1.session.state = st.session.state ∧
  st1.session.negotiatedCapabilities = st.session.negotiatedCapabilities

/-- Sequencing keeps the frame when the continuation does. -/
theorem andThen_frame {α : Type} (e : Except String α) (st0 st : St) (k : α → Out)
    (hst : sameSessionFrame st0 st) (hk : ∀ a, sameSessionFrame st0 (k a).2) :
    sameSessionFrame st0 (andThen e st k).2 := by
  cases e with
  | error m => exact hst
  | ok a => exact hk a

/-- The handler `_executeManageProject` keeps the frame of the session. -/
theorem executeManageProject_frame (P : Platform) (args : JsVal) (st : St) :
    sameSessionFrame st (_executeManageProject P args st).2 := by
  unfold _executeManageProject
  simp only []
  split
  · exact ⟨rfl, rfl, rfl⟩
  · split <;> first
      | exact ⟨rfl, rfl, rfl⟩
      | exact andThen_frame _ _ _ _ ⟨rfl, rfl, rfl⟩ (fun _ => ⟨rfl, rfl, rfl⟩)

/-- The handler `_executeManageFile` keeps the frame of the session. -/
theorem executeManageFile_frame (P : Platform) (args : JsVal) (st : St) :
    sameSessionFrame st (_executeManageFile P args st).2 := by
  unfold _executeManageFile
  simp only []
  repeat' first
    | exact ⟨rfl, rfl, rfl⟩
    | refine andThen_frame _ _ _ _ ⟨rfl, rfl, rfl⟩ (fun _ => ?_)
    | split

/-- The handler `_executeCommand` keeps the frame of the session. -/
theorem executeCommand_frame (args : JsVal) (st : St) :
    sameSessionFrame st (_executeCommand args st).2 := by
  unfold _executeCommand
  simp only []
  repeat' first
    | exact ⟨rfl, rfl, rfl⟩
    | refine andThen_frame _ _ _ _ ⟨rfl, rfl, rfl⟩ (fun _ => ?_)
    | split

/-- The handler `_executeManageTunnel` keeps the frame of the session. -/
theorem executeManageTunnel_frame (P : Platform) (args : JsVal) (st : St) :
    sameSessionFrame st (_executeManageTunnel P args st).2 := by
  unfold _executeManageTunnel
  simp only []
  repeat' first
    | exact ⟨rfl, rfl, rfl⟩
    | refine andThen_frame _ _ _ _ ⟨rfl, rfl, rfl⟩ (fun _ => ?_)
    | split

/-- The handler `_executeManageConfig` keeps the frame of the session. -/
theorem executeManageConfig_frame (args : JsVal) (st : St) :
    sameSessionFrame st (_executeManageConfig args st).2 := by
  unfold _executeManageConfig
  simp only []
  repeat' first
    | exact ⟨rfl, rfl, rfl⟩
    | refine andThen_frame _ _ _ _ ⟨rfl, rfl, rfl⟩ (fun _ => ?_)
    | split

/-- Dispatcher `_executeToolCall`: whatever the tool and its arguments, and whether the
handler returns or throws, the session keeps its identifier, its state and its negotiated
capabilities. -/
theorem executeToolCall_frame (P : Platform) (toolName args : JsVal) (st : St) :
    sameSessionFrame st (_executeToolCall P toolName args st).2 := by
  unfold _executeToolCall
  simp only []
  split
  · exact executeManageProject_frame P args (st.enter "_executeToolCall")
  · exact executeManageFile_frame P args (st.enter "_executeToolCall")
  · exact executeCommand_frame args (st.enter "_executeToolCall")
  · exact executeManageTunnel_frame P args (st.enter "_executeToolCall")
  · exact executeManageConfig_frame args (st.enter "_executeToolCall")
  · exact andThen_frame _ _ _ _ ⟨rfl, rfl, rfl⟩ (fun _ => ⟨rfl, rfl, rfl⟩)

/-- Method `_handleToolCall` never moves the session to another state, whatever the message
and the outcome. -/
theorem handleToolCall_keeps_state (P : Platform) (message : JsVal) (st : St) :
    (_handleToolCall P message st).2.session.state = st.session.state := by
  unfold _handleToolCall
  simp only []
  split
  · rfl
  · split
    · rfl
    · have h := executeToolCall_frame P (message.get "tool_name") (message.get "tool_args")
        (st.enter "_handleToolCall")
      split
      · next r st1 heq => rw [heq] at h; exact h.2.1
      · next m st1 heq =>
          rw [heq] at h
          unfold toolCallCatch andThen
          split <;> exact h.2.1

/-- When the handler of a known tool fails with message `m`, `_handleToolCall` returns what
`_createErrorResponse` builds for `tool_execution_error`, `m` and the `call_id` of the
request; it does not throw. -/
theorem toolCall_failure_envelope (P : Platform) (message : JsVal) (st st1 : St)
    (name m : String)
    (hmsg : message.isNullish = false)
    (hname : message.get "tool_name" = .str name)
    (hknown : (st.session.negotiatedCapabilities.get "tools").hasOwn name = true)
    (hfail : _executeToolCall P (.str name) (message.get "tool_args")
        (st.enter "_handleToolCall") = (.error m, st1)) :
    _handleToolCall P message st =
      (.ok (_createErrorResponse (.str "tool_execution_error") (.str m)
              (message.get "call_id")), st1) := by
  simp [_handleToolCall, toolCallCatch, andThen, hmsg, hname, St.enter_session, hknown, hfail,
    toStr]

/-- C8: a `tool_call` with `call_id` equal to `0` whose handler fails (unrecognised action)
gets a `tool_execution_error` envelope with the message of the failure but without any
`call_id` field, because the `catch` block builds it with `_createErrorResponse`. -/
theorem toolCall_failure_drops_falsy_call_id :
    _handleToolCall examplePlatform
        (.obj [("type", .str "tool_call"), ("tool_name", .str "manage_project"),
               ("tool_args", .obj [("action", .str "bogus")]), ("call_id", .num 0)])
        exampleSt =
      (.ok (.obj [("type", .str "error"),
                  ("error", .obj [("code", .str "tool_execution_error"),
                                  ("message", .str "Action de projet non reconnue: bogus")])]),
       { exampleSt with invoked := ["_handleToolCall", "_executeToolCall",
                                    "_executeManageProject"] }) ∧
    (∀ (name m : String) (st : St),
      toolCallCatch (.str name) (.num 0) m st =
        (.ok (.obj [("type", .str "error"),
                    ("error", .obj [("code", .str "tool_execution_error"),
                                    ("message", .str m)])]), st)) := by
  exact ⟨rfl, fun _ _ _ => rfl⟩

/-! ### Dispatch -/

/-- Writing back a session that is the one stored leaves the store as it was. -/
theorem putSession_same (id : String) (s : Session) (l : List (String × Session))
    (h : l.lookup id = some s) : putSession id s l = l := by
  induction l with
  | nil => rfl
  | cons kv r ih =>
      obtain ⟨k, v⟩ := kv
      by_cases hk : k = id
      · subst hk
        simp [List.lookup] at h
        simp [putSession, h]
      · have hne : (id == k) = false := by
          simp only [beq_eq_false_iff_ne, ne_eq]
          exact fun e => hk e.symm
        simp only [List.lookup, hne] at h
        simp [putSession, hk, ih h]

/-- A session comes out of `createSession` in state `NEGOTIATING`. -/
theorem createSession_state (P : Platform) (E : Engine) :
    (createSession P E).1.state = SessionState.NEGOTIATING := rfl

/-- A value whose `type` property is a string is neither nullish nor itself a string. -/
theorem typed_message (message : JsVal) (t : String) (h : message.get "type" = .str t) :
    ∃ fs, message = .obj fs := by
  cases message <;> simp_all [JsVal.get, inherited, objectPrototypeKeys]

/-- After a write-back the store holds the written session under its identifier. -/
theorem lookup_putSession (id : String) (s s1 : Session) (l : List (String × Session))
    (h : l.lookup id = some s) : (putSession id s1 l).lookup id = some s1 := by
  induction l with
  | nil => simp [List.lookup] at h
  | cons kv r ih =>
      obtain ⟨k, v⟩ := kv
      by_cases hk : k = id
      · subst hk
        simp [putSession, List.lookup]
      · have hne : (id == k) = false := by
          simp only [beq_eq_false_iff_ne, ne_eq]
          exact fun e => hk e.symm
        simp only [List.lookup, hne] at h
        simp [putSession, hk, List.lookup, hne, ih h]

/-- A `tool_call` on a stored `READY` session leaves that session stored and `READY`,
whether the tool is unknown, succeeds or fails. -/
theorem toolCall_keeps_session_ready (P : Platform) (message : JsVal) (id : String)
    (E : Engine) (session : Session)
    (hget : E.get id = some session)
    (hready : session.state = SessionState.READY)
    (htype : message.get "type" = .str "tool_call") :
    ∃ s1, (handleMessage P message id E).2.get id = some s1 ∧
      s1.state = SessionState.READY := by
  obtain ⟨fs, rfl⟩ := typed_message _ _ htype
  have hlookup : E.sessions.lookup id = some session := hget
  have hstate := handleToolCall_keeps_state P (.obj fs)
    { self := E.self, session := session, invoked := E.invoked }
  refine ⟨(_handleToolCall P (.obj fs)
    { self := E.self, session := session, invoked := E.invoked }).2.session, ?_, ?_⟩
  · simp [handleMessage, Engine.get, hlookup, htype, hready, Engine.run, JsVal.isNullish,
      lookup_putSession _ _ _ _ hlookup]
  · rw [hstate]
    exact hready

/-- C9: on a stored session that is not `READY` (the state before any `negotiate`), a
message of type `tool_call`, `resource_request` or `prompt_request` is answered with an
error envelope of code `session_not_negotiated` whose `call_id` is that of the request; the
engine is left as it was, so no handler method is entered. -/
theorem not_negotiated_gate (P : Platform) (message : JsVal) (id : String) (E : Engine)
    (session : Session)
    (hget : E.get id = some session)
    (hstate : session.state ≠ SessionState.READY)
    (htype : message.get "type" = .str "tool_call" ∨
             message.get "type" = .str "resource_request" ∨
             message.get "type" = .str "prompt_request") :
    (handleMessage P message id E).2 = E ∧
    ∃ env, (handleMessage P message id E).1 = .ok env ∧
      env.get "type" = .str "error" ∧
      (env.get "error").get "code" = .str "session_not_negotiated" ∧
      env.get "call_id" = message.get "call_id" := by
  have hobj : ∃ fs, message = .obj fs := by
    rcases htype with h | h | h <;> exact typed_message _ _ h
  obtain ⟨fs, rfl⟩ := hobj
  have henv : ∀ c : JsVal,
      (specErrorEnvelope "session_not_negotiated" "Session non négociée" c).get "type"
        = .str "error" ∧
      ((specErrorEnvelope "session_not_negotiated" "Session non négociée" c).get "error").get
        "code" = .str "session_not_negotiated" ∧
      (specErrorEnvelope "session_not_negotiated" "Session non négociée" c).get "call_id" = c := by
    intro c
    cases c <;> simp [specErrorEnvelope, JsVal.get, List.lookup, inherited, objectPrototypeKeys]
  rcases htype with h | h | h <;>
    simp [handleMessage, hget, h, hstate, JsVal.isNullish, henv]

/-- C9, at a concrete call: a `tool_call` with `call_id` `c2` on a fresh session. -/
theorem not_negotiated_gate_witness :
    (freshEngine.get "s0" = some freshSession ∧
     freshSession.state ≠ SessionState.READY) ∧
    (handleMessage examplePlatform
        (.obj [("type", .str "tool_call"), ("tool_name", .str "unknown_tool_x"),
               ("call_id", .str "c2")]) "s0" freshEngine).2 = freshEngine ∧
    ∃ env, (handleMessage examplePlatform
        (.obj [("type", .str "tool_call"), ("tool_name", .str "unknown_tool_x"),
               ("call_id", .str "c2")]) "s0" freshEngine).1 = .ok env ∧
      env.get "type" = .str "error" ∧
      (env.get "error").get "code" = .str "session_not_negotiated" ∧
      env.get "call_id" =
        (JsVal.obj [("type", .str "tool_call"), ("tool_name", .str "unknown_tool_x"),
                    ("call_id", .str "c2")]).get "call_id" :=
  ⟨⟨rfl, by decide⟩,
   not_negotiated_gate examplePlatform
     (.obj [("type", .str "tool_call"), ("tool_name", .str "unknown_tool_x"),
            ("call_id", .str "c2")]) "s0" freshEngine freshSession rfl (by decide)
     (Or.inl rfl)⟩

/-- C10: on a `READY` session, a `tool_call` whose `tool_name` is not an own entry of the
negotiated tools is answered with an error envelope of code `unknown_tool`; the only method
entered is `_handleToolCall`, so no tool handler runs, and the stored session, its context
included, is unchanged. -/
theorem unknown_tool_rejected (P : Platform) (message : JsVal) (id : String) (E : Engine)
    (session : Session)
    (hget : E.get id = some session)
    (hready : session.state = SessionState.READY)
    (htype : message.get "type" = .str "tool_call")
    (hunknown : ∀ name, message.get "tool_name" = .str name →
        (session.negotiatedCapabilities.get "tools").hasOwn name = false) :
    (∃ env, (handleMessage P message id E).1 = .ok env ∧
      env.get "type" = .str "error" ∧
      (env.get "error").get "code" = .str "unknown_tool") ∧
    (handleMessage P message id E).2.invoked = E.invoked ++ ["_handleToolCall"] ∧
    (handleMessage P message id E).2.get id = some session ∧
    (handleMessage P message id E).2.sessions = E.sessions := by
  obtain ⟨fs, rfl⟩ := typed_message _ _ htype
  have hlookup : E.sessions.lookup id = some session := hget
  have henv : ∀ c : JsVal,
      (specErrorEnvelope "unknown_tool" "Outil inconnu" c).get "type" = .str "error" ∧
      ((specErrorEnvelope "unknown_tool" "Outil inconnu" c).get "error").get "code"
        = .str "unknown_tool" := by
    intro c
    cases c <;> simp [specErrorEnvelope, JsVal.get, List.lookup]
  have hknown : (match (JsVal.obj fs).get "tool_name" with
      | .str name => (session.negotiatedCapabilities.get "tools").hasOwn name
      | _ => false) = false := by
    cases hn : (JsVal.obj fs).get "tool_name" <;> simp
    exact hunknown _ hn
  simp [handleMessage, hget, htype, hready, Engine.run, _handleToolCall, JsVal.isNullish,
    St.enter_session, hknown, henv, St.enter_invoked, putSession_same _ _ _ hlookup,
    Engine.get, hlookup]

/-- C10, at a concrete call: the tool `unknown_tool_x` on the negotiated session `s0`. -/
theorem unknown_tool_rejected_witness :
    (exampleEngine.get "s0" = some readySession ∧
     readySession.state = SessionState.READY) ∧
    (∃ env, (handleMessage examplePlatform
        (.obj [("type", .str "tool_call"), ("tool_name", .str "unknown_tool_x"),
               ("call_id", .str "c2")]) "s0" exampleEngine).1 = .ok env ∧
      env.get "type" = .str "error" ∧
      (env.get "error").get "code" = .str "unknown_tool") ∧
    (handleMessage examplePlatform
        (.obj [("type", .str "tool_call"), ("tool_name", .str "unknown_tool_x"),
               ("call_id", .str "c2")]) "s0" exampleEngine).2.invoked
      = exampleEngine.invoked ++ ["_handleToolCall"] ∧
    (handleMessage examplePlatform
        (.obj [("type", .str "tool_call"), ("tool_name", .str "unknown_tool_x"),
               ("call_id", .str "c2")]) "s0" exampleEngine).2.get "s0" = some readySession ∧
    (handleMessage examplePlatform
        (.obj [("type", .str "tool_call"), ("tool_name", .str "unknown_tool_x"),
               ("call_id", .str "c2")]) "s0" exampleEngine).2.sessions
      = exampleEngine.sessions :=
  ⟨⟨rfl, rfl⟩,
   unknown_tool_rejected examplePlatform
     (.obj [("type", .str "tool_call"), ("tool_name", .str "unknown_tool_x"),
            ("call_id", .str "c2")]) "s0" exampleEngine readySession rfl rfl rfl
     (fun name h => by
        have h2 : JsVal.str "unknown_tool_x" = JsVal.str name := h
        cases h2
        rfl)⟩

/-! ### HTTP negotiation -/

/-- The engine modelled from the spec returns an envelope for every `negotiate` message. -/
theorem handleMessage_negotiate_returns (P : Platform) (caps : JsVal) (id : String)
    (E : Engine) :
    ∃ r E2, handleMessage P
      (.obj [("type", .str "negotiate"), ("client_capabilities", caps)]) id E = (.ok r, E2) := by
  have h : ∃ r, (handleMessage P
      (.obj [("type", .str "negotiate"), ("client_capabilities", caps)]) id E).1 = .ok r := by
    cases hget : E.get id with
    | none => simp [handleMessage, hget]
    | some session =>
        simp [handleMessage, hget, JsVal.isNullish, JsVal.get, List.lookup, Engine.run,
          _handleNegotiate]
  obtain ⟨r, hr⟩ := h
  exact ⟨r, _, Prod.ext hr rfl⟩

/-- C11: `POST /mcp/negotiate`, when the body parser has set `req.body` and the engine
returns an envelope for the `negotiate` message. If the session header is absent or is no
key of the session map, the engine creates exactly one session, the transport stores its
identifier, the engine is called once with a message of type `negotiate` and that
identifier, and the identifier is the `X-MCP-Session-ID` header of the answer. If the
header names a stored session, no session is created, the map is unchanged, and the engine
is called once with the identifier of the header, which is returned in the header. -/
theorem negotiate_route_sessions {ε : Type} (ops : EngineOps ε) (T : HttpTransport)
    (req : HttpRequest) (E : ε)
    (hbody : req.body.isNullish = false)
    (hreturns : ∀ id E1, ∃ r E2,
      ops.handleMessage
        (.obj [("type", .str "negotiate"),
               ("client_capabilities", (req.body.get "client_capabilities").or (.obj []))])
        id E1 = (.ok r, E2)) :
    ((req.sessionHeader = none ∨ ∃ id, req.sessionHeader = some id ∧ id ∉ T.sessions) →
      (handleRoute ops Route.negotiate T req E).calls =
        [(.obj [("type", .str "negotiate"),
                ("client_capabilities", (req.body.get "client_capabilities").or (.obj []))],
          (ops.createSession E).1.id)] ∧
      (handleRoute ops Route.negotiate T req E).engine =
        (ops.handleMessage
          (.obj [("type", .str "negotiate"),
                 ("client_capabilities", (req.body.get "client_capabilities").or (.obj []))])
          (ops.createSession E).1.id (ops.createSession E).2).2 ∧
      (∀ k, k ∈ (handleRoute ops Route.negotiate T req E).transport.sessions ↔
        (k ∈ T.sessions ∨ k = (ops.createSession E).1.id)) ∧
      (handleRoute ops Route.negotiate T req E).response.status = 200 ∧
      (handleRoute ops Route.negotiate T req E).response.headers =
        [("X-MCP-Session-ID", (ops.createSession E).1.id)]) ∧
    (∀ id, req.sessionHeader = some id → id ≠ "" → id ∈ T.sessions →
      (handleRoute ops Route.negotiate T req E).calls =
        [(.obj [("type", .str "negotiate"),
                ("client_capabilities", (req.body.get "client_capabilities").or (.obj []))],
          id)] ∧
      (handleRoute ops Route.negotiate T req E).engine =
        (ops.handleMessage
          (.obj [("type", .str "negotiate"),
                 ("client_capabilities", (req.body.get "client_capabilities").or (.obj []))])
          id E).2 ∧
      (handleRoute ops Route.negotiate T req E).transport = T ∧
      (handleRoute ops Route.negotiate T req E).response.status = 200 ∧
      (handleRoute ops Route.negotiate T req E).response.headers =
        [("X-MCP-Session-ID", id)]) := by
  have hmember : member req.body "client_capabilities"
      = .ok (req.body.get "client_capabilities") := by
    simp [member, hbody]
  constructor
  · intro hunknown
    have hknown : (match req.sessionHeader with
        | some sessionId => sessionId != "" && T.sessions.contains sessionId
        | none => false) = false := by
      rcases hunknown with h | ⟨id, h, hid⟩
      · simp [h]
      · simp [h, hid]
    cases hcs : ops.createSession E with
    | mk session E0 =>
      obtain ⟨r, E2, hr⟩ := hreturns session.id E0
      have hout : handleRoute ops Route.negotiate T req E =
          { response := { status := 200, headers := [("X-MCP-Session-ID", session.id)],
                          body := r },
            transport := { T with sessions :=
              if T.sessions.contains session.id then T.sessions
              else T.sessions ++ [session.id] },
            engine := E2,
            calls := [(.obj [("type", .str "negotiate"),
                  ("client_capabilities", (req.body.get "client_capabilities").or (.obj []))],
                session.id)] } := by
        simp only [handleRoute, negotiateRoute, hknown, hcs, hmember, hr, Bool.false_eq_true,
          if_false]
      rw [hout, hr]
      refine ⟨rfl, rfl, ?_, rfl, rfl⟩
      intro k
      by_cases hc : session.id ∈ T.sessions
      · have hc2 : T.sessions.contains session.id = true := by simpa using hc
        rw [hc2]
        simp only [if_true]
        constructor
        · exact fun h => Or.inl h
        · rintro (h | h)
          · exact h
          · rw [h]; exact hc
      · have hc2 : T.sessions.contains session.id = false := by simpa using hc
        rw [hc2]
        simp
  · intro id hheader hne hmem
    have hknown : (id != "" && T.sessions.contains id) = true := by
      simp [hne, hmem]
    obtain ⟨r, E2, hr⟩ := hreturns id E
    have hout : handleRoute ops Route.negotiate T req E =
        { response := { status := 200, headers := [("X-MCP-Session-ID", id)], body := r },
          transport := T,
          engine := E2,
          calls := [(.obj [("type", .str "negotiate"),
                ("client_capabilities", (req.body.get "client_capabilities").or (.obj []))],
              id)] } := by
      simp only [handleRoute, negotiateRoute, hheader, hknown, hmember, if_true, Option.getD,
        hr]
    rw [hout, hr]
    exact ⟨rfl, rfl, rfl, rfl, rfl⟩

/-- C11, at concrete requests on the transport that holds `s0`: without a header the session
`s1` is created and returned; with the header `s0` the session `s0` is reused. -/
theorem negotiate_route_sessions_witness :
    ((JsVal.obj []).isNullish = false ∧ "s0" ≠ "" ∧ "s0" ∈ exampleTransport.sessions) ∧
    (handleRoute (specEngine examplePlatform) Route.negotiate exampleTransport
        { sessionHeader := none, body := .obj [] } exampleEngine).calls =
      [(.obj [("type", .str "negotiate"), ("client_capabilities", .obj [])], "s1")] ∧
    (handleRoute (specEngine examplePlatform) Route.negotiate exampleTransport
        { sessionHeader := none, body := .obj [] } exampleEngine).response.headers =
      [("X-MCP-Session-ID", "s1")] ∧
    (handleRoute (specEngine examplePlatform) Route.negotiate exampleTransport
        { sessionHeader := some "s0", body := .obj [] } exampleEngine).calls =
      [(.obj [("type", .str "negotiate"), ("client_capabilities", .obj [])], "s0")] ∧
    (handleRoute (specEngine examplePlatform) Route.negotiate exampleTransport
        { sessionHeader := some "s0", body := .obj [] } exampleEngine).transport =
      exampleTransport ∧
    (handleRoute (specEngine examplePlatform) Route.negotiate exampleTransport
        { sessionHeader := some "s0", body := .obj [] } exampleEngine).response.headers =
      [("X-MCP-Session-ID", "s0")] :=
  have fresh := (negotiate_route_sessions (specEngine examplePlatform) exampleTransport
    { sessionHeader := none, body := .obj [] } exampleEngine rfl
    (fun id E1 => handleMessage_negotiate_returns examplePlatform _ id E1)).1 (Or.inl rfl)
  have known := (negotiate_route_sessions (specEngine examplePlatform) exampleTransport
    { sessionHeader := some "s0", body := .obj [] } exampleEngine rfl
    (fun id E1 => handleMessage_negotiate_returns examplePlatform _ id E1)).2 "s0" rfl
    (by decide) (by decide)
  ⟨⟨rfl, by decide, by decide⟩, fresh.1, fresh.2.2.2.2, known.1, known.2.2.1, known.2.2.2.2⟩

/-! ### WebSocket transport -/

/-- The `message` handler keeps the session identifier of the connection and only appends
to what was sent on the socket. -/
theorem wsMessage_conn {ε : Type} (ops : EngineOps ε) (P : Platform) (conn : WsConnection)
    (data : String) (E : ε) :
    (wsMessage ops P conn data E).conn.sessionId = conn.sessionId ∧
    ∃ more, (wsMessage ops P conn data E).conn.sent = conn.sent ++ more := by
  unfold wsMessage
  cases P.jsonParse data with
  | none => exact ⟨rfl, _, rfl⟩
  | some message =>
      simp only []
      cases hcall : ops.handleMessage message conn.sessionId E with
      | mk r E1 =>
          cases r with
          | error m => exact ⟨rfl, _, rfl⟩
          | ok response =>
              refine ⟨rfl, ?_⟩
              by_cases hu : stringifiesToUndefined response = true
              · exact ⟨[jsonText P "" response,
                  P.jsonStringify (transportError "websocket_error" substringOfUndefined) 0],
                  by simp [hu]⟩
              · exact ⟨[jsonText P "" response], by simp [hu]⟩

/-- The calls of one frame: none when the payload does not decode, else one call with the
decoded message and the session identifier of the connection. -/
theorem wsMessage_calls {ε : Type} (ops : EngineOps ε) (P : Platform) (conn : WsConnection)
    (data : String) (E : ε) :
    (wsMessage ops P conn data E).calls =
      ((P.jsonParse data).toList).map (fun message => (message, conn.sessionId)) := by
  unfold wsMessage
  cases P.jsonParse data with
  | none => rfl
  | some message =>
      simp only []
      cases hcall : ops.handleMessage message conn.sessionId E with
      | mk r E1 => cases r <;> rfl

/-- Over a sequence of frames the connection keeps its identifier, what was sent stays a
prefix of what is sent, and the engine is called once per decodable frame, in order, always
with the identifier of the connection. -/
theorem wsMessages_invariant {ε : Type} (ops : EngineOps ε) (P : Platform)
    (frames : List String) (conn : WsConnection) (E : ε) :
    (wsMessages ops P conn frames E).conn.sessionId = conn.sessionId ∧
    (∃ more, (wsMessages ops P conn frames E).conn.sent = conn.sent ++ more) ∧
    (wsMessages ops P conn frames E).calls =
      (frames.filterMap P.jsonParse).map (fun message => (message, conn.sessionId)) := by
  induction frames generalizing conn E with
  | nil => exact ⟨rfl, ⟨[], (List.append_nil _).symm⟩, rfl⟩
  | cons data rest ih =>
      obtain ⟨hid, more1, hsent⟩ := wsMessage_conn ops P conn data E
      obtain ⟨ihid, ⟨more2, ihsent⟩, ihcalls⟩ :=
        ih (wsMessage ops P conn data E).conn (wsMessage ops P conn data E).engine
      refine ⟨?_, ?_, ?_⟩
      · simp only [wsMessages]
        rw [ihid, hid]
      · refine ⟨more1 ++ more2, ?_⟩
        simp only [wsMessages]
        rw [ihsent, hsent, List.append_assoc]
      · simp only [wsMessages]
        rw [ihcalls, hid, wsMessage_calls]
        cases hp : P.jsonParse data <;> simp [List.filterMap_cons, hp]

/-- C12: on opening, the connection gets the identifier of the session the engine creates
then, and the first and only frame sent is the text of
`\x7b type: \x27session\x27, session_id \x7d` with that identifier. For every sequence of later
inbound frames, that frame stays the first one sent, and the engine is called exactly for
the frames that decode, in order, each time with that same identifier. When the engine
returns a response for a decodable frame, the text of the response is sent next on the
same socket. -/
theorem ws_session_frame_and_dispatch {ε : Type} (ops : EngineOps ε) (P : Platform)
    (T : WebSocketTransport) (E : ε) (frames : List String) :
    (wsOpen ops P T E).1.sessionId = (ops.createSession E).1.id ∧
    (wsOpen ops P T E).1.sent = [P.jsonStringify (sessionFrame (ops.createSession E).1.id) 0] ∧
    (ops.createSession E).1.id ∈ (wsOpen ops P T E).2.1.sessions ∧
    (wsOpen ops P T E).2.2 = (ops.createSession E).2 ∧
    (wsMessages ops P (wsOpen ops P T E).1 frames (wsOpen ops P T E).2.2).conn.sent.head? =
      some (P.jsonStringify (sessionFrame (ops.createSession E).1.id) 0) ∧
    (wsMessages ops P (wsOpen ops P T E).1 frames (wsOpen ops P T E).2.2).calls =
      (frames.filterMap P.jsonParse).map
        (fun message => (message, (ops.createSession E).1.id)) ∧
    (∀ (conn : WsConnection) (data : String) (E0 E1 : ε) (message response : JsVal),
      P.jsonParse data = some message →
      ops.handleMessage message conn.sessionId E0 = (.ok response, E1) →
      stringifiesToUndefined response = false →
      (wsMessage ops P conn data E0).conn.sent = conn.sent ++ [P.jsonStringify response 0]) := by
  have hopen : wsOpen ops P T E =
      ({ sessionId := (ops.createSession E).1.id,
         sent := [P.jsonStringify (sessionFrame (ops.createSession E).1.id) 0] },
       { T with sessions := if T.sessions.contains (ops.createSession E).1.id then T.sessions
                            else T.sessions ++ [(ops.createSession E).1.id] },
       (ops.createSession E).2) := rfl
  obtain ⟨hid, ⟨more, hsent⟩, hcalls⟩ :=
    wsMessages_invariant ops P frames (wsOpen ops P T E).1 (wsOpen ops P T E).2.2
  refine ⟨rfl, rfl, ?_, rfl, ?_, ?_, ?_⟩
  · rw [hopen]
    by_cases hc : (ops.createSession E).1.id ∈ T.sessions
    · have hc2 : T.sessions.contains (ops.createSession E).1.id = true := by simpa using hc
      simp only [hc2, if_true]
      exact hc
    · simp [hc]
  · rw [hsent, hopen]
    rfl
  · rw [hcalls, hopen]
  · intro conn data E0 E1 message response hparse hcall hdefined
    simp [wsMessage, hparse, hcall, hdefined, jsonText]

/-- C12, at a concrete connection: the frame of the WebSocket scenario of the spec, sent
after an undecodable frame on a connection opened over `exampleEngine`, reaches the engine
with the identifier `s1` announced in the first frame. -/
theorem ws_session_frame_and_dispatch_witness :
    (exampleParse scenarioFrame = some scenarioMessage) ∧
    (wsOpen (specEngine wirePlatform) wirePlatform idleWebSocket exampleEngine).1.sent =
      ["\x7b\"type\":\"session\",\"session_id\":\"s1\"\x7d"] ∧
    (wsMessages (specEngine wirePlatform) wirePlatform
        (wsOpen (specEngine wirePlatform) wirePlatform idleWebSocket exampleEngine).1
        ["not json", scenarioFrame]
        (wsOpen (specEngine wirePlatform) wirePlatform idleWebSocket exampleEngine).2.2).calls =
      [(scenarioMessage, "s1")] ∧
    (wsMessages (specEngine wirePlatform) wirePlatform
        (wsOpen (specEngine wirePlatform) wirePlatform idleWebSocket exampleEngine).1
        ["not json", scenarioFrame]
        (wsOpen (specEngine wirePlatform) wirePlatform idleWebSocket exampleEngine).2.2).conn.sent.head? =
      some "\x7b\"type\":\"session\",\"session_id\":\"s1\"\x7d" :=
  have h := ws_session_frame_and_dispatch (specEngine wirePlatform) wirePlatform idleWebSocket
    exampleEngine ["not json", scenarioFrame]
  ⟨rfl, h.2.1, h.2.2.2.2.2.1, h.2.2.2.2.1⟩

/-- C13: for a payload that does not decode as JSON, the handler sends exactly one frame, the
text of the `invalid_message` error envelope, makes no call to the engine and leaves the
engine, hence the session of the connection, as it was. -/
theorem ws_undecodable_frame {ε : Type} (ops : EngineOps ε) (P : Platform)
    (conn : WsConnection) (data : String) (E : ε)
    (hdecode : P.jsonParse data = none) :
    (wsMessage ops P conn data E).conn.sent =
      conn.sent ++ [P.jsonStringify
        (.obj [("type", .str "error"),
               ("error", .obj [("code", .str "invalid_message"),
                               ("message", .str "Format de message invalide")])]) 0] ∧
    (wsMessage ops P conn data E).conn.sessionId = conn.sessionId ∧
    (wsMessage ops P conn data E).calls = [] ∧
    (wsMessage ops P conn data E).engine = E := by
  simp [wsMessage, hdecode, transportError]

/-- C13, at a concrete frame: the payload `not json` on the connection opened over
`exampleEngine`. -/
theorem ws_undecodable_frame_witness :
    (wirePlatform.jsonParse "not json" = none) ∧
    (wsMessage (specEngine wirePlatform) wirePlatform
        { sessionId := "s1", sent := ["\x7b\"type\":\"session\",\"session_id\":\"s1\"\x7d"] }
        "not json" exampleEngine).conn.sent =
      ["\x7b\"type\":\"session\",\"session_id\":\"s1\"\x7d",
       "\x7b\"type\":\"error\",\"error\":\x7b\"code\":\"invalid_message\",\"message\":\"Format de message invalide\"\x7d\x7d"] ∧
    (wsMessage (specEngine wirePlatform) wirePlatform
        { sessionId := "s1", sent := ["\x7b\"type\":\"session\",\"session_id\":\"s1\"\x7d"] }
        "not json" exampleEngine).calls = [] ∧
    (wsMessage (specEngine wirePlatform) wirePlatform
        { sessionId := "s1", sent := ["\x7b\"type\":\"session\",\"session_id\":\"s1\"\x7d"] }
        "not json" exampleEngine).engine = exampleEngine :=
  have h := ws_undecodable_frame (specEngine wirePlatform) wirePlatform
    { sessionId := "s1", sent := ["\x7b\"type\":\"session\",\"session_id\":\"s1\"\x7d"] }
    "not json" exampleEngine rfl
  ⟨rfl, h.1, h.2.2.1, h.2.2.2⟩

/-- C14, refuted: a connection is opened over `exampleEngine`, which creates the session
`s1`, and then closed; looking up `s1` in the session store of the engine still yields
the session, not not-found. -/
theorem ws_close_keeps_engine_session :
    (wsOpen (specEngine wirePlatform) wirePlatform idleWebSocket exampleEngine).1.sessionId
      = "s1" ∧
    (wsClose (wsOpen (specEngine wirePlatform) wirePlatform idleWebSocket exampleEngine).2.1
        (wsOpen (specEngine wirePlatform) wirePlatform idleWebSocket exampleEngine).1
        (wsOpen (specEngine wirePlatform) wirePlatform idleWebSocket exampleEngine).2.2).2.get
        "s1" =
      some { id := "s1", state := SessionState.NEGOTIATING, negotiatedCapabilities := .undefined,
             context := [] } := by
  exact ⟨rfl, rfl⟩

/-- C14, amended: when a connection closes, the identifier of its session is removed from
the session map of the WebSocket transport, the other keys of that map stay, and the engine,
with its session store, is left exactly as it was. -/
theorem ws_close_effect {ε : Type} (T : WebSocketTransport) (conn : WsConnection) (E : ε) :
    conn.sessionId ∉ (wsClose T conn E).1.sessions ∧
    (∀ k, k ≠ conn.sessionId → (k ∈ (wsClose T conn E).1.sessions ↔ k ∈ T.sessions)) ∧
    (wsClose T conn E).2 = E := by
  refine ⟨?_, ?_, rfl⟩
  · simp [wsClose]
  · intro k hk
    simp [wsClose, hk]

/-! ### Stdio transport -/

/-- The calls of one line: none for a blank line, else one call with the line and the
session identifier of the transport. -/
theorem stdioLine_calls {ε : Type} (ops : EngineOps ε) (P : Platform) (T : StdioTransport)
    (line : String) (E : ε) :
    (stdioLine ops P T line E).calls =
      if isBlank line then [] else [(JsVal.str line, T.sessionId)] := by
  unfold stdioLine
  split
  · rfl
  · cases hcall : ops.handleMessage (.str line) T.sessionId E with
    | mk r E1 => cases r <;> rfl

/-- Over a sequence of lines the engine is called once per line that is not blank, in
order, always with the session identifier of the transport. -/
theorem stdioLines_calls {ε : Type} (ops : EngineOps ε) (P : Platform) (T : StdioTransport)
    (lines : List String) (E : ε) :
    (stdioLines ops P T lines E).calls =
      (lines.filter (fun line => !isBlank line)).map (fun line => (JsVal.str line, T.sessionId)) := by
  induction lines generalizing E with
  | nil => rfl
  | cons line rest ih =>
      simp only [stdioLines, ih, stdioLine_calls]
      cases hb : isBlank line <;> simp [List.filter_cons, hb]

/-- C15: the transport is initialised with the identifier of the one session created by
`init`. Then, for every input line: a line that is empty or made of white space writes
nothing and reaches nothing; any other line is handed to the engine exactly once, with
the session identifier of the transport, and exactly one line is written, the JSON text of
the envelope the engine returns, or the JSON text of a `transport_error` envelope carrying
the message when the engine throws. Over any sequence of lines every engine call uses that
one identifier. -/
theorem stdio_line_output {ε : Type} (ops : EngineOps ε) (P : Platform) (T : StdioTransport)
    (line : String) (E : ε) :
    (stdioInit ops E).1.sessionId = (ops.createSession E).1.id ∧
    (isBlank line = true →
      (stdioLine ops P T line E).written = [] ∧ (stdioLine ops P T line E).calls = [] ∧
      (stdioLine ops P T line E).engine = E) ∧
    (isBlank line = false →
      (stdioLine ops P T line E).calls = [(.str line, T.sessionId)] ∧
      (∀ response E1, ops.handleMessage (.str line) T.sessionId E = (.ok response, E1) →
        stringifiesToUndefined response = false →
        (stdioLine ops P T line E).written = [P.jsonStringify response 0] ∧
        (stdioLine ops P T line E).engine = E1) ∧
      (∀ m E1, ops.handleMessage (.str line) T.sessionId E = (.error m, E1) →
        (stdioLine ops P T line E).written =
          [P.jsonStringify
            (.obj [("type", .str "error"),
                   ("error", .obj [("code", .str "transport_error"), ("message", .str m)])]) 0])) ∧
    (∀ (lines : List String) (E0 : ε),
      (stdioLines ops P T lines E0).calls =
        (lines.filter (fun l => !isBlank l)).map (fun l => (JsVal.str l, T.sessionId))) := by
  refine ⟨rfl, ?_, ?_, fun lines E0 => stdioLines_calls ops P T lines E0⟩
  · intro hb
    simp [stdioLine, hb]
  · intro hb
    refine ⟨by simp [stdioLine_calls, hb], ?_, ?_⟩
    · intro response E1 hcall hdefined
      simp [stdioLine, hb, hcall, hdefined, jsonText]
    · intro m E1 hcall
      simp [stdioLine, hb, hcall, transportError]

/-- C15, at concrete lines: a line of two spaces writes nothing; the scenario frame, read
as a line on a session not yet negotiated, writes the one line of its error envelope. -/
theorem stdio_line_output_witness :
    (isBlank "  " = true ∧ isBlank scenarioFrame = false ∧
     stringifiesToUndefined
       (specErrorEnvelope "session_not_negotiated" "Session non négociée" (.str "c2")) = false) ∧
    (stdioLine (specEngine wirePlatform) wirePlatform exampleStdio "  " freshEngine).written
      = [] ∧
    (stdioLine (specEngine wirePlatform) wirePlatform exampleStdio scenarioFrame
        freshEngine).calls = [(.str scenarioFrame, "s0")] ∧
    (stdioLine (specEngine wirePlatform) wirePlatform exampleStdio scenarioFrame
        freshEngine).written =
      ["\x7b\"type\":\"error\",\"error\":\x7b\"code\":\"session_not_negotiated\",\"message\":\"Session non négociée\"\x7d,\"call_id\":\"c2\"\x7d"] :=
  have blank := (stdio_line_output (specEngine wirePlatform) wirePlatform exampleStdio "  "
    freshEngine).2.1 rfl
  have full := (stdio_line_output (specEngine wirePlatform) wirePlatform exampleStdio
    scenarioFrame freshEngine).2.2.1 rfl
  ⟨⟨rfl, rfl, rfl⟩, blank.1, full.1,
   (full.2.1 (specErrorEnvelope "session_not_negotiated" "Session non négociée" (.str "c2"))
      freshEngine rfl rfl).1⟩

/-! ### Security utilities -/

/-- With an empty or missing argument `verifyToken` returns `false`. -/
theorem verifyToken_empty (token expectedToken : Option String)
    (h : token = none ∨ token = some "" ∨ expectedToken = none ∨ expectedToken = some "") :
    verifyToken token expectedToken = .ok false := by
  rcases h with h | h | h | h <;> subst h
  · rfl
  · cases expectedToken <;> rfl
  · cases token <;> rfl
  · cases token with
    | none => rfl
    | some t => simp [verifyToken]

/-- On equal non-empty strings `verifyToken` returns `true`. -/
theorem verifyToken_same (t : String) (h : t ≠ "") : verifyToken (some t) (some t) = .ok true := by
  simp [verifyToken, h, timingSafeEqual]

/-- On non-empty strings whose UTF-8 encodings differ in length `verifyToken` throws. -/
theorem verifyToken_length_mismatch (t e : String) (ht : t ≠ "") (he : e ≠ "")
    (hlen : (bufferFrom t).length ≠ (bufferFrom e).length) :
    verifyToken (some t) (some e) = .error "Input buffers must have the same byte length" := by
  simp [verifyToken, ht, he, timingSafeEqual, hlen]

/-- C16: on the non-empty strings `abc` and `abcd`, of different lengths, `verifyToken` does
not return `false`: `crypto.timingSafeEqual` throws a `RangeError`, which `verifyToken` lets
through. -/
theorem verifyToken_throws :
    verifyToken (some "abc") (some "abcd") =
      .error "Input buffers must have the same byte length" := by
  rfl

/-- With token authentication disabled the middleware calls `next()`. -/
theorem authMiddleware_disabled (security : SecurityConfig) (req : AuthRequest)
    (h : security.tokenAuth.truthy = false) : authMiddleware security req = .ok .next := by
  simp [authMiddleware, h]

/-- With token authentication enabled and no token presented the middleware answers 401. -/
theorem authMiddleware_no_token (security : SecurityConfig) (req : AuthRequest)
    (h : security.tokenAuth.truthy = true)
    (hnone : presentedToken req = none ∨ presentedToken req = some "") :
    authMiddleware security req = .ok unauthorized := by
  rcases hnone with hn | hn <;> simp [authMiddleware, h, hn]

/-- With token authentication enabled and the configured token presented, the middleware
calls `next()`. -/
theorem authMiddleware_match (security : SecurityConfig) (req : AuthRequest) (t : String)
    (h : security.tokenAuth.truthy = true) (ht : t ≠ "")
    (hpresented : presentedToken req = some t) (hconfig : security.token = some t) :
    authMiddleware security req = .ok .next := by
  simp [authMiddleware, h, hpresented, ht, hconfig, verifyToken_same t ht]

/-- C17: with token authentication enabled and the token `0123456789abcdef` configured, the
request with header `Authorization: Bearer abc`, whose token does not match, is not answered
with status 401: the middleware throws the `RangeError` of `verifyToken`, because the two
tokens differ in length. -/
theorem authMiddleware_throws :
    authMiddleware { tokenAuth := .bool true, token := some "0123456789abcdef" }
        { authorization := some "Bearer abc", queryToken := none } =
      .error "Input buffers must have the same byte length" := by
  rfl

/-! ### Filtered configuration -/

/-- When `security` is the first entry and holds a truthy `tokens`, the filter removes
`tokens` from `security` and changes nothing else. -/
theorem filterConfig_drops_tokens_only (rest : List (String × JsVal)) (tokens : JsVal)
    (sec : List (String × JsVal)) (h : tokens.truthy = true)
    (hlookup : sec.lookup "tokens" = some tokens) :
    filterConfig (.obj (("security", .obj sec) :: rest)) =
      .obj (("security", .obj (deleteField "tokens" sec)) :: rest) := by
  simp [filterConfig, spread, List.lookup, get_own _ _ _ hlookup, h, setField]

/-- C18: on a configuration whose `security` holds the authentication token `security.token`
and a list `security.tokens`, the `get` action of `manage_config` without key and the route
`GET /api/config` both return an object that still contains `security.token`; only
`security.tokens` is removed. Two configurations that differ only in that token yield
different returned objects. -/
theorem filtered_config_keeps_token :
    ((_executeManageConfig (.obj [("action", .str "get")]) (tokenSt "tok-A")).1 =
      .ok (.obj [("success", .bool true),
                 ("config", .obj [("security", .obj [("tokenAuth", .bool true),
                                                     ("token", .str "tok-A")])])]) ∧
     (apiConfig (tokenConfig "tok-A")).1 =
       .obj [("security", .obj [("tokenAuth", .bool true), ("token", .str "tok-A")])]) ∧
    (((apiConfig (tokenConfig "tok-A")).1.get "security").get "token" = .str "tok-A" ∧
     ((apiConfig (tokenConfig "tok-B")).1.get "security").get "token" = .str "tok-B" ∧
     (apiConfig (tokenConfig "tok-A")).1 ≠ (apiConfig (tokenConfig "tok-B")).1) := by
  refine ⟨⟨rfl, rfl⟩, rfl, rfl, ?_⟩
  intro h
  have h2 := congrArg (fun c => (c.get "security").get "token") h
  have h3 : JsVal.str "tok-A" = JsVal.str "tok-B" := h2
  exact absurd (JsVal.str.inj h3) (by decide)


/-! ### Configuration manager -/

/-- After an assignment in a field list, a lookup of the key finds the assigned value. -/
theorem lookup_setEntry (k : String) (v : Val) (l : List (String × Val)) :
    (setEntry k v l).lookup k = some v := by
  induction l with
  | nil => simp [setEntry, List.lookup]
  | cons kv r ih =>
      obtain ⟨k2, v2⟩ := kv
      by_cases hk : k2 = k
      · simp [setEntry, hk, List.lookup]
      · have hne : (k == k2) = false := by
          simp only [beq_eq_false_iff_ne, ne_eq]
          exact fun e => hk e.symm
        simp [setEntry, hk, List.lookup, hne, ih]

/-- A key without dot and other than `__proto__`, set on a configuration object, is read
back: `set` returns `true` and `get` then returns the value. -/
theorem set_get_single_part (M : ConfigManager) (key : String) (v : Val) (a : Nat) (o : Obj)
    (hloaded : M.loaded = true)
    (hconfig : M.config = .ref a)
    (hobj : M.store.get? a = some o)
    (hparts : keyParts key = [key])
    (hkey : key ≠ "__proto__") :
    ∃ M1, M.set key v = .ok (.bool true, M1) ∧ M1.get key = .ok v := by
  have hlt : a < M.store.length := by
    rcases Nat.lt_or_ge a M.store.length with h | h
    · exact h
    · rw [List.get?_eq_none.2 h] at hobj
      cases hobj
  have hobj2 : M.store[a]? = some o := by simpa [List.get?_eq_getElem?] using hobj
  refine ⟨{ M with store := M.store.set a { o with fields := setEntry key v o.fields } }, ?_, ?_⟩
  · simp [ConfigManager.set, hloaded, hparts, descend, hconfig, assignTo, assign, hobj2, hkey]
  · have hget : (M.store.set a { o with fields := setEntry key v o.fields })[a]?
        = some { o with fields := setEntry key v o.fields } := by
      simp [List.getElem?_set, hlt]
    simp [ConfigManager.get, hloaded, hparts, navigate, hconfig, read, lookupChain, hget,
      lookup_setEntry]

/-- C19: on the manager after its first start, `set` with the key `__proto__` and the value 5
returns `true` and changes nothing, and `get` of the same key then returns the object
`Object.prototype`, not 5; `set` with the key `__proto__.__proto__.x` does not return but
throws a `TypeError`. Keys such as `server.port`, a path with missing nodes and a path through
a number are read back as set. -/
theorem set_get_fails_on_proto_key :
    (firstStart.set "__proto__" (.num 5) = .ok (.bool true, firstStart) ∧
     firstStart.get "__proto__" = .ok (.ref 0)) ∧
    firstStart.set "__proto__.__proto__.x" (.num 5) =
      .error "Immutable prototype object \x27Object.prototype\x27 cannot have their prototype set" ∧
    (∃ M1, firstStart.set "server.port" (.num 8080) = .ok (.bool true, M1) ∧
      M1.get "server.port" = .ok (.num 8080)) ∧
    (∃ M1, firstStart.set "a.b.c" (.str "v") = .ok (.bool true, M1) ∧
      M1.get "a.b.c" = .ok (.str "v")) ∧
    (∃ M1, firstStart.set "server.port.x" (.str "v") = .ok (.bool true, M1) ∧
      M1.get "server.port.x" = .ok (.str "v")) := by
  exact ⟨⟨rfl, rfl⟩, rfl, ⟨_, rfl, rfl⟩, ⟨_, rfl, rfl⟩, ⟨_, rfl, rfl⟩⟩

/-- C20: on the manager after its first start, where `server.port` is the default 3456,
`set` of `server.port` to 8080 followed by `reset` of that key leaves `get` returning 8080,
and so does `reset` without key: `this.config` shares the object `server` with
`defaultConfig`, so `set` has overwritten the default itself. -/
theorem reset_keeps_overwritten_value :
    firstStart.get "server.port" = .ok (.num 3456) ∧
    ∃ M1, firstStart.set "server.port" (.num 8080) = .ok (.bool true, M1) ∧
      navigate M1.store (.ref defaultConfig) ["server", "port"] = some (.num 8080) ∧
      (∃ M2, M1.reset (some "server.port") = .ok (.bool true, M2) ∧
        M2.get "server.port" = .ok (.num 8080)) ∧
      (∃ M3, M1.reset none = .ok (.bool true, M3) ∧
        M3.get "server.port" = .ok (.num 8080)) := by
  exact ⟨rfl, _, rfl, rfl, ⟨_, rfl, rfl⟩, ⟨_, rfl, rfl⟩⟩

/-! ### Log sanitising -/

/-- One turn of the loop of `sanitizeForLogs` over the fields of an object. -/
theorem sanitizeFields_cons (lower : String → String) (key : String) (value : JsVal)
    (rest : List (String × JsVal)) :
    sanitizeFields lower ((key, value) :: rest) =
      (key, if isSensitive lower key then mask else sanitizeNested lower value) ::
        sanitizeFields lower rest := by
  cases value <;> simp [sanitizeFields, sanitizeNested]

/-- One turn of the loop of `sanitizeForLogs` over the items of an array. -/
theorem sanitizeItems_cons (lower : String → String) (index : Nat) (value : JsVal)
    (rest : List JsVal) :
    sanitizeItems lower index (value :: rest) =
      (toString index,
        if isSensitive lower (toString index) then mask else sanitizeNested lower value) ::
        sanitizeItems lower (index + 1) rest := by
  cases value <;> simp [sanitizeItems, sanitizeNested]

/-- On an object `sanitizeForLogs` returns the object of the sanitised fields. -/
theorem sanitizeForLogs_obj (lower : String → String) (fields : List (String × JsVal)) :
    sanitizeForLogs lower (.obj fields) = .obj (sanitizeFields lower fields) := by
  rw [sanitizeForLogs]; rfl

/-- On an array `sanitizeForLogs` returns the object of the sanitised items, keyed by index. -/
theorem sanitizeForLogs_arr (lower : String → String) (items : List JsVal) :
    sanitizeForLogs lower (.arr items) = .obj (sanitizeItems lower 0 items) := by
  rw [sanitizeForLogs]; rfl

/-- A value other than an object or an array has no key path after sanitising. -/
theorem located_sanitizeForLogs_flat (lower : String → String) (data : JsVal)
    (hobj : ∀ fields, data ≠ .obj fields) (harr : ∀ items, data ≠ .arr items) :
    located (sanitizeForLogs lower data) = [] := by
  cases data with
  | obj fields => exact absurd rfl (hobj fields)
  | arr items => exact absurd rfl (harr items)
  | bool b => cases b <;> rfl
  | num n =>
      by_cases h : (JsVal.num n).truthy = true
      · simp [sanitizeForLogs, h, located, locatedFields]
      · simp [sanitizeForLogs, h, located]
  | str s =>
      by_cases h : (JsVal.str s).truthy = true
      · simp [sanitizeForLogs, h, located]
      · simp [sanitizeForLogs, h, located]
  | undefined => rfl
  | null => rfl
  | native k => rfl


mutual
/-- Masking, for the fields of an object: every key path of the sanitised fields that holds a
sensitive key ends at the mask. -/
theorem sanitizeFields_masked (lower : String → String) :
    ∀ (fields : List (String × JsVal)) (p : List String × JsVal),
      p ∈ locatedFields (sanitizeFields lower fields) →
      p.1.any (isSensitive lower) = true → p.2 = mask
  | [], p, hp, _ => by simp [sanitizeFields, locatedFields] at hp
  | (key, value) :: rest, p, hp, hs => by
      rw [sanitizeFields_cons, locatedFields] at hp
      rcases List.mem_cons.1 hp with rfl | hp
      · by_cases hk : isSensitive lower key = true
        · simp [hk]
        · simp [hk] at hs
      · rcases List.mem_append.1 hp with hp | hp
        · obtain ⟨q, hq, rfl⟩ := List.mem_map.1 hp
          by_cases hk : isSensitive lower key = true
          · simp [hk, mask, located] at hq
          · simp only [hk, if_false, Bool.false_eq_true] at hq
            have hs2 : q.1.any (isSensitive lower) = true := by
              simpa [hk] using hs
            cases value with
            | obj fields =>
                rw [sanitizeNested, sanitizeForLogs_obj, located] at hq
                exact sanitizeFields_masked lower fields q hq hs2
            | arr items =>
                rw [sanitizeNested, sanitizeForLogs_arr, located] at hq
                exact sanitizeItems_masked lower items 0 q hq hs2
            | undefined => simp [sanitizeNested, located] at hq
            | null => simp [sanitizeNested, located] at hq
            | bool b => simp [sanitizeNested, located] at hq
            | num n => simp [sanitizeNested, located] at hq
            | str s => simp [sanitizeNested, located] at hq
            | native k => simp [sanitizeNested, located] at hq
        · exact sanitizeFields_masked lower rest p hp hs
/-- Masking, for the items of an array. -/
theorem sanitizeItems_masked (lower : String → String) :
    ∀ (items : List JsVal) (index : Nat) (p : List String × JsVal),
      p ∈ locatedFields (sanitizeItems lower index items) →
      p.1.any (isSensitive lower) = true → p.2 = mask
  | [], index, p, hp, _ => by simp [sanitizeItems, locatedFields] at hp
  | value :: rest, index, p, hp, hs => by
      rw [sanitizeItems_cons, locatedFields] at hp
      rcases List.mem_cons.1 hp with rfl | hp
      · by_cases hk : isSensitive lower (toString index) = true
        · simp [hk]
        · simp [hk] at hs
      · rcases List.mem_append.1 hp with hp | hp
        · obtain ⟨q, hq, rfl⟩ := List.mem_map.1 hp
          by_cases hk : isSensitive lower (toString index) = true
          · simp [hk, mask, located] at hq
          · simp only [hk, if_false, Bool.false_eq_true] at hq
            have hs2 : q.1.any (isSensitive lower) = true := by
              simpa [hk] using hs
            cases value with
            | obj fields =>
                rw [sanitizeNested, sanitizeForLogs_obj, located] at hq
                exact sanitizeFields_masked lower fields q hq hs2
            | arr items =>
                rw [sanitizeNested, sanitizeForLogs_arr, located] at hq
                exact sanitizeItems_masked lower items 0 q hq hs2
            | undefined => simp [sanitizeNested, located] at hq
            | null => simp [sanitizeNested, located] at hq
            | bool b => simp [sanitizeNested, located] at hq
            | num n => simp [sanitizeNested, located] at hq
            | str s => simp [sanitizeNested, located] at hq
            | native k => simp [sanitizeNested, located] at hq
        · exact sanitizeItems_masked lower rest (index + 1) p hp hs
end

mutual
/-- What is kept, for the fields of an object: at every key path without sensitive key the
sanitised fields hold what the loop leaves of the value found there. -/
theorem sanitizeFields_kept (lower : String → String) :
    ∀ (fields : List (String × JsVal)) (p : List String × JsVal),
      p ∈ locatedFields fields → p.1.any (isSensitive lower) = false →
      (p.1, sanitizeNested lower p.2) ∈ locatedFields (sanitizeFields lower fields)
  | [], p, hp, _ => by simp [locatedFields] at hp
  | (key, value) :: rest, p, hp, hs => by
      rw [locatedFields] at hp
      rw [sanitizeFields_cons, locatedFields]
      rcases List.mem_cons.1 hp with rfl | hp
      · have hk : isSensitive lower key = false := by simpa using hs
        simp [hk]
      · rcases List.mem_append.1 hp with hp | hp
        · obtain ⟨q, hq, rfl⟩ := List.mem_map.1 hp
          have hk : isSensitive lower key = false := by
            have := hs
            simp only [List.any_cons, Bool.or_eq_false_iff] at this
            exact this.1
          have hs2 : q.1.any (isSensitive lower) = false := by
            have := hs
            simp only [List.any_cons, Bool.or_eq_false_iff] at this
            exact this.2
          refine List.mem_cons_of_mem _ (List.mem_append_left _ ?_)
          refine List.mem_map.2 ⟨(q.1, sanitizeNested lower q.2), ?_, rfl⟩
          simp only [hk, if_false, Bool.false_eq_true]
          cases value with
          | obj fields =>
              rw [located] at hq
              rw [sanitizeNested, sanitizeForLogs_obj, located]
              exact sanitizeFields_kept lower fields q hq hs2
          | arr items =>
              rw [located] at hq
              rw [sanitizeNested, sanitizeForLogs_arr, located]
              exact sanitizeItems_kept lower items 0 q hq hs2
          | undefined => simp [located] at hq
          | null => simp [located] at hq
          | bool b => simp [located] at hq
          | num n => simp [located] at hq
          | str s => simp [located] at hq
          | native k => simp [located] at hq
        · exact List.mem_cons_of_mem _ (List.mem_append_right _
            (sanitizeFields_kept lower rest p hp hs))
/-- What is kept, for the items of an array. -/
theorem sanitizeItems_kept (lower : String → String) :
    ∀ (items : List JsVal) (index : Nat) (p : List String × JsVal),
      p ∈ locatedItems index items → p.1.any (isSensitive lower) = false →
      (p.1, sanitizeNested lower p.2) ∈ locatedFields (sanitizeItems lower index items)
  | [], index, p, hp, _ => by simp [locatedItems] at hp
  | value :: rest, index, p, hp, hs => by
      rw [locatedItems] at hp
      rw [sanitizeItems_cons, locatedFields]
      rcases List.mem_cons.1 hp with rfl | hp
      · have hk : isSensitive lower (toString index) = false := by simpa using hs
        simp [hk]
      · rcases List.mem_append.1 hp with hp | hp
        · obtain ⟨q, hq, rfl⟩ := List.mem_map.1 hp
          have hk : isSensitive lower (toString index) = false := by
            have := hs
            simp only [List.any_cons, Bool.or_eq_false_iff] at this
            exact this.1
          have hs2 : q.1.any (isSensitive lower) = false := by
            have := hs
            simp only [List.any_cons, Bool.or_eq_false_iff] at this
            exact this.2
          refine List.mem_cons_of_mem _ (List.mem_append_left _ ?_)
          refine List.mem_map.2 ⟨(q.1, sanitizeNested lower q.2), ?_, rfl⟩
          simp only [hk, if_false, Bool.false_eq_true]
          cases value with
          | obj fields =>
              rw [located] at hq
              rw [sanitizeNested, sanitizeForLogs_obj, located]
              exact sanitizeFields_kept lower fields q hq hs2
          | arr items =>
              rw [located] at hq
              rw [sanitizeNested, sanitizeForLogs_arr, located]
              exact sanitizeItems_kept lower items 0 q hq hs2
          | undefined => simp [located] at hq
          | null => simp [located] at hq
          | bool b => simp [located] at hq
          | num n => simp [located] at hq
          | str s => simp [located] at hq
          | native k => simp [located] at hq
        · exact List.mem_cons_of_mem _ (List.mem_append_right _
            (sanitizeItems_kept lower rest (index + 1) p hp hs))
end

/-- Function `sanitizeForLogs` masks by key: in its result every key path that holds a sensitive
key ends at the mask. -/
theorem sanitizeForLogs_masked (lower : String → String) (data : JsVal)
    (p : List String × JsVal) (hp : p ∈ located (sanitizeForLogs lower data))
    (hs : p.1.any (isSensitive lower) = true) : p.2 = mask := by
  cases data with
  | obj fields =>
      rw [sanitizeForLogs_obj, located] at hp
      exact sanitizeFields_masked lower fields p hp hs
  | arr items =>
      rw [sanitizeForLogs_arr, located] at hp
      exact sanitizeItems_masked lower items 0 p hp hs
  | undefined => simp [located_sanitizeForLogs_flat] at hp
  | null => simp [located_sanitizeForLogs_flat] at hp
  | bool b => simp [located_sanitizeForLogs_flat] at hp
  | num n => simp [located_sanitizeForLogs_flat] at hp
  | str s => simp [located_sanitizeForLogs_flat] at hp
  | native k => simp [located_sanitizeForLogs_flat] at hp

/-- Function `sanitizeForLogs` keeps what is stored under keys that are not sensitive. -/
theorem sanitizeForLogs_kept (lower : String → String) (data : JsVal)
    (p : List String × JsVal) (hp : p ∈ located data)
    (hs : p.1.any (isSensitive lower) = false) :
    (p.1, sanitizeNested lower p.2) ∈ located (sanitizeForLogs lower data) := by
  cases data with
  | obj fields =>
      rw [located] at hp
      rw [sanitizeForLogs_obj, located]
      exact sanitizeFields_kept lower fields p hp hs
  | arr items =>
      rw [located] at hp
      rw [sanitizeForLogs_arr, located]
      exact sanitizeItems_kept lower items 0 p hp hs
  | undefined => simp [located] at hp
  | null => simp [located] at hp
  | bool b => simp [located] at hp
  | num n => simp [located] at hp
  | str s => simp [located] at hp
  | native k => simp [located] at hp


/-- C21, counterexample: in the record of a sign-up whose `password` and `confirmation` are
both `hunter2`, the key `password` is sensitive and `confirmation` is not; the output masks
the first and keeps the second, so the value of the sensitive key appears in the output. -/
theorem sanitized_record_repeats_password :
    isSensitive asciiLowerCase "password" = true ∧
    (["password"], JsVal.str "hunter2") ∈ located signupRecord ∧
    sanitizeForLogs asciiLowerCase signupRecord =
      .obj [("user", .str "bob"), ("password", .str "******"),
            ("confirmation", .str "hunter2")] ∧
    (["confirmation"], JsVal.str "hunter2") ∈
      located (sanitizeForLogs asciiLowerCase signupRecord) :=
  ⟨rfl, List.Mem.tail _ (List.Mem.head _), rfl,
   List.Mem.tail _ (List.Mem.tail _ (List.Mem.head _))⟩

/-- C21, amended: for every value `data` and every case conversion, in
`sanitizeForLogs(data)` every key path that holds a key whose lower-cased name contains one
of the five sensitive words ends at the string `******`, so that every sensitive key, at
every depth, has that value and nothing else is found at or below it; and what the input
holds at a key path without sensitive key is kept there: a primitive as it is, an object or
an array sanitised in turn. -/
theorem sanitizeForLogs_masks_by_key (toLowerCase : String → String) (data : JsVal) :
    (∀ p ∈ located (sanitizeForLogs toLowerCase data),
      p.1.any (isSensitive toLowerCase) = true → p.2 = .str "******") ∧
    (∀ p ∈ located data, p.1.any (isSensitive toLowerCase) = false →
      (p.1, sanitizeNested toLowerCase p.2) ∈ located (sanitizeForLogs toLowerCase data)) :=
  ⟨fun p hp hs => sanitizeForLogs_masked toLowerCase data p hp hs,
   fun p hp hs => sanitizeForLogs_kept toLowerCase data p hp hs⟩

/-- C21, at a concrete record: the key `apiKey` inside an array is masked, the key `n` next
to it keeps its number. -/
theorem sanitizeForLogs_masks_by_key_witness :
    sanitizeForLogs asciiLowerCase nestedRecord =
      .obj [("user", .str "bob"), ("Authorization", .str "******"),
            ("items", .obj [("0", .obj [("apiKey", .str "******"), ("n", .num 2)])])] ∧
    (["items", "0", "apiKey"].any (isSensitive asciiLowerCase) = true ∧
      (["items", "0", "apiKey"], JsVal.str "******") ∈
        located (sanitizeForLogs asciiLowerCase nestedRecord)) ∧
    (["items", "0", "n"].any (isSensitive asciiLowerCase) = false ∧
      (["items", "0", "n"], JsVal.num 2) ∈
        located (sanitizeForLogs asciiLowerCase nestedRecord)) :=
  ⟨rfl,
   ⟨rfl, List.Mem.tail _ (List.Mem.tail _ (List.Mem.tail _ (List.Mem.tail _ (List.Mem.head _))))⟩,
   ⟨rfl,
    (sanitizeForLogs_masks_by_key asciiLowerCase nestedRecord).2
      (["items", "0", "n"], .num 2)
      (List.Mem.tail _ (List.Mem.tail _ (List.Mem.tail _ (List.Mem.tail _
        (List.Mem.tail _ (List.Mem.head _)))))) rfl⟩⟩

/-! ### Token generation -/

/-- The length of a concatenation is the sum of the lengths. -/
theorem utf16Length_append (s t : String) :
    utf16Length (s ++ t) = utf16Length s + utf16Length t := by
  simp [utf16Length, String.toList]

/-- A hexadecimal digit is one UTF-16 code unit. -/
theorem digitChar_small (n : Nat) (h : n < 16) : (Nat.digitChar n).val < 0x10000 := by
  interval_cases n <;> decide

/-- The hexadecimal text of a byte has length 2. -/
theorem utf16Length_hex2 (n : Nat) (h : n < 256) : utf16Length (hex2 n) = 2 := by
  have h1 := digitChar_small (n / 16) (by omega)
  have h2 := digitChar_small (n % 16) (by omega)
  simp [utf16Length, hex2, h1, h2]

/-- The hexadecimal text of a buffer is twice as long as the buffer. -/
theorem utf16Length_toHex (bytes : List Nat) (h : ∀ b ∈ bytes, b < 256) :
    utf16Length (toHex bytes) = 2 * bytes.length := by
  induction bytes with
  | nil => rfl
  | cons b r ih =>
      rw [toHex, utf16Length_append, ih (fun x hx => h x (List.mem_cons_of_mem _ hx)),
        utf16Length_hex2 b (h b (List.mem_cons_self _ _)), List.length_cons]
      omega

/-- Call `randomBytes(size)` yields `size` bytes. -/
theorem randomBytes_bytes (randomByte : Nat → Nat) (size : Nat) :
    (randomBytes randomByte size).length = size ∧
    ∀ b ∈ randomBytes randomByte size, b < 256 := by
  refine ⟨by simp [randomBytes], ?_⟩
  intro b hb
  obtain ⟨i, _, rfl⟩ := List.mem_map.1 hb
  exact Nat.mod_lt _ (by decide)

/-- The token of `generateToken(length)` has `2 * length` characters. -/
theorem generateToken_length (randomByte : Nat → Nat) (length : Nat) :
    utf16Length (generateToken randomByte (some length)) = 2 * length := by
  have h := randomBytes_bytes randomByte length
  simp only [generateToken, Option.getD_some]
  rw [utf16Length_toHex _ h.2, h.1]

/-- C22: whatever the generator draws, the token returned by `generateToken(length)` has
`2 * length` characters, two hexadecimal digits for each of the `length` random bytes, and
so never `length` characters when `length` is positive; called without argument it returns
64 characters, not 32. With fixed draws, `generateToken(4)` is the 8 characters `fa01080f`. -/
theorem generateToken_twice_as_long (randomByte : Nat → Nat) :
    utf16Length (generateToken randomByte none) = 64 ∧
    (∀ length : Nat, utf16Length (generateToken randomByte (some length)) = 2 * length) ∧
    (∀ length : Nat, 0 < length →
      utf16Length (generateToken randomByte (some length)) ≠ length) ∧
    generateToken (fun i => 7 * i + 250) (some 4) = "fa01080f" := by
  refine ⟨?_, generateToken_length randomByte, ?_, by decide⟩
  · have h := randomBytes_bytes randomByte 32
    simp only [generateToken, Option.getD_none]
    rw [utf16Length_toHex _ h.2, h.1]
  · intro length hpos
    rw [generateToken_length]
    omega

/-! ### Merging configurations -/

/-- After an assignment in a field list, a lookup of the key finds the assigned value. -/
theorem lookup_setField (k : String) (v : JsVal) (l : List (String × JsVal)) :
    (setField k v l).lookup k = some v := by
  induction l with
  | nil => simp [setField, List.lookup]
  | cons kv r ih =>
      obtain ⟨k2, v2⟩ := kv
      by_cases hk : k2 = k
      · simp [setField, hk, List.lookup]
      · have hne : (k == k2) = false := by
          simp only [beq_eq_false_iff_ne, ne_eq]
          exact fun e => hk e.symm
        simp [setField, hk, List.lookup, hne, ih]

/-- An assignment in a field list leaves the lookups of the other keys as they were. -/
theorem lookup_setField_ne (k k1 : String) (v : JsVal) (l : List (String × JsVal))
    (h : k1 ≠ k) : (setField k v l).lookup k1 = l.lookup k1 := by
  induction l with
  | nil =>
      have hne : (k1 == k) = false := by simpa using h
      simp [setField, List.lookup, hne]
  | cons kv r ih =>
      obtain ⟨k2, v2⟩ := kv
      by_cases hk : k2 = k
      · subst hk
        have hne : (k1 == k2) = false := by simpa using h
        simp [setField, List.lookup, hne]
      · by_cases h1 : k1 = k2
        · subst h1
          simp [setField, hk, List.lookup]
        · have hne : (k1 == k2) = false := by simpa using h1
          simp [setField, hk, List.lookup, hne, ih]

/-- Under a key other than `__proto__` the assignment sets an own property. -/
theorem assignResult_plain (result : List (String × JsVal)) (key : String) (value : JsVal)
    (hkey : key ≠ "__proto__") :
    assignResult result key value = .returned (setField key value result) := by
  simp [assignResult, hkey]

/-- When the body of the loop returns for a key other than `__proto__`, it has assigned
under that key the value that `assignedValue` describes. -/
theorem mergeEntry_returned (d : JsVal) (result result1 : List (String × JsVal)) (key : String)
    (value : JsVal) (hkey : key ≠ "__proto__")
    (h : mergeEntry d result key value (fun dv => _mergeConfigs dv value) = .returned result1) :
    ∃ x, result1 = setField key x result ∧ assignedValue d key value x := by
  cases value with
  | obj fs =>
      simp only [mergeEntry] at h
      cases he : element d key with
      | error m => simp [he] at h
      | ok dv =>
          simp only [he] at h
          by_cases ht : typeofObject dv = true
          · simp only [ht, if_true] at h
            cases hm : _mergeConfigs dv (.obj fs) with
            | returned inner =>
                simp only [hm, assignResult_plain _ _ _ hkey, Outcome.returned.injEq] at h
                exact ⟨inner, h.symm, dv, he, by simp [ht, hm]⟩
            | thrown m => simp [hm] at h
            | outside => simp [hm] at h
          · simp only [ht, if_false, Bool.false_eq_true, assignResult_plain _ _ _ hkey,
              Outcome.returned.injEq] at h
            exact ⟨_, h.symm, dv, he, by simp [ht]⟩
  | undefined =>
      simp only [mergeEntry, assignResult_plain _ _ _ hkey, Outcome.returned.injEq] at h
      exact ⟨_, h.symm, rfl⟩
  | null =>
      simp only [mergeEntry, assignResult_plain _ _ _ hkey, Outcome.returned.injEq] at h
      exact ⟨_, h.symm, rfl⟩
  | bool b =>
      simp only [mergeEntry, assignResult_plain _ _ _ hkey, Outcome.returned.injEq] at h
      exact ⟨_, h.symm, rfl⟩
  | num n =>
      simp only [mergeEntry, assignResult_plain _ _ _ hkey, Outcome.returned.injEq] at h
      exact ⟨_, h.symm, rfl⟩
  | str s =>
      simp only [mergeEntry, assignResult_plain _ _ _ hkey, Outcome.returned.injEq] at h
      exact ⟨_, h.symm, rfl⟩
  | arr xs =>
      simp only [mergeEntry, assignResult_plain _ _ _ hkey, Outcome.returned.injEq] at h
      exact ⟨_, h.symm, rfl⟩
  | native k =>
      simp only [mergeEntry, assignResult_plain _ _ _ hkey, Outcome.returned.injEq] at h
      exact ⟨_, h.symm, rfl⟩

/-- One turn of the loop of `_mergeConfigs` over the fields of the user object. -/
theorem mergeFields_cons (d : JsVal) (result : List (String × JsVal)) (key : String)
    (value : JsVal) (rest : List (String × JsVal)) :
    mergeFields d result ((key, value) :: rest) =
      match mergeEntry d result key value (fun dv => _mergeConfigs dv value) with
      | .returned result1 => mergeFields d result1 rest
      | .thrown message => .thrown message
      | .outside => .outside := by
  rw [mergeFields]

/-- The loop of `_mergeConfigs` over user properties with distinct keys other than
`__proto__`: when it returns, the result is an object that has, under every user key, the
value the loop assigns for it, and under every other key what `result` had. -/
theorem mergeFields_returned (d : JsVal) :
    ∀ (fields result : List (String × JsVal)) (r : JsVal),
      (∀ kv ∈ fields, kv.1 ≠ "__proto__") → (fields.map Prod.fst).Nodup →
      mergeFields d result fields = .returned r →
      ∃ rf, r = .obj rf ∧
        (∀ k, k ∉ fields.map Prod.fst → rf.lookup k = result.lookup k) ∧
        (∀ k v, (k, v) ∈ fields → ∃ x, rf.lookup k = some x ∧ assignedValue d k v x) := by
  intro fields
  induction fields with
  | nil =>
      intro result r _ _ h
      rw [mergeFields] at h
      cases h
      exact ⟨result, rfl, fun _ _ => rfl, fun k v hkv => by cases hkv⟩
  | cons kv rest ih =>
      obtain ⟨key, value⟩ := kv
      intro result r hproto hnodup h
      rw [mergeFields_cons] at h
      have hkey : key ≠ "__proto__" := hproto (key, value) (List.mem_cons_self _ _)
      have hrest : ∀ kv ∈ rest, kv.1 ≠ "__proto__" :=
        fun kv hkv => hproto kv (List.mem_cons_of_mem _ hkv)
      rw [List.map_cons, List.nodup_cons] at hnodup
      cases he : mergeEntry d result key value (fun dv => _mergeConfigs dv value) with
      | thrown m => simp [he] at h
      | outside => simp [he] at h
      | returned result1 =>
          simp only [he] at h
          obtain ⟨x, hx, hval⟩ := mergeEntry_returned d result result1 key value hkey he
          obtain ⟨rf, hr, hother, hmine⟩ := ih result1 r hrest hnodup.2 h
          refine ⟨rf, hr, ?_, ?_⟩
          · intro k hk
            have hk1 : k ≠ key := fun e => hk (by simp [e])
            have hk2 : k ∉ rest.map Prod.fst := fun e => hk (by simp at e ⊢; exact Or.inr e)
            rw [hother k hk2, hx, lookup_setField_ne _ _ _ _ hk1]
          · intro k v hkv
            rcases List.mem_cons.1 hkv with heq | hin
            · cases heq
              refine ⟨x, ?_, hval⟩
              rw [hother key hnodup.1, hx, lookup_setField]
            · exact hmine k v hin

/-- On a default value that is not a string, the call on a user object runs the loop over
the fields of that object, starting from the copy of the default value. -/
theorem mergeConfigs_obj (d : JsVal) (fields : List (String × JsVal))
    (hd : ∀ s, d ≠ .str s) :
    _mergeConfigs d (.obj fields) = mergeFields d (ownEntries d) fields := by
  cases d with
  | str s => exact absurd rfl (hd s)
  | undefined => simp [_mergeConfigs]
  | null => simp [_mergeConfigs]
  | bool b => simp [_mergeConfigs]
  | num n => simp [_mergeConfigs]
  | arr xs => simp [_mergeConfigs]
  | obj fs => simp [_mergeConfigs]
  | native k => simp [_mergeConfigs]

/-- Whenever `_mergeConfigs(d, u)` returns `r`, for a user object `u` whose keys are distinct
and other than `__proto__`: a key absent from `u` reads in `r` as in the copy of `d`; a key
of `u` whose value is not an object that is no array (a primitive, `null` or an array) reads
as in `u`; and a key of `u` whose value is such an object reads as the merge of `d[k]` with
it when `typeof d[k]` is `object`, and as in `u` otherwise. -/
theorem mergeConfigs_returned (d : JsVal) (fields : List (String × JsVal)) (r : JsVal)
    (hd : ∀ s, d ≠ .str s)
    (hproto : ∀ kv ∈ fields, kv.1 ≠ "__proto__")
    (hnodup : (fields.map Prod.fst).Nodup)
    (h : _mergeConfigs d (.obj fields) = .returned r) :
    (∀ k, k ∉ fields.map Prod.fst → r.get k = (JsVal.obj (ownEntries d)).get k) ∧
    (∀ k v, (k, v) ∈ fields → (∀ fs, v ≠ .obj fs) → r.get k = v) ∧
    (∀ k fs, (k, JsVal.obj fs) ∈ fields →
      ∃ dv, element d k = .ok dv ∧
        (typeofObject dv = true → _mergeConfigs dv (.obj fs) = .returned (r.get k)) ∧
        (typeofObject dv = false → r.get k = .obj fs)) := by
  rw [mergeConfigs_obj d fields hd] at h
  obtain ⟨rf, rfl, hother, hmine⟩ := mergeFields_returned d fields (ownEntries d) r hproto hnodup h
  refine ⟨?_, ?_, ?_⟩
  · intro k hk
    simp [JsVal.get, hother k hk]
  · intro k v hkv hv
    obtain ⟨x, hx, hval⟩ := hmine k v hkv
    have hxv : x = v := by
      cases v with
      | obj fs => exact absurd rfl (hv fs)
      | undefined => exact hval
      | null => exact hval
      | bool b => exact hval
      | num n => exact hval
      | str s => exact hval
      | arr xs => exact hval
      | native n => exact hval
    simp [JsVal.get, hx, hxv]
  · intro k fs hkv
    obtain ⟨x, hx, dv, hdv, hval⟩ := hmine k (.obj fs) hkv
    have hget : (JsVal.obj rf).get k = x := by simp [JsVal.get, hx]
    refine ⟨dv, hdv, ?_, ?_⟩
    · intro ht
      rw [hget]
      simpa [ht] using hval
    · intro ht
      rw [hget]
      simpa [ht] using hval

/-- A value found under a key of fields without `null` holds no `null`. -/
theorem nullFree_lookup (fields : List (String × JsVal)) (k : String) (v : JsVal)
    (h : nullFreeFields fields = true) (hv : fields.lookup k = some v) : nullFree v = true := by
  induction fields with
  | nil => simp [List.lookup] at hv
  | cons kv rest ih =>
      obtain ⟨k2, v2⟩ := kv
      simp only [nullFreeFields, Bool.and_eq_true] at h
      by_cases hk : k = k2
      · subst hk
        simp [List.lookup] at hv
        subst hv
        exact h.1
      · have hne : (k == k2) = false := by simpa using hk
        simp [List.lookup, hne] at hv
        exact ih h.2 hv

/-- An item found under an index of items without `null` holds no `null`. -/
theorem nullFree_indexed (items : List JsVal) (index : Nat) (k : String) (v : JsVal)
    (h : nullFreeItems items = true) (hv : (indexed index items).lookup k = some v) :
    nullFree v = true := by
  induction items generalizing index with
  | nil => simp [indexed, List.lookup] at hv
  | cons x rest ih =>
      simp only [nullFreeItems, Bool.and_eq_true] at h
      by_cases hk : k = toString index
      · subst hk
        simp [indexed, List.lookup] at hv
        subst hv
        exact h.1
      · have hne : (k == toString index) = false := by simpa using hk
        simp [indexed, List.lookup, hne] at hv
        exact ih (index + 1) h.2 hv

/-- What the test of `_mergeConfigs` reads in a default value that holds no `null` and is not
`undefined`: the read does not throw, and the value read holds no `null`. -/
theorem element_nullFree (d : JsVal) (k : String)
    (hnf : nullFree d = true) (hd : d ≠ .undefined) :
    ∃ dv, element d k = .ok dv ∧ nullFree dv = true := by
  have hnull : d.isNullish = false := by
    cases d <;> simp_all [JsVal.isNullish, nullFree]
  cases hl : (ownEntries d).lookup k with
  | some item =>
      refine ⟨item, by simp [element, hl], ?_⟩
      cases d with
      | obj fields => exact nullFree_lookup fields k item (by simpa [nullFree] using hnf) hl
      | arr items => exact nullFree_indexed items 0 k item (by simpa [nullFree] using hnf) hl
      | undefined => simp [ownEntries, List.lookup] at hl
      | null => simp [ownEntries, List.lookup] at hl
      | bool b => simp [ownEntries, List.lookup] at hl
      | num n => simp [ownEntries, List.lookup] at hl
      | str s => simp [ownEntries, List.lookup] at hl
      | native n => simp [ownEntries, List.lookup] at hl
  | none =>
      refine ⟨d.get k, by simp [element, hl, member, hnull], ?_⟩
      have hin : nullFree (inherited k) = true := by
        unfold inherited
        split <;> rfl
      cases d with
      | obj fields =>
          have hl2 : fields.lookup k = none := hl
          simp [JsVal.get, hl2, hin]
      | arr items =>
          by_cases hk : k = "length"
          · simp [JsVal.get, hk, nullFree]
          · simp [JsVal.get, hk, hin]
      | str s =>
          by_cases hk : k = "length"
          · simp [JsVal.get, hk, nullFree]
          · simp [JsVal.get, hk, hin]
      | undefined => exact absurd rfl hd
      | null => simp [nullFree] at hnf
      | bool b => simpa [JsVal.get] using hin
      | num n => simpa [JsVal.get] using hin
      | native n => simpa [JsVal.get] using hin


/-- A value that is an object for `typeof` and holds no `null` is neither `undefined` nor a
string. -/
theorem typeofObject_shape (dv : JsVal) (ht : typeofObject dv = true) :
    dv ≠ .undefined ∧ ∀ s, dv ≠ .str s := by
  cases dv <;> simp_all [typeofObject]

/-- The loop of `_mergeConfigs` returns when the default value holds no `null` and the user
fields, with the objects they hold, have no key `__proto__`. -/
theorem mergeFields_returns :
    ∀ (fields : List (String × JsVal)) (d : JsVal) (result : List (String × JsVal)),
      nullFree d = true → d ≠ .undefined → (∀ s, d ≠ .str s) →
      plainKeysFields fields = true →
      ∃ r, mergeFields d result fields = .returned r
  | [], d, result, _, _, _, _ => ⟨.obj result, by rw [mergeFields]⟩
  | (key, value) :: rest, d, result, hnf, hu, hs, hp => by
      simp only [plainKeysFields, Bool.and_eq_true, bne_iff_ne, ne_eq] at hp
      obtain ⟨⟨hkey, hvalue⟩, hrest⟩ := hp
      rw [mergeFields_cons]
      have hentry : ∃ result1,
          mergeEntry d result key value (fun dv => _mergeConfigs dv value) =
            .returned result1 := by
        cases value with
        | obj fs =>
            obtain ⟨dv, hdv, hdvnf⟩ := element_nullFree d key hnf hu
            by_cases ht : typeofObject dv = true
            · obtain ⟨hdu, hds⟩ := typeofObject_shape dv ht
              obtain ⟨m, hm⟩ := mergeFields_returns fs dv (ownEntries dv) hdvnf hdu hds
                (by simpa [plainKeys] using hvalue)
              rw [← mergeConfigs_obj dv fs hds] at hm
              exact ⟨setField key m result,
                by simp [mergeEntry, hdv, ht, hm, assignResult_plain _ _ _ hkey]⟩
            · exact ⟨setField key (.obj fs) result,
                by simp [mergeEntry, hdv, ht, assignResult_plain _ _ _ hkey]⟩
        | undefined =>
            exact ⟨setField key .undefined result, by simp [mergeEntry, assignResult_plain _ _ _ hkey]⟩
        | null =>
            exact ⟨setField key .null result, by simp [mergeEntry, assignResult_plain _ _ _ hkey]⟩
        | bool b =>
            exact ⟨setField key (.bool b) result, by simp [mergeEntry, assignResult_plain _ _ _ hkey]⟩
        | num n =>
            exact ⟨setField key (.num n) result, by simp [mergeEntry, assignResult_plain _ _ _ hkey]⟩
        | str s =>
            exact ⟨setField key (.str s) result, by simp [mergeEntry, assignResult_plain _ _ _ hkey]⟩
        | arr xs =>
            exact ⟨setField key (.arr xs) result, by simp [mergeEntry, assignResult_plain _ _ _ hkey]⟩
        | native n =>
            exact ⟨setField key (.native n) result, by simp [mergeEntry, assignResult_plain _ _ _ hkey]⟩
      obtain ⟨result1, h1⟩ := hentry
      rw [h1]
      exact mergeFields_returns rest d result1 hnf hu hs hrest

/-- Method `_mergeConfigs` returns on every default object that holds no `null` and every
user object that has no key `__proto__`, nor the objects it holds. -/
theorem mergeConfigs_returns (dfields ufields : List (String × JsVal))
    (hnf : nullFree (.obj dfields) = true) (hp : plainKeys (.obj ufields) = true) :
    ∃ r, _mergeConfigs (.obj dfields) (.obj ufields) = .returned r := by
  rw [mergeConfigs_obj _ _ (fun s h => by cases h)]
  exact mergeFields_returns ufields (.obj dfields) _ hnf (fun h => by cases h)
    (fun s h => by cases h) (by simpa [plainKeys] using hp)

/-- On the constant `defaultConfig` of `config.js`, which `load` passes as first argument,
`_mergeConfigs` returns for every user object that has no key `__proto__`, nor the objects it
holds. -/
theorem mergeConfigs_returns_on_defaults (ufields : List (String × JsVal))
    (hp : plainKeys (.obj ufields) = true) :
    ∃ r, _mergeConfigs defaultConfigTree (.obj ufields) = .returned r :=
  mergeConfigs_returns _ ufields rfl hp

/-- C23: with the default configuration `\x7b"proxy": null\x7d` and the user configuration
`\x7b"proxy": \x7b"auth": \x7b"user": "bob"\x7d\x7d\x7d` the call `_mergeConfigs(d, u)` does not return:
`typeof null` is `object`, so the method merges `null` with the user object `proxy`, and there
the test reads `defaultConfig["auth"]` on `null`, which throws a `TypeError`. A user object
`proxy` without nested object is merged with the same default, and on defaults without
`null` the result has the user values over the defaults. -/
theorem mergeConfigs_throws_on_null_default :
    _mergeConfigs (.obj [("proxy", .null)])
        (.obj [("proxy", .obj [("auth", .obj [("user", .str "bob")])])]) =
      .thrown "Cannot read properties of null (reading \x27auth\x27)" ∧
    _mergeConfigs (.obj [("proxy", .null)]) (.obj [("proxy", .obj [("host", .str "h")])]) =
      .returned (.obj [("proxy", .obj [("host", .str "h")])]) ∧
    _mergeConfigs
        (.obj [("server", .obj [("port", .num 3456), ("host", .str "127.0.0.1")]),
               ("tunnel", .obj [("enabled", .bool false), ("provider", .str "ngrok")])])
        (.obj [("server", .obj [("port", .num 8080)]), ("plugins", .arr [.str "a"])]) =
      .returned
        (.obj [("server", .obj [("port", .num 8080), ("host", .str "127.0.0.1")]),
               ("tunnel", .obj [("enabled", .bool false), ("provider", .str "ngrok")]),
               ("plugins", .arr [.str "a"])]) :=
  ⟨rfl, rfl, rfl⟩

/-! ### The project handlers and the session context -/

/-- Sequencing: when every continuation ends in the state `st`, so does the whole. -/
theorem andThen_state {α : Type} (e : Except String α) (st : St) (k : α → Out)
    (hk : ∀ a, (k a).2 = st) : (andThen e st k).2 = st := by
  cases e with
  | error m => rfl
  | ok a => exact hk a

/-- The handler `_executeManageFile` changes nothing: whatever the arguments and the outcome,
the state afterwards is the state before with the call recorded. -/
theorem executeManageFile_state (P : Platform) (args : JsVal) (st : St) :
    (_executeManageFile P args st).2 = st.enter "_executeManageFile" := by
  unfold _executeManageFile
  simp only []
  repeat' first
    | rfl
    | refine andThen_state _ _ _ (fun _ => ?_)
    | split

/-- The handler `_executeCommand` changes nothing. -/
theorem executeCommand_state (args : JsVal) (st : St) :
    (_executeCommand args st).2 = st.enter "_executeCommand" := by
  unfold _executeCommand
  simp only []
  repeat' first
    | rfl
    | refine andThen_state _ _ _ (fun _ => ?_)
    | split

/-- The handler `_executeManageProject` changes the session in one case only: action `switch`
that returns, which sets `currentProject` in the context. -/
theorem executeManageProject_state (P : Platform) (args : JsVal) (st : St) :
    (_executeManageProject P args st).2 = st.enter "_executeManageProject" ∨
    (args.get "action" = .str "switch" ∧
      (∃ r, (_executeManageProject P args st).1 = .ok r) ∧
      (_executeManageProject P args st).2 =
        (st.enter "_executeManageProject").setContext "currentProject" (args.get "name")) := by
  unfold _executeManageProject
  simp only []
  split
  · exact Or.inl rfl
  · split
    · exact Or.inl (andThen_state _ _ _ (fun _ => rfl))
    · exact Or.inl rfl
    · next haction =>
        cases hn : toStr (args.get "name") with
        | error m => exact Or.inl rfl
        | ok s => exact Or.inr ⟨haction, ⟨_, rfl⟩, rfl⟩
    · exact Or.inl (andThen_state _ _ _ (fun _ => rfl))
    · exact Or.inl (andThen_state _ _ _ (fun _ => rfl))

/-- Up to `2 ^ 53` in magnitude a number converts to its decimal digits. -/
theorem numberText_safe (n : Int) (h : n.natAbs ≤ 2 ^ 53) : numberText n = toString n := by
  unfold numberText
  rw [if_pos h]

/-- Above `2 ^ 53` a number converts to the shortest decimal that denotes it, written with
all its digits below `10 ^ 21` and in exponent form from there on. -/
theorem numberText_large :
    numberText (2 ^ 53 + 2) = "9007199254740994" ∧
    numberText (2 ^ 60) = "1152921504606847000" ∧
    numberText (10 ^ 20) = "100000000000000000000" ∧
    numberText (10 ^ 21) = "1e+21" ∧
    numberText (-(10 ^ 21)) = "-1e+21" ∧
    numberText (2 ^ 70) = "1.1805916207174113e+21" ∧
    numberText (10 ^ 23) = "1e+23" := by
  decide

/-- A number as project name is printed as JavaScript prints it: `switch` to the name
`1e21` answers with the text `1e+21` and stores the number. -/
theorem switch_to_large_number :
    _executeManageProject examplePlatform
        (.obj [("action", .str "switch"), ("name", .num (10 ^ 21))]) exampleSt =
      (.ok (.obj [("success", .bool true),
                  ("message", .str "Projet actif changé pour 1e+21")]),
       (exampleSt.enter "_executeManageProject").setContext "currentProject"
         (.num (10 ^ 21))) := by
  rfl

/-- C24, counterexample: on the session of the examples, whose context is empty,
`manage_project` with the action `switch` and a `name` that is an object with an own
`toString` key does not return `success` and sets no `currentProject`: the template literal
of the log line, which stands before the assignment, throws a `TypeError`. Called with
`undefined` as arguments, the handler throws the `TypeError` of the destructuring, not
`Action de projet non reconnue`. -/
theorem manage_project_switch_throws :
    _executeManageProject examplePlatform
        (.obj [("action", .str "switch"), ("name", .obj [("toString", .num 1)])])
        exampleSt =
      (.error "Cannot convert object to primitive value",
       exampleSt.enter "_executeManageProject") ∧
    (_executeManageProject examplePlatform
        (.obj [("action", .str "switch"), ("name", .obj [("toString", .num 1)])])
        exampleSt).2.session.context = [] ∧
    _executeManageProject examplePlatform .undefined exampleSt =
      (.error "Cannot destructure property \x27action\x27 of \x27args\x27 as it is undefined.",
       exampleSt.enter "_executeManageProject") :=
  ⟨rfl, rfl, rfl⟩

/-- C24, amended: for every runtime, every state (so every session context) and every
argument value of `manage_project`. When the arguments are not `undefined` or `null`: action
`switch` with a name that converts to a string returns `success` with its message, and the
context afterwards is the context before with `currentProject` set to the name (that key
reads as the name and every other key reads as before); action `list`, and actions `create`
and `delete` with such a name, return `success: true` and leave the session, context
included, as it was; any other action, with string form `action`, throws
`Action de projet non reconnue: ` followed by `action` and leaves the session as it was; and
when the name, for `switch`, `create` and `delete`, or else the action has no string form, the
handler throws the error of that conversion and the state is as before but for the record of
the call. When the arguments are `undefined` or `null`, the handler throws the `TypeError`
of the destructuring. Whenever the handler throws, the session is as it was, and in every
case it is as it was unless the action is `switch` and the call returns. -/
theorem manage_project_context (P : Platform) (args : JsVal) (st : St) :
    (args.isNullish = false →
      (∀ name, args.get "action" = .str "switch" → toStr (args.get "name") = .ok name →
        (_executeManageProject P args st).1 =
          .ok (.obj [("success", .bool true),
                     ("message", .str ("Projet actif changé pour " ++ name))]) ∧
        (_executeManageProject P args st).2.session.context =
          setField "currentProject" (args.get "name") st.session.context ∧
        (_executeManageProject P args st).2.context "currentProject" = args.get "name" ∧
        (∀ k, k ≠ "currentProject" →
          (_executeManageProject P args st).2.context k = st.context k)) ∧
      (args.get "action" = .str "list" →
        (∃ r, (_executeManageProject P args st).1 = .ok r ∧ r.get "success" = .bool true) ∧
        (_executeManageProject P args st).2.session = st.session) ∧
      (∀ name, args.get "action" = .str "create" ∨ args.get "action" = .str "delete" →
        toStr (args.get "name") = .ok name →
        (∃ r, (_executeManageProject P args st).1 = .ok r ∧ r.get "success" = .bool true) ∧
        (_executeManageProject P args st).2.session = st.session) ∧
      (∀ action, (∀ known ∈ ["create", "list", "switch", "delete"],
          args.get "action" ≠ .str known) →
        toStr (args.get "action") = .ok action →
        (_executeManageProject P args st).1 =
          .error ("Action de projet non reconnue: " ++ action) ∧
        (_executeManageProject P args st).2.session = st.session) ∧
      (∀ m, args.get "action" = .str "switch" ∨ args.get "action" = .str "create" ∨
          args.get "action" = .str "delete" →
        toStr (args.get "name") = .error m →
        _executeManageProject P args st = (.error m, st.enter "_executeManageProject")) ∧
      (∀ m, (∀ known ∈ ["create", "list", "switch", "delete"],
          args.get "action" ≠ .str known) →
        toStr (args.get "action") = .error m →
        _executeManageProject P args st = (.error m, st.enter "_executeManageProject"))) ∧
    (args.isNullish = true →
      _executeManageProject P args st =
        (.error (destructureError "action" "args" args), st.enter "_executeManageProject")) ∧
    (∀ m, (_executeManageProject P args st).1 = .error m →
      (_executeManageProject P args st).2.session = st.session) ∧
    ((_executeManageProject P args st).2.session = st.session ∨
      (args.get "action" = .str "switch" ∧
        ∃ r, (_executeManageProject P args st).1 = .ok r)) := by
  refine ⟨fun hargs => ⟨?_, ?_, ?_, ?_, ?_, ?_⟩, ?_, ?_, ?_⟩
  · intro name haction hname
    have h : _executeManageProject P args st =
        (.ok (.obj [("success", .bool true),
                    ("message", .str ("Projet actif changé pour " ++ name))]),
         (st.enter "_executeManageProject").setContext "currentProject" (args.get "name")) := by
      simp [_executeManageProject, hargs, haction, hname, andThen]
    rw [h]
    refine ⟨rfl, rfl, ?_, ?_⟩
    · simp [St.context, St.setContext, St.enter, JsVal.get, lookup_setField]
    · intro k hk
      simp [St.context, St.setContext, St.enter, JsVal.get, lookup_setField_ne _ _ _ _ hk]
  · intro haction
    have h : ∃ r, _executeManageProject P args st =
        (.ok (.obj (("success", .bool true) :: r)), st.enter "_executeManageProject") := by
      simp [_executeManageProject, hargs, haction]
    obtain ⟨r, h⟩ := h
    rw [h]
    exact ⟨⟨_, rfl, rfl⟩, rfl⟩
  · intro name haction hname
    have h : ∃ r, _executeManageProject P args st =
        (.ok (.obj (("success", .bool true) :: r)), st.enter "_executeManageProject") := by
      rcases haction with haction | haction <;>
        simp [_executeManageProject, hargs, haction, hname, andThen]
    obtain ⟨r, h⟩ := h
    rw [h]
    exact ⟨⟨_, rfl, rfl⟩, rfl⟩
  · intro action hunknown haction
    have h1 : args.get "action" ≠ .str "create" := hunknown _ (by simp)
    have h2 : args.get "action" ≠ .str "list" := hunknown _ (by simp)
    have h3 : args.get "action" ≠ .str "switch" := hunknown _ (by simp)
    have h4 : args.get "action" ≠ .str "delete" := hunknown _ (by simp)
    have h : _executeManageProject P args st =
        (.error ("Action de projet non reconnue: " ++ action),
         st.enter "_executeManageProject") := by
      unfold _executeManageProject
      simp only [hargs, Bool.false_eq_true, if_false]
      simp [haction, andThen]
    rw [h]
    exact ⟨rfl, rfl⟩
  · intro m haction hname
    rcases haction with haction | haction | haction <;>
      simp [_executeManageProject, hargs, haction, hname, andThen]
  · intro m hunknown haction
    have h1 : args.get "action" ≠ .str "create" := hunknown _ (by simp)
    have h2 : args.get "action" ≠ .str "list" := hunknown _ (by simp)
    have h3 : args.get "action" ≠ .str "switch" := hunknown _ (by simp)
    have h4 : args.get "action" ≠ .str "delete" := hunknown _ (by simp)
    unfold _executeManageProject
    simp only [hargs, Bool.false_eq_true, if_false]
    simp [haction, andThen]
  · intro hargs
    simp [_executeManageProject, hargs]
  · intro m hm
    rcases executeManageProject_state P args st with h | ⟨_, ⟨r, hr⟩, _⟩
    · rw [h]; rfl
    · rw [hr] at hm
      cases hm
  · rcases executeManageProject_state P args st with h | ⟨haction, hreturns, _⟩
    · exact Or.inl (by rw [h]; rfl)
    · exact Or.inr ⟨haction, hreturns⟩

/-- C24, at concrete calls on a session whose context is empty: `switch` to `demo` makes
the context hold `currentProject` only; `list` and the unknown action `archive` leave it
empty; `switch` to a name without string form throws and leaves it empty. -/
theorem manage_project_context_witness :
    (JsVal.obj [("action", .str "switch"), ("name", .str "demo")]).isNullish = false ∧
    (_executeManageProject examplePlatform
        (.obj [("action", .str "switch"), ("name", .str "demo")]) exampleSt).1 =
      .ok (.obj [("success", .bool true),
                 ("message", .str "Projet actif changé pour demo")]) ∧
    (_executeManageProject examplePlatform
        (.obj [("action", .str "switch"), ("name", .str "demo")]) exampleSt).2.session.context =
      [("currentProject", .str "demo")] ∧
    (_executeManageProject examplePlatform (.obj [("action", .str "list")])
        exampleSt).2.session = exampleSt.session ∧
    (_executeManageProject examplePlatform (.obj [("action", .str "archive")]) exampleSt).1 =
      .error "Action de projet non reconnue: archive" ∧
    (_executeManageProject examplePlatform (.obj [("action", .str "archive")])
        exampleSt).2.session = exampleSt.session ∧
    _executeManageProject examplePlatform
        (.obj [("action", .str "switch"), ("name", .obj [("toString", .num 1)])]) exampleSt =
      (.error "Cannot convert object to primitive value",
       exampleSt.enter "_executeManageProject") ∧
    _executeManageProject examplePlatform .null exampleSt =
      (.error "Cannot destructure property \x27action\x27 of \x27args\x27 as it is null.",
       exampleSt.enter "_executeManageProject") :=
  have switched := ((manage_project_context examplePlatform
    (.obj [("action", .str "switch"), ("name", .str "demo")]) exampleSt).1 rfl).1
    "demo" rfl rfl
  have listed := ((manage_project_context examplePlatform (.obj [("action", .str "list")])
    exampleSt).1 rfl).2.1 rfl
  have other := ((manage_project_context examplePlatform (.obj [("action", .str "archive")])
    exampleSt).1 rfl).2.2.2.1 "archive"
    (fun known hmem heq => by
      have h2 : JsVal.str "archive" = JsVal.str known := heq
      cases h2
      exact absurd hmem (by decide)) rfl
  have unconvertible := ((manage_project_context examplePlatform
    (.obj [("action", .str "switch"), ("name", .obj [("toString", .num 1)])])
    exampleSt).1 rfl).2.2.2.2.1 "Cannot convert object to primitive value" (Or.inl rfl) rfl
  have absent := (manage_project_context examplePlatform .null exampleSt).2.1 rfl
  ⟨rfl, switched.1, switched.2.1, listed.2, other.1, other.2, unconvertible, absent⟩

/-- The text that the `update` action logs exists when its three arguments convert to
strings. -/
theorem logged_ok (path startLine endLine : JsVal) (p a b : String)
    (hp : toStr path = .ok p) (ha : toStr startLine = .ok a) (hb : toStr endLine = .ok b) :
    ∃ s, (match startLine, endLine with
        | .undefined, _ => toStr path
        | _, .undefined => toStr path
        | _, _ =>
            match toStr path with
            | .error m => .error m
            | .ok p =>
                match toStr startLine with
                | .error m => .error m
                | .ok a =>
                    match toStr endLine with
                    | .error m => .error m
                    | .ok b => .ok (p ++ " (lignes " ++ a ++ "-" ++ b ++ ")")) = Except.ok s := by
  split
  · exact ⟨p, hp⟩
  · exact ⟨p, hp⟩
  · simp [hp, ha, hb]

/-- C25, amended: for every runtime, every state and every argument value other than
`undefined` and `null`. When `currentProject` of the session context is falsy (unset, or
the empty string), `manage_file` and `exec_command` throw `Aucun projet sélectionné`,
whatever the action, and the state is as before but for the record of the call. When it is
truthy and the arguments `path`, `command`, `startLine` and `endLine` convert to strings,
`exec_command` returns `success: true`, and so does `manage_file` for the actions `create`,
`read`, `update`, `delete` and `list`. A
context without the key `currentProject` has no selected project, a string under that key
selects a project when it is not empty, and after `manage_project` has switched to
a non-empty name the context has one. Whatever the outcome, the two handlers leave the
state as it was but for the record of the call. -/
theorem file_handlers_need_project (P : Platform) (args : JsVal) (st : St)
    (hargs : args.isNullish = false) :
    ((st.context "currentProject").truthy = false →
      _executeManageFile P args st =
        (.error "Aucun projet sélectionné", st.enter "_executeManageFile") ∧
      _executeCommand args st =
        (.error "Aucun projet sélectionné", st.enter "_executeCommand")) ∧
    ((st.context "currentProject").truthy = true →
      (∀ k ∈ ["path", "command", "startLine", "endLine"], ∃ s, toStr (args.get k) = .ok s) →
      ((∃ a ∈ ["create", "read", "update", "delete", "list"], args.get "action" = .str a) →
        ∃ r, _executeManageFile P args st = (.ok r, st.enter "_executeManageFile") ∧
          r.get "success" = .bool true) ∧
      (∃ r, _executeCommand args st = (.ok r, st.enter "_executeCommand") ∧
        r.get "success" = .bool true)) ∧
    (st.session.context.lookup "currentProject" = none →
      (st.context "currentProject").truthy = false) ∧
    (∀ s, st.context "currentProject" = .str s →
      ((st.context "currentProject").truthy = true ↔ s ≠ "")) ∧
    (∀ name, name ≠ "" → args.get "action" = .str "switch" → args.get "name" = .str name →
      ((_executeManageProject P args st).2.context "currentProject").truthy = true) ∧
    ((_executeManageFile P args st).2 = st.enter "_executeManageFile" ∧
      (_executeCommand args st).2 = st.enter "_executeCommand") := by
  refine ⟨?_, ?_, ?_, ?_, ?_,
    ⟨executeManageFile_state P args st, executeCommand_state args st⟩⟩
  · intro hnone
    have hnone2 : ((st.enter "_executeManageFile").context "currentProject").truthy = false :=
      hnone
    have hnone3 : ((st.enter "_executeCommand").context "currentProject").truthy = false :=
      hnone
    constructor
    · simp [_executeManageFile, hargs, hnone2]
    · simp [_executeCommand, hargs, hnone3]
  · intro hsel hconv
    have hsel2 : ((st.enter "_executeManageFile").context "currentProject").truthy = true :=
      hsel
    have hsel3 : ((st.enter "_executeCommand").context "currentProject").truthy = true :=
      hsel
    obtain ⟨p, hp⟩ := hconv "path" (by simp)
    obtain ⟨c, hc⟩ := hconv "command" (by simp)
    obtain ⟨a, ha⟩ := hconv "startLine" (by simp)
    obtain ⟨b, hb⟩ := hconv "endLine" (by simp)
    constructor
    · rintro ⟨action, hmem, haction⟩
      have h : ∃ r, _executeManageFile P args st =
          (.ok (.obj (("success", .bool true) :: r)), st.enter "_executeManageFile") := by
        simp only [List.mem_cons, List.mem_singleton, List.not_mem_nil, or_false] at hmem
        rcases hmem with rfl | rfl | rfl | rfl | rfl
        · simp [_executeManageFile, hargs, hsel2, haction, hp, andThen]
        · simp [_executeManageFile, hargs, hsel2, haction, hp, andThen]
        · obtain ⟨s, hs⟩ := logged_ok _ _ _ p a b hp ha hb
          simp [_executeManageFile, hargs, hsel2, haction, hs, andThen]
        · simp [_executeManageFile, hargs, hsel2, haction, hp, andThen]
        · by_cases ht : (args.get "path").truthy = true
          · simp [_executeManageFile, hargs, hsel2, haction, hp, andThen, JsVal.or, ht,
              listedPath]
          · simp [_executeManageFile, hargs, hsel2, haction, hp, andThen, JsVal.or, ht,
              listedPath, toStr]
      obtain ⟨r, h⟩ := h
      rw [h]
      exact ⟨_, rfl, rfl⟩
    · have h : ∃ r, _executeCommand args st =
          (.ok (.obj (("success", .bool true) :: r)), st.enter "_executeCommand") := by
        simp [_executeCommand, hargs, hsel3, hc, andThen]
      obtain ⟨r, h⟩ := h
      rw [h]
      exact ⟨_, rfl, rfl⟩
  · intro hctx
    simp [St.context, hctx, JsVal.get, inherited, objectPrototypeKeys, JsVal.truthy]
  · intro s hs
    simp [hs, JsVal.truthy]
  · intro name hname haction hn
    have h : _executeManageProject P args st =
        (.ok (.obj [("success", .bool true),
                    ("message", .str ("Projet actif changé pour " ++ name))]),
         (st.enter "_executeManageProject").setContext "currentProject" (.str name)) := by
      simp [_executeManageProject, hargs, haction, hn, toStr, andThen]
    rw [h]
    simp [St.context, St.setContext, St.enter, JsVal.get, lookup_setField, JsVal.truthy, hname]

/-- An argument without string form: on a session with the project `demo` selected,
`manage_file` with the action `read` and a `path` that is an object with an own `toString` key
throws the `TypeError` of the template literal of its log line, and so does `manage_project`
with the action `switch` and such a `name`; the state is as before but for the record of the
call. -/
theorem unconvertible_argument_throws :
    _executeManageFile examplePlatform
        (.obj [("action", .str "read"), ("path", .obj [("toString", .num 1)])])
        (exampleSt.setContext "currentProject" (.str "demo")) =
      (.error "Cannot convert object to primitive value",
       (exampleSt.setContext "currentProject" (.str "demo")).enter "_executeManageFile") ∧
    _executeManageProject examplePlatform
        (.obj [("action", .str "switch"), ("name", .obj [("toString", .num 1)])])
        exampleSt =
      (.error "Cannot convert object to primitive value",
       exampleSt.enter "_executeManageProject") :=
  ⟨rfl, rfl⟩

/-- C25, counterexample: on a session without selected project, called with `undefined` as
arguments (a `tool_call` that carries no `tool_args`), `manage_file` and `exec_command` do
not throw `Aucun projet sélectionné`: the destructuring of the arguments, which stands
before the test of the project, throws a `TypeError`; likewise with `null`. -/
theorem file_handlers_without_args :
    (exampleSt.context "currentProject").truthy = false ∧
    _executeManageFile examplePlatform .undefined exampleSt =
      (.error "Cannot destructure property \x27action\x27 of \x27args\x27 as it is undefined.",
       exampleSt.enter "_executeManageFile") ∧
    _executeCommand .undefined exampleSt =
      (.error "Cannot destructure property \x27command\x27 of \x27args\x27 as it is undefined.",
       exampleSt.enter "_executeCommand") ∧
    _executeManageFile examplePlatform .null exampleSt =
      (.error "Cannot destructure property \x27action\x27 of \x27args\x27 as it is null.",
       exampleSt.enter "_executeManageFile") :=
  ⟨rfl, rfl, rfl, rfl⟩

/-- C25, at concrete calls: on the session of the examples, whose context is empty,
`manage_file` and `exec_command` throw; once `manage_project` has switched to `demo`, they
return `success: true`. -/
theorem file_handlers_need_project_witness :
    (JsVal.obj [("action", .str "read"), ("path", .str "a.txt"),
                ("command", .str "ls")]).isNullish = false ∧
    (exampleSt.context "currentProject").truthy = false ∧
    (_executeManageFile examplePlatform
        (.obj [("action", .str "read"), ("path", .str "a.txt"), ("command", .str "ls")])
        exampleSt).1 = .error "Aucun projet sélectionné" ∧
    (_executeCommand
        (.obj [("action", .str "read"), ("path", .str "a.txt"), ("command", .str "ls")])
        exampleSt).1 = .error "Aucun projet sélectionné" ∧
    ((_executeManageProject examplePlatform
        (.obj [("action", .str "switch"), ("name", .str "demo")])
        exampleSt).2.context "currentProject").truthy = true ∧
    (∃ r, (_executeManageFile examplePlatform
        (.obj [("action", .str "read"), ("path", .str "a.txt"), ("command", .str "ls")])
        (_executeManageProject examplePlatform
          (.obj [("action", .str "switch"), ("name", .str "demo")]) exampleSt).2).1 = .ok r ∧
      r.get "success" = .bool true) ∧
    (∃ r, (_executeCommand
        (.obj [("action", .str "read"), ("path", .str "a.txt"), ("command", .str "ls")])
        (_executeManageProject examplePlatform
          (.obj [("action", .str "switch"), ("name", .str "demo")]) exampleSt).2).1 = .ok r ∧
      r.get "success" = .bool true) :=
  have unselected := (file_handlers_need_project examplePlatform
    (.obj [("action", .str "read"), ("path", .str "a.txt"), ("command", .str "ls")])
    exampleSt rfl).1 rfl
  have switched := (file_handlers_need_project examplePlatform
    (.obj [("action", .str "switch"), ("name", .str "demo")]) exampleSt rfl).2.2.2.2.1
    "demo" (by decide) rfl rfl
  have selected := (file_handlers_need_project examplePlatform
    (.obj [("action", .str "read"), ("path", .str "a.txt"), ("command", .str "ls")])
    (_executeManageProject examplePlatform
      (.obj [("action", .str "switch"), ("name", .str "demo")]) exampleSt).2 rfl).2.1
    switched
    (fun k hk => by
      simp only [List.mem_cons, List.mem_singleton, List.not_mem_nil, or_false] at hk
      rcases hk with rfl | rfl | rfl | rfl <;> exact ⟨_, rfl⟩)
  ⟨rfl, rfl, by rw [unselected.1], by rw [unselected.2], switched,
   (selected.1 ⟨"read", by simp, rfl⟩).imp (fun r h => ⟨by rw [h.1], h.2⟩),
   selected.2.imp (fun r h => ⟨by rw [h.1], h.2⟩)⟩

end VibeMCP
